import Mathlib

/-!
# OS/161 logical pages (kern/vm/lpage.c)

A shallow embedding of the logical-page layer of the kernel: the five
statistics counters, the lpage record with its packed `lp_paddr` word, the
lock-and-pin loop, materialize / zerofill / copy, the fault handler and the
eviction handler.

The model is that of one kernel thread running the code of lpage.c.  The
collaborators that lpage.c calls but that live in other files (coremap, swap
store, MMU layer, kmalloc, locks) are small state transformers over the same
kernel state; each of them is marked as such.  Every call to a collaborator
is appended to a trace together with the locks the thread holds at that
moment.  An eviction that the frame allocator decides on is a call of
`lpage_evict`: a step of its own in a run, or, with the allocator
`coremap_allocuser_evicting`, a call made inside the allocation.
-/

namespace OS161

/-! ## Constants of the headers -/

/-- Modelled from the spec: machine/vm.h is not among the sources; size of a
page frame in bytes, the OS/161 value. -/
def PAGE_SIZE : Nat := 4096

/-- Modelled from the spec: machine/vm.h is not among the sources; mask that
keeps the frame part of a physical address, the OS/161 value. -/
def PAGE_FRAME : Nat := 0xfffff000

/-- Modelled from the spec: vm.h is not among the sources; the physical
location "none" of a page that is not resident. -/
def INVALID_PADDR : Nat := 0

/-- Modelled from the spec: vmprivate.h is not among the sources; the swap
location of a page that has none assigned. -/
def INVALID_SWAPADDR : Nat := 0

/-- Modelled from the spec: vmprivate.h is not among the sources; the dirty
flag kept in the low bits of `lp_paddr`. -/
def LPF_DIRTY : Nat := 0x1

/-- Modelled from the spec: vm.h is not among the sources; the fault type of
a read access. -/
def VM_FAULT_READ : Int := 0

/-- Modelled from the spec: vm.h is not among the sources; the fault type of
a write access. -/
def VM_FAULT_WRITE : Int := 1

/-- Modelled from the spec: vm.h is not among the sources; the fault type of
a write to a page mapped read-only. -/
def VM_FAULT_READONLY : Int := 2

/-- Width of the `uint32_t` statistics counters. -/
def UINT32_MOD : Nat := 2 ^ 32

/-- Error numbers returned by the lpage operations (kern/errno.h is not among
the sources, so they are kept symbolic; each is a non-zero `int`). -/
inductive Errno where
  | ENOMEM
  | ENOSPC
deriving DecidableEq, Repr

/-! ## Data model -/

/-- Content of one page frame or one swap slot: its bytes. -/
abbrev PageData := List Nat

/-- The content `coremap_zero_page` leaves in a frame. -/
def zero_page : PageData := List.replicate PAGE_SIZE 0

/-- The `struct lpage` of vmprivate.h as lpage.c uses it: the packed physical
address word, the swap address and the spinlock (true when held). -/
structure Lpage where
  lp_paddr : Nat
  lp_swapaddr : Nat
  lp_spinlock : Bool
deriving DecidableEq, Repr

/-- Calls that lpage.c makes into other files of the kernel. -/
inductive Event where
  | kmalloc (p : Option Nat)
  | kfree (p : Nat)
  | swap_alloc (swa : Nat)
  | swap_free (swa : Nat)
  | swap_pagein (pa swa : Nat)
  | swap_pageout (pa swa : Nat)
  | coremap_allocuser (lp pa : Nat)
  | coremap_free (pa : Nat)
  | coremap_pin (pa : Nat)
  | coremap_unpin (pa : Nat)
  | coremap_zero_page (pa : Nat)
  | coremap_copy_page (oldpa newpa : Nat)
  | mmu_map (as va pa : Nat) (writable : Bool)
deriving DecidableEq, Repr

/-- One entry of the trace: the call, the lpages whose spinlock the thread
holds when it makes the call, and whether it holds the global paging lock. -/
structure Call where
  ev : Event
  page_locks : List Nat
  paging_lock : Bool
deriving DecidableEq, Repr

/-- Kernel state seen by lpage.c. -/
structure Kernel where
  /-- the five `static volatile uint32_t` counters -/
  ct_zerofills : Nat
  ct_minfaults : Nat
  ct_majfaults : Nat
  ct_discard_evictions : Nat
  ct_write_evictions : Nat
  /-- the `stats_spinlock`, true when held -/
  stats_spinlock : Bool
  /-- the `global_paging_lock`, true when the thread holds it -/
  global_paging_lock : Bool
  /-- kernel heap of lpages: a `struct lpage *` is an index, a freed object is `none` -/
  lpages : List (Option Lpage)
  /-- number of objects kmalloc can still hand out -/
  kheap_avail : Nat
  /-- frames the allocator hands out next, in this order -/
  cm_free : List Nat
  /-- frames that are pinned -/
  cm_pinned : List Nat
  /-- content of physical memory, by frame address -/
  ram : Nat → PageData
  /-- swap slots the swap store hands out next, in this order -/
  sw_free : List Nat
  /-- content of the swap device, by slot address -/
  swap : Nat → PageData
  /-- calls made so far, oldest first -/
  trace : List Call

/-- Why a run does not return: a failed `KASSERT`, a lock that can never be
obtained, a dereferenced pointer to a freed object, or the loop budget of the
model. -/
inductive Halt where
  | assertion
  | deadlock
  | badptr
  | fuel
deriving DecidableEq, Repr

/-- Result of running kernel code from a state: it stops, or it returns a
value in a new state. -/
inductive Outcome (α : Type) where
  | halt (h : Halt)
  | done (a : α) (k : Kernel)

/-- Kernel code: a state transformer that may stop. -/
def KM (α : Type) : Type := Kernel → Outcome α

/-- Continue a run that has not stopped. -/
def Outcome.andThen {α β : Type} (o : Outcome α) (f : α → Kernel → Outcome β) : Outcome β :=
  match o with
  | .halt h => .halt h
  | .done a k1 => f a k1

/-- Sequencing of kernel code. -/
def KM.bind {α β : Type} (m : KM α) (f : α → KM β) : KM β := fun k =>
  (m k).andThen f

/-- Kernel code that returns a value and leaves the state alone. -/
def KM.pure {α : Type} (a : α) : KM α := fun k => .done a k

instance : Monad KM where
  pure := KM.pure
  bind := KM.bind

/-- Stop the run. -/
def stop {α : Type} (h : Halt) : KM α := fun _ => .halt h

/-- Read the state. -/
def getK : KM Kernel := fun k => .done k k

/-- Change the state. -/
def modK (f : Kernel → Kernel) : KM Unit := fun k => .done () (f k)

/-- The kernel assertion `KASSERT(b)`: a false condition stops the run. -/
def KASSERT (b : Bool) : KM Unit := fun k =>
  if b then .done () k else .halt .assertion

/-- Read a cell of the lpage heap; `none` for a pointer that does not point
to a live object. -/
def heap_get (l : List (Option Lpage)) (p : Nat) : Option Lpage := l.getD p none

/-- Overwrite a cell of the lpage heap. -/
def heap_set (l : List (Option Lpage)) (p : Nat) (x : Option Lpage) : List (Option Lpage) :=
  l.set p x

/-- The lpages of a heap whose spinlock is held, as pointers. -/
def held_lpages (l : List (Option Lpage)) : List Nat :=
  (List.range l.length).filter fun i =>
    match heap_get l i with
    | some pg => pg.lp_spinlock
    | none => false

/-- Append a call to the trace. -/
def log (e : Event) : KM Unit := modK fun k =>
  { k with trace := k.trace ++ [⟨e, held_lpages k.lpages, k.global_paging_lock⟩] }

/-- Dereference a `struct lpage *`. -/
def lp_get (lp : Nat) : KM Lpage := fun k =>
  match heap_get k.lpages lp with
  | some pg => .done pg k
  | none => .halt .badptr

/-- Store through a `struct lpage *`. -/
def lp_set (lp : Nat) (pg : Lpage) : KM Unit := fun k =>
  match heap_get k.lpages lp with
  | some _ => .done () { k with lpages := heap_set k.lpages lp (some pg) }
  | none => .halt .badptr

/-- The frame part of a physical address word: `pa & PAGE_FRAME`. -/
def frame_of (pa : Nat) : Nat := pa &&& PAGE_FRAME

/-- Modelled from the spec: vmprivate.h is not among the sources; the dirty
test `LP_ISDIRTY(lp)`, that is `lp->lp_paddr & LPF_DIRTY`. -/
def LP_ISDIRTY (pg : Lpage) : Bool := pg.lp_paddr &&& LPF_DIRTY != 0

/-- A page is resident when the frame part of `lp_paddr` is not
`INVALID_PADDR`. -/
def resident (pg : Lpage) : Bool := frame_of pg.lp_paddr != INVALID_PADDR

/-- A 32-bit counter after `++`. -/
def incr32 (n : Nat) : Nat := (n + 1) % UINT32_MOD

/-! ## Collaborators of lpage.c -/

/-- Modelled from the spec: spinlock.c is not among the sources;
`spinlock_acquire(&stats_spinlock)`, a busy-wait lock that its holder can
never obtain a second time. -/
def stats_acquire : KM Unit := fun k =>
  if k.stats_spinlock then .halt .deadlock
  else .done () { k with stats_spinlock := true }

/-- Modelled from the spec: spinlock.c is not among the sources;
`spinlock_release(&stats_spinlock)`. -/
def stats_release : KM Unit := fun k =>
  if k.stats_spinlock then .done () { k with stats_spinlock := false }
  else .halt .assertion

/-- Modelled from the spec: synch.c is not among the sources;
`lock_acquire(global_paging_lock)`, a blocking lock that its holder
cannot take again. -/
def paging_lock_acquire : KM Unit := fun k =>
  if k.global_paging_lock then .halt .deadlock
  else .done () { k with global_paging_lock := true }

/-- Modelled from the spec: synch.c is not among the sources;
`lock_release(global_paging_lock)`, which only the holder may call. -/
def paging_lock_release : KM Unit := fun k =>
  if k.global_paging_lock then .done () { k with global_paging_lock := false }
  else .halt .assertion

/-- Modelled from the spec: synch.c is not among the sources;
`lock_do_i_hold(global_paging_lock)`. -/
def paging_lock_do_i_hold : KM Bool := fun k => .done k.global_paging_lock k

/-- Modelled from the spec: kmalloc is not among the sources; it hands out a
fresh object or NULL (`none`) when the heap is exhausted. The new object
holds the given initial record. -/
def kmalloc (init : Lpage) : KM (Option Nat) := fun k =>
  if k.kheap_avail = 0 then
    (do log (.kmalloc none); pure none : KM (Option Nat)) k
  else
    (do log (.kmalloc (some k.lpages.length))
        modK fun s => { s with lpages := s.lpages ++ [some init],
                               kheap_avail := s.kheap_avail - 1 }
        pure (some k.lpages.length) : KM (Option Nat)) k

/-- Modelled from the spec: kfree is not among the sources; the object is
gone and its pointer dangles. -/
def kfree (lp : Nat) : KM Unit := do
  let _ ← lp_get lp
  log (.kfree lp)
  modK fun s => { s with lpages := heap_set s.lpages lp none,
                         kheap_avail := s.kheap_avail + 1 }

/-- Modelled from the spec: the swap store is not among the sources;
`allocate_slot() -> slot | exhausted`. -/
def swap_alloc : KM Nat := fun k =>
  match k.sw_free with
  | [] => (do log (.swap_alloc INVALID_SWAPADDR); pure INVALID_SWAPADDR : KM Nat) k
  | swa :: rest =>
    (do log (.swap_alloc swa)
        modK fun s => { s with sw_free := rest }
        pure swa : KM Nat) k

/-- Modelled from the spec: the swap store is not among the sources;
`free_slot(slot)`. -/
def swap_free (swa : Nat) : KM Unit := do
  log (.swap_free swa)
  modK fun s => { s with sw_free := s.sw_free ++ [swa] }

/-- Modelled from the spec: the swap store is not among the sources;
`read_into(frame, slot)` copies the slot's content into the frame. -/
def swap_pagein (pa swa : Nat) : KM Unit := do
  log (.swap_pagein pa swa)
  modK fun s => { s with ram := fun x => if x = pa then s.swap swa else s.ram x }

/-- Modelled from the spec: the swap store is not among the sources;
`write_from(frame, slot)` copies the frame's content into the slot. -/
def swap_pageout (pa swa : Nat) : KM Unit := do
  log (.swap_pageout pa swa)
  modK fun s => { s with swap := fun x => if x = swa then s.ram pa else s.swap x }

/-- Modelled from the spec: the coremap is not among the sources;
`allocate_user_frame(owner_page) -> frame | exhausted`, on the calls in
which the allocator evicts nothing: it hands out the next frame of its
supply, pinned, or reports exhaustion. An eviction that refills the supply
is then a separate call of `lpage_evict`. The allocation that evicts inside
the call is `coremap_allocuser_evicting`. -/
def coremap_allocuser (lp : Nat) : KM Nat := fun k =>
  match k.cm_free with
  | [] => (do log (.coremap_allocuser lp INVALID_PADDR); pure INVALID_PADDR : KM Nat) k
  | pa :: rest =>
    (do log (.coremap_allocuser lp pa)
        modK fun s => { s with cm_free := rest, cm_pinned := pa :: s.cm_pinned }
        pure pa : KM Nat) k

/-- Modelled from the spec: the coremap is not among the sources;
`free_frame(frame)` returns the frame to the allocator's supply. -/
def coremap_free (pa : Nat) : KM Unit := do
  log (.coremap_free pa)
  modK fun s => { s with cm_free := s.cm_free ++ [pa] }

/-- Modelled from the spec: the coremap is not among the sources;
`pin(frame)`. A frame pinned already stays pinned for as long as the one
thread of the model waits, so the call never returns then. -/
def coremap_pin (pa : Nat) : KM Unit := fun k =>
  if pa ∈ k.cm_pinned then .halt .deadlock
  else (do log (.coremap_pin pa)
           modK fun s => { s with cm_pinned := pa :: s.cm_pinned } : KM Unit) k

/-- Modelled from the spec: the coremap is not among the sources;
`unpin(frame)` of a frame that is pinned. -/
def coremap_unpin (pa : Nat) : KM Unit := fun k =>
  if pa ∈ k.cm_pinned then
    (do log (.coremap_unpin pa)
        modK fun s => { s with cm_pinned := s.cm_pinned.erase pa } : KM Unit) k
  else .halt .assertion

/-- Modelled from the spec: the coremap is not among the sources;
`is_pinned(frame) -> bool`. The frame of an address word is the word without
its flag bits. -/
def coremap_pageispinned (pa : Nat) : KM Bool := fun k =>
  .done (decide (frame_of pa ∈ k.cm_pinned)) k

/-- Modelled from the spec: the coremap is not among the sources;
`zero_frame(frame)`. -/
def coremap_zero_page (pa : Nat) : KM Unit := do
  log (.coremap_zero_page pa)
  modK fun s => { s with ram := fun x => if x = pa then zero_page else s.ram x }

/-- Modelled from the spec: the coremap is not among the sources;
`copy_frame(src, dst)`. -/
def coremap_copy_page (oldpa newpa : Nat) : KM Unit := do
  log (.coremap_copy_page oldpa newpa)
  modK fun s => { s with ram := fun x => if x = newpa then s.ram oldpa else s.ram x }

/-- Modelled from the spec: the MMU layer is not among the sources;
`install_mapping(address_space, virtual_address, frame, writable)`, which
consumes the caller's pin on the frame. -/
def mmu_map (as va pa : Nat) (writable : Bool) : KM Unit := do
  log (.mmu_map as va pa writable)
  modK fun s => { s with cm_pinned := s.cm_pinned.erase (frame_of pa) }

/-! ## lpage.c -/

/-- The assignment `lp->lp_paddr = v`. -/
def set_lp_paddr (lp v : Nat) : KM Unit := do
  let pg ← lp_get lp
  lp_set lp { pg with lp_paddr := v }

/-- The assignment `lp->lp_swapaddr = v`. -/
def set_lp_swapaddr (lp v : Nat) : KM Unit := do
  let pg ← lp_get lp
  lp_set lp { pg with lp_swapaddr := v }

/-- Modelled from the spec: vmprivate.h is not among the sources; the flag
setter `LP_SET(lp, bit)`, that is `lp->lp_paddr |= bit`. -/
def LP_SET (lp bit : Nat) : KM Unit := do
  let pg ← lp_get lp
  lp_set lp { pg with lp_paddr := pg.lp_paddr ||| bit }

/-- The function `lpage_create`: kmalloc, both addresses invalid, spinlock
initialised. -/
def lpage_create : KM (Option Nat) :=
  kmalloc { lp_paddr := INVALID_PADDR, lp_swapaddr := INVALID_SWAPADDR, lp_spinlock := false }

/-- The function `lpage_lock`: `spinlock_acquire(&lp->lp_spinlock)`. The holder of a
spinlock can never obtain it again. -/
def lpage_lock (lp : Nat) : KM Unit := do
  let pg ← lp_get lp
  if pg.lp_spinlock then stop .deadlock
  else lp_set lp { pg with lp_spinlock := true }

/-- The function `lpage_unlock`: asserts the lock is held and releases it. -/
def lpage_unlock (lp : Nat) : KM Unit := do
  let pg ← lp_get lp
  KASSERT pg.lp_spinlock
  lp_set lp { pg with lp_spinlock := false }

/-- The `while (1)` loop of `lpage_lock_and_pin`; the first argument bounds
the number of passes, `pinned` is the local variable of that name. -/
def lpage_lock_and_pin_loop (lp : Nat) : Nat → Nat → KM Unit
  | 0, _ => stop .fuel
  | fuel + 1, pinned => do
    let pg ← lp_get lp
    let pa := frame_of pg.lp_paddr
    if pa = pinned then
      pure ()
    else do
      lpage_unlock lp
      if pinned ≠ INVALID_PADDR then
        coremap_unpin pinned
      if pa = INVALID_PADDR then do
        lpage_lock lp
        let pg1 ← lp_get lp
        KASSERT (frame_of pg1.lp_paddr == INVALID_PADDR)
      else do
        coremap_pin pa
        lpage_lock lp
        lpage_lock_and_pin_loop lp fuel pa

/-- Passes granted to the loop of `lpage_lock_and_pin`. With one thread the
second pass always finds the frame it has just pinned. -/
def LOCK_AND_PIN_PASSES : Nat := 2

/-- The function `lpage_lock_and_pin`: lock the page, then run the loop with
nothing pinned yet. -/
def lpage_lock_and_pin (lp : Nat) : KM Unit := do
  lpage_lock lp
  lpage_lock_and_pin_loop lp LOCK_AND_PIN_PASSES INVALID_PADDR

/-- Modelled from the spec: spinlock.c is not among the sources;
`spinlock_cleanup(&lp->lp_spinlock)`, which requires the lock to be free. -/
def spinlock_cleanup (lp : Nat) : KM Unit := do
  let pg ← lp_get lp
  KASSERT (!pg.lp_spinlock)

/-- The function `lpage_destroy`: lock and pin, free the frame of a resident
page, free the swap slot, free the object. -/
def lpage_destroy (lp : Nat) : KM Unit := do
  lpage_lock_and_pin lp
  let pg ← lp_get lp
  let pa := frame_of pg.lp_paddr
  if pa ≠ INVALID_PADDR then do
    set_lp_paddr lp INVALID_PADDR
    lpage_unlock lp
    coremap_free pa
    coremap_unpin pa
  else
    lpage_unlock lp
  let pg1 ← lp_get lp
  if pg1.lp_swapaddr ≠ INVALID_SWAPADDR then
    swap_free pg1.lp_swapaddr
  spinlock_cleanup lp
  kfree lp

/-- The function `lpage_materialize`: on success the new lpage (locked) and its frame
(pinned). -/
def lpage_materialize : KM (Except Errno (Nat × Nat)) := do
  match ← lpage_create with
  | none => pure (.error .ENOMEM)
  | some lp =>
    let swa ← swap_alloc
    if swa = INVALID_SWAPADDR then do
      lpage_destroy lp
      pure (.error .ENOSPC)
    else do
      set_lp_swapaddr lp swa
      let pa ← coremap_allocuser lp
      if pa = INVALID_PADDR then do
        lpage_destroy lp
        pure (.error .ENOSPC)
      else do
        lpage_lock lp
        set_lp_paddr lp (pa ||| LPF_DIRTY)
        KASSERT (← coremap_pageispinned pa)
        pure (.ok (lp, pa))

/-- The function `lpage_copy`. The tail of the C function from
`KASSERT(coremap_pageispinned(oldpa))` on is the local `finish`. -/
def lpage_copy (oldlp : Nat) : KM (Except Errno Nat) := do
  match ← lpage_materialize with
  | .error e => pure (.error e)
  | .ok (newlp, newpa) =>
    KASSERT (← coremap_pageispinned newpa)
    lpage_lock_and_pin oldlp
    let oldpg ← lp_get oldlp
    let oldpa := frame_of oldpg.lp_paddr
    let finish (oldpa : Nat) : KM (Except Errno Nat) := do
      KASSERT (← coremap_pageispinned oldpa)
      coremap_copy_page oldpa newpa
      let newpg ← lp_get newlp
      KASSERT (LP_ISDIRTY newpg)
      lpage_unlock oldlp
      lpage_unlock newlp
      coremap_unpin newpa
      coremap_unpin oldpa
      pure (.ok newlp)
    if oldpa = INVALID_PADDR then do
      let swa := oldpg.lp_swapaddr
      lpage_unlock oldlp
      let oldpa1 ← coremap_allocuser oldlp
      if oldpa1 = INVALID_PADDR then do
        let newpg ← lp_get newlp
        coremap_unpin (frame_of newpg.lp_paddr)
        lpage_destroy newlp
        pure (.error .ENOMEM)
      else do
        KASSERT (← coremap_pageispinned oldpa1)
        paging_lock_acquire
        swap_pagein oldpa1 swa
        lpage_lock oldlp
        paging_lock_release
        let oldpg1 ← lp_get oldlp
        KASSERT (frame_of oldpg1.lp_paddr == INVALID_PADDR)
        set_lp_paddr oldlp oldpa1
        finish oldpa1
    else
      finish oldpa

/-- The function `lpage_zerofill`. -/
def lpage_zerofill : KM (Except Errno Nat) := do
  match ← lpage_materialize with
  | .error e => pure (.error e)
  | .ok (lp, pa) =>
    let pg ← lp_get lp
    KASSERT pg.lp_spinlock
    KASSERT (← coremap_pageispinned pa)
    lpage_unlock lp
    coremap_zero_page pa
    KASSERT (← coremap_pageispinned pa)
    coremap_unpin pa
    stats_acquire
    modK fun s => { s with ct_zerofills := incr32 s.ct_zerofills }
    stats_release
    pure (.ok lp)

/-- The part of `lpage_fault` after the minor/major branches: the checks,
the dirty mark, the mapping and the unlock. -/
def lpage_fault_map (lp as va : Nat) (writable : Bool) : KM (Except Errno Unit) := do
  let pg ← lp_get lp
  KASSERT (← coremap_pageispinned pg.lp_paddr)
  KASSERT pg.lp_spinlock
  if writable then
    LP_SET lp LPF_DIRTY
  let pg1 ← lp_get lp
  KASSERT (← coremap_pageispinned pg1.lp_paddr)
  mmu_map as va pg1.lp_paddr writable
  lpage_unlock lp
  pure (.ok ())

/-- The function `lpage_fault`. -/
def lpage_fault (lp as : Nat) (faulttype : Int) (va : Nat) : KM (Except Errno Unit) := do
  paging_lock_acquire
  let pg0 ← lp_get lp
  if frame_of pg0.lp_paddr ≠ INVALID_PADDR then
    lpage_lock_and_pin lp
  else
    lpage_lock lp
  paging_lock_release
  let pg ← lp_get lp
  KASSERT (pg.lp_swapaddr != INVALID_SWAPADDR)
  let pa := pg.lp_paddr
  if frame_of pa ≠ INVALID_PADDR then do
    KASSERT (pa != INVALID_PADDR)
    let writable : Bool := faulttype != VM_FAULT_READ
    stats_acquire
    modK fun s => { s with ct_minfaults := incr32 s.ct_minfaults }
    stats_release
    lpage_fault_map lp as va writable
  else do
    KASSERT (pa == INVALID_PADDR)
    lpage_unlock lp
    let pa1 ← coremap_allocuser lp
    if frame_of pa1 = INVALID_PADDR then
      pure (.error .ENOMEM)
    else do
      KASSERT (← coremap_pageispinned pa1)
      paging_lock_acquire
      let pg1 ← lp_get lp
      swap_pagein (frame_of pa1) pg1.lp_swapaddr
      lpage_lock lp
      paging_lock_release
      let pg2 ← lp_get lp
      KASSERT (frame_of pg2.lp_paddr == INVALID_PADDR)
      set_lp_paddr lp pa1
      let writable : Bool := false
      stats_acquire
      modK fun s => { s with ct_majfaults := incr32 s.ct_majfaults }
      stats_release
      lpage_fault_map lp as va writable

/-- The function `lpage_evict`. -/
def lpage_evict (lp : Nat) : KM Unit := do
  lpage_lock lp
  let pg ← lp_get lp
  KASSERT (pg.lp_paddr != INVALID_PADDR)
  KASSERT (pg.lp_swapaddr != INVALID_SWAPADDR)
  if LP_ISDIRTY pg then do
    lpage_unlock lp
    KASSERT (← paging_lock_do_i_hold)
    KASSERT (← coremap_pageispinned pg.lp_paddr)
    swap_pageout (frame_of pg.lp_paddr) pg.lp_swapaddr
    lpage_lock lp
    let pg1 ← lp_get lp
    KASSERT (frame_of pg1.lp_paddr != INVALID_PADDR)
    stats_acquire
    modK fun s => { s with ct_write_evictions := incr32 s.ct_write_evictions }
    stats_release
  else do
    stats_acquire
    modK fun s => { s with ct_discard_evictions := incr32 s.ct_discard_evictions }
    stats_release
  set_lp_paddr lp INVALID_PADDR
  lpage_unlock lp

/-! ## Vocabulary of the properties -/

/-- The state a run ends in, or the given state when the run stops. -/
def Outcome.state {α : Type} (o : Outcome α) (dflt : Kernel) : Kernel :=
  match o with
  | .halt _ => dflt
  | .done _ k => k

deriving instance DecidableEq for Except

/-- The value a run returns, if it returns. -/
def Outcome.result? {α : Type} (o : Outcome α) : Option α :=
  match o with
  | .halt _ => none
  | .done a _ => some a

/-- All five statistics counters are zero. -/
def counters_zero (k : Kernel) : Prop :=
  k.ct_zerofills = 0 ∧ k.ct_minfaults = 0 ∧ k.ct_majfaults = 0 ∧
  k.ct_discard_evictions = 0 ∧ k.ct_write_evictions = 0

instance (k : Kernel) : Decidable (counters_zero k) := by
  unfold counters_zero
  infer_instance

/-- The frame allocator hands out addresses of page frames: every address in
its supply is page-aligned. -/
def cm_frames_aligned (k : Kernel) : Prop :=
  ∀ pa ∈ k.cm_free, frame_of pa = pa

instance (k : Kernel) : Decidable (cm_frames_aligned k) := by
  unfold cm_frames_aligned
  infer_instance

/-- Between two calls on the page `lp` nothing has touched the page: the five
counters, the lpage record, the content of its frame (when it has one) and
the content of its swap slot are in `k2` what they were in `k1`. Pins, locks
and the supplies of the allocators may differ. -/
def page_untouched (lp : Nat) (k1 k2 : Kernel) : Prop :=
  k2.ct_zerofills = k1.ct_zerofills ∧ k2.ct_minfaults = k1.ct_minfaults ∧
  k2.ct_majfaults = k1.ct_majfaults ∧
  k2.ct_discard_evictions = k1.ct_discard_evictions ∧
  k2.ct_write_evictions = k1.ct_write_evictions ∧
  heap_get k2.lpages lp = heap_get k1.lpages lp ∧
  ∀ pg, heap_get k1.lpages lp = some pg →
    (resident pg = true → k2.ram (frame_of pg.lp_paddr) = k1.ram (frame_of pg.lp_paddr)) ∧
    k2.swap pg.lp_swapaddr = k1.swap pg.lp_swapaddr

/-- The call that ended last, if any. -/
def last_call (k : Kernel) : Option Event := k.trace.getLast?.map Call.ev

/-- A store of new content into a frame, as a user program does through a
writable mapping. -/
def frame_store (k : Kernel) (pa : Nat) (c : PageData) : Kernel :=
  { k with ram := fun x => if x = pa then c else k.ram x }

/-! ## A small machine and runs on it -/

/-- A freshly booted machine: counters zero, no lpage, three free frames, two
free swap slots. -/
def boot : Kernel :=
  { ct_zerofills := 0, ct_minfaults := 0, ct_majfaults := 0,
    ct_discard_evictions := 0, ct_write_evictions := 0,
    stats_spinlock := false, global_paging_lock := false,
    lpages := [], kheap_avail := 8,
    cm_free := [0x1000, 0x2000, 0x3000], cm_pinned := [],
    ram := fun _ => [], sw_free := [0x5000, 0x6000], swap := fun _ => [],
    trace := [] }

/-- The allocator about to evict the page in frame `pa`: it has pinned the
frame and holds the global paging lock. -/
def evictor_enters (k : Kernel) (pa : Nat) : Kernel :=
  { k with cm_pinned := pa :: k.cm_pinned, global_paging_lock := true }

/-- The allocator done with an eviction: the lock is released, the frame
`pa` is unpinned and back in its supply. -/
def evictor_leaves (k : Kernel) (pa : Nat) : Kernel :=
  { k with cm_pinned := k.cm_pinned.erase pa, global_paging_lock := false,
           cm_free := k.cm_free ++ [pa] }

/-- Scenario B on the booted machine: after zerofill. -/
def sb1 : Kernel := (lpage_zerofill boot).state boot

/-- Scenario B: the allocator picks the page as victim. -/
def sb1e : Kernel := evictor_enters sb1 0x1000

/-- Scenario B: after the eviction. -/
def sb2 : Kernel := (lpage_evict 0 sb1e).state boot

/-- Scenario B: the allocator has reclaimed the frame. -/
def sb2e : Kernel := evictor_leaves sb2 0x1000

/-- Scenario B: after the read fault. -/
def sb3 : Kernel := (lpage_fault 0 1 VM_FAULT_READ 0x400000 sb2e).state boot

/-- Scenario A: after zerofill and the write fault. -/
def sa2 : Kernel := (lpage_fault 0 1 VM_FAULT_WRITE 0x400000 sb1).state boot

/-- Scenario A: the allocator picks the page as victim. -/
def sa2e : Kernel := evictor_enters sa2 0x1000

/-- Scenario A: after the eviction. -/
def sa3 : Kernel := (lpage_evict 0 sa2e).state boot

/-- Scenario A: the allocator has reclaimed the frame. -/
def sa3e : Kernel := evictor_leaves sa3 0x1000

/-- Scenario A: after the read fault. -/
def sa4 : Kernel := (lpage_fault 0 1 VM_FAULT_READ 0x400000 sa3e).state boot

/-- A resident dirty page with content in its frame, the evictor at work. -/
def durable_k : Kernel := { sb1e with ram := fun x => if x = 0x1000 then [1, 2, 3] else [] }

/-- After the eviction. -/
def durable_k1 : Kernel := (lpage_evict 0 durable_k).state boot

/-- The evictor has left. -/
def durable_k2 : Kernel := evictor_leaves durable_k1 0x1000

/-- After the fault. -/
def durable_k3 : Kernel := (lpage_fault 0 1 VM_FAULT_WRITE 0x400000 durable_k2).state boot

/-- The page of scenario B after its read fault (resident, clean), the
evictor at work on its frame. -/
def clean_k : Kernel := evictor_enters sb3 0x2000

/-- After the eviction. -/
def clean_k1 : Kernel := (lpage_evict 0 clean_k).state boot

/-- The evictor has left. -/
def clean_k2 : Kernel := evictor_leaves clean_k1 0x2000

/-- After the fault. -/
def clean_k3 : Kernel := (lpage_fault 0 1 VM_FAULT_READ 0x400000 clean_k2).state boot

/-- The page of scenario B evicted, the allocator out of frames. -/
def enomem_k : Kernel := { sb2e with cm_free := [] }

/-- After the write fault on the evicted page of scenario B. -/
def major_k' : Kernel := (lpage_fault 0 1 VM_FAULT_WRITE 0x400000 sb2e).state boot

/-- The booted machine with an empty swap store. -/
def noswap_k : Kernel := { boot with sw_free := [] }

/-- The booted machine with no free frame. -/
def noframe_k : Kernel := { boot with cm_free := [] }

/-- The evicted page of scenario B, one frame left. -/
def copyfail_k : Kernel := { sb2e with cm_free := [0x3000] }

/-- After copying the zero-filled page of scenario B. -/
def copy_k' : Kernel := (lpage_copy 0 sb1).state boot

/-! ## Vocabulary of the lock discipline and of runs of faults -/

/-- The allocator's supply holds no frame that is pinned. -/
def cm_free_unpinned (k : Kernel) : Prop :=
  ∀ pa ∈ k.cm_free, pa ∉ k.cm_pinned

instance (k : Kernel) : Decidable (cm_free_unpinned k) := by
  unfold cm_free_unpinned
  infer_instance

/-- A call into the frame allocator (coremap_allocuser, coremap_pin,
coremap_unpin, coremap_free, coremap_copy_page, coremap_zero_page) or into
the swap store. -/
def Event.allocator_or_swap : Event → Bool
  | .coremap_allocuser _ _ => true
  | .coremap_pin _ => true
  | .coremap_unpin _ => true
  | .coremap_free _ => true
  | .coremap_copy_page _ _ => true
  | .coremap_zero_page _ => true
  | .swap_alloc _ => true
  | .swap_free _ => true
  | .swap_pagein _ _ => true
  | .swap_pageout _ _ => true
  | _ => false

/-- A swap read or write. -/
def Event.swap_io : Event → Bool
  | .swap_pagein _ _ => true
  | .swap_pageout _ _ => true
  | _ => false

/-- A call respects the page-lock rule when it is not a call into the frame
allocator or the swap store, or no per-page lock is held. -/
def Call.no_page_lock (c : Call) : Bool :=
  !c.ev.allocator_or_swap || c.page_locks.isEmpty

/-- A call respects the swap rule when it is not swap I/O, or the global
paging lock is held. -/
def Call.swap_locked (c : Call) : Bool :=
  !c.ev.swap_io || c.paging_lock

/-- The calls made between the state `k` and the later state `k1`. -/
def calls_since (k k1 : Kernel) : List Call := k1.trace.drop k.trace.length

/-- Lock discipline between two states: no call into the frame allocator or
the swap store was made with a per-page lock held, and every swap read or
write was made with the global paging lock held. -/
def disciplined (k k1 : Kernel) : Prop :=
  ∀ c ∈ calls_since k k1, c.no_page_lock = true ∧ c.swap_locked = true

instance (k k1 : Kernel) : Decidable (disciplined k k1) := by
  unfold disciplined
  infer_instance

/-- Between two states every swap read or write was made with the global
paging lock held. -/
def swap_io_locked (k k1 : Kernel) : Prop :=
  ∀ c ∈ calls_since k k1, c.swap_locked = true

instance (k k1 : Kernel) : Decidable (swap_io_locked k k1) := by
  unfold swap_io_locked
  infer_instance

/-- A run of `n` successful faults on the page `lp`, from the first state to
the last; between two faults other code may run, as long as it leaves the
page, its frame, its slot and the counters alone (in particular the page is
not evicted). -/
inductive resident_faults (lp : Nat) : Nat → Kernel → Kernel → Prop where
  | start (k : Kernel) : resident_faults lp 0 k k
  | next {n : Nat} {k k1 k1e k2 : Kernel} (as va : Nat) (ft : Int) :
      resident_faults lp n k k1 → page_untouched lp k1 k1e →
      lpage_fault lp as ft va k1e = .done (.ok ()) k2 →
      resident_faults lp (n + 1) k k2

/-! ## lpage_lock_and_pin with other threads at work -/

/-- What other threads do to the page `lp` while the caller does not hold
its lock: `some v` stores the address word `v` in `lp_paddr` (an eviction
stores INVALID_PADDR, a page-in a frame), `none` is no change. -/
def others_move (lp : Nat) (mv : Option Nat) : KM Unit := fun k =>
  match mv, heap_get k.lpages lp with
  | some v, some pg =>
    .done () { k with lpages := heap_set k.lpages lp (some { pg with lp_paddr := v }) }
  | _, _ => .done () k

/-- The `while (1)` loop of `lpage_lock_and_pin` with other threads at work:
the loop of `lpage_lock_and_pin_loop`, and in every pass, between the
`lpage_unlock` and the next `lpage_lock`, the other threads make the next
change of the list `env` (no change once the list is used up). -/
def lpage_lock_and_pin_loop_with (lp : Nat) : Nat → Nat → List (Option Nat) → KM Unit
  | 0, _, _ => stop .fuel
  | fuel + 1, pinned, env => do
    let pg ← lp_get lp
    let pa := frame_of pg.lp_paddr
    if pa = pinned then
      pure ()
    else do
      lpage_unlock lp
      if pinned ≠ INVALID_PADDR then
        coremap_unpin pinned
      if pa = INVALID_PADDR then do
        others_move lp (env.headD none)
        lpage_lock lp
        let pg1 ← lp_get lp
        KASSERT (frame_of pg1.lp_paddr == INVALID_PADDR)
      else do
        coremap_pin pa
        others_move lp (env.headD none)
        lpage_lock lp
        lpage_lock_and_pin_loop_with lp fuel pa env.tail

/-- The function `lpage_lock_and_pin` with other threads at work. -/
def lpage_lock_and_pin_with (lp fuel : Nat) (env : List (Option Nat)) : KM Unit := do
  lpage_lock lp
  lpage_lock_and_pin_loop_with lp fuel INVALID_PADDR env

/-- Number of `coremap_pin` calls on the frame `f` in a list of calls. -/
def pins (f : Nat) (tr : List Call) : Nat :=
  tr.countP fun c => c.ev = .coremap_pin f

/-- Number of `coremap_unpin` calls on the frame `f` in a list of calls. -/
def unpins (f : Nat) (tr : List Call) : Nat :=
  tr.countP fun c => c.ev = .coremap_unpin f

/-! ## More runs on the small machine -/

/-- After copying the evicted page of scenario B. -/
def copy_nr_k' : Kernel := (lpage_copy 0 sb2e).state boot

/-- Scenario A continued: a read fault right after the write fault. -/
def sa2b : Kernel := (lpage_fault 0 1 VM_FAULT_READ 0x400000 sa2).state boot

/-- After destroying the zero-filled page of scenario B. -/
def destroy_k' : Kernel := (lpage_destroy 0 sb1).state boot

/-- The page of scenario B after `lpage_lock_and_pin` with other threads at
work: while the call runs they move the page first to the frame 0x2000, then
back to 0x1000. -/
def moved_k' : Kernel :=
  (lpage_lock_and_pin_with 0 4 [some 0x2000, some 0x1000] sb1).state boot

/-! ## pid.c: constants, data model -/

/-- The constant `INVALID_PID` of pid.h. -/
def INVALID_PID : Nat := 0

/-- The constant `BOOTUP_PID` of pid.h. -/
def BOOTUP_PID : Nat := 1

/-- Constants that pid.c takes from headers that are not among the sources
(limits.h, kern/wait.h, kern/signal.h); they are parameters of the model. -/
structure PidConfig where
  PROCS_MAX : Nat
  PID_MIN : Nat
  PID_MAX : Nat
  WNOHANG : Int
  SIGKILL : Int
  SIGSTOP : Int
  SIGCONT : Int
  SIGINT : Int
  SIGQUIT : Int
  SIGWINCH : Int
  SIGINFO : Int
deriving DecidableEq, Repr

/-- Error numbers pid.c returns (kern/errno.h is not among the sources, so
they are kept symbolic; each is a positive `int`). -/
inductive PidErrno where
  | EAGAIN
  | ENOMEM
  | ESRCH
  | EINVAL
  | EUNIMP
  | ECHILD
  | EDEADLK
deriving DecidableEq, Repr

/-- The `struct pidinfo` of pid.h without its condition variable. A `pid_t`
is a natural number: every pid the kernel hands out is one, so the check
`pid>=0` of pi_get holds by type. `pi_signal` is the bit pattern of the
`int`. -/
structure Pidinfo where
  pi_pid : Nat
  pi_ppid : Nat
  pi_exited : Bool
  pi_exitstatus : Int
  pi_signal : Nat
deriving DecidableEq, Repr

/-- The static data of pid.c. A `struct pidinfo *` stored in the table is
the record itself; a pointer to a record in the table is its slot. -/
structure PidState where
  /-- the `pidlock`, true when the running thread holds it -/
  pidlock : Bool
  /-- the array `pidinfo[PROCS_MAX]`, by index; `none` is NULL -/
  pidinfo : Nat → Option Pidinfo
  /-- the variable `nextpid` -/
  nextpid : Nat
  /-- the variable `nprocs` -/
  nprocs : Int
  /-- number of pidinfo structures (with their condition variable) that
  kmalloc and cv_create can still hand out -/
  pi_avail : Nat
  /-- indices of array reads made outside `0 .. PROCS_MAX-1`, oldest first -/
  oob_reads : List Nat
  /-- the words of memory that follow the array `pidinfo`, by the index that
  reads them: `after_table PROCS_MAX` is what `pidinfo[PROCS_MAX]` reads.
  What the linker puts there is not fixed by pid.c -/
  after_table : Nat → Nat

/-- Result of running code of pid.c from a state. -/
inductive PidOutcome (α : Type) where
  | halt (h : Halt)
  | done (a : α) (k : PidState)

/-- Code of pid.c: a state transformer that may stop. -/
def PidM (α : Type) : Type := PidState → PidOutcome α

/-- Continue a run that has not stopped. -/
def PidOutcome.andThen {α β : Type} (o : PidOutcome α) (f : α → PidState → PidOutcome β) :
    PidOutcome β :=
  match o with
  | .halt h => .halt h
  | .done a k1 => f a k1

/-- Sequencing. -/
def PidM.bind {α β : Type} (m : PidM α) (f : α → PidM β) : PidM β := fun k =>
  (m k).andThen f

/-- Return a value and leave the state alone. -/
def PidM.pure {α : Type} (a : α) : PidM α := fun k => .done a k

instance : Monad PidM where
  pure := PidM.pure
  bind := PidM.bind

/-- Stop the run. -/
def pid_stop {α : Type} (h : Halt) : PidM α := fun _ => .halt h

/-- Read the state. -/
def pid_state : PidM PidState := fun k => .done k k

/-- Change the state. -/
def pid_modify (f : PidState → PidState) : PidM Unit := fun k => .done () (f k)

/-- The kernel assertion `KASSERT(b)` in pid.c. -/
def pid_KASSERT (b : Bool) : PidM Unit := fun k =>
  if b then .done () k else .halt .assertion

/-- The state a run ends in, or the given state when the run stops. -/
def PidOutcome.state {α : Type} (o : PidOutcome α) (dflt : PidState) : PidState :=
  match o with
  | .halt _ => dflt
  | .done _ k => k

/-- The value a run returns, if it returns. -/
def PidOutcome.result? {α : Type} (o : PidOutcome α) : Option α :=
  match o with
  | .halt _ => none
  | .done a _ => some a

/-! ## Collaborators of pid.c -/

/-- Modelled from the spec: synch.c is not among the sources;
`lock_acquire(pidlock)`, a blocking lock that its holder cannot take
again. -/
def pidlock_acquire : PidM Unit := fun k =>
  if k.pidlock then .halt .deadlock else .done () { k with pidlock := true }

/-- Modelled from the spec: synch.c is not among the sources;
`lock_release(pidlock)`, which only the holder may call. -/
def pidlock_release : PidM Unit := fun k =>
  if k.pidlock then .done () { k with pidlock := false } else .halt .assertion

/-- Modelled from the spec: synch.c is not among the sources;
`lock_do_i_hold(pidlock)`. -/
def pidlock_do_i_hold : PidM Bool := fun k => .done k.pidlock k

/-- Modelled from the spec: synch.c is not among the sources; `cv_signal`
wakes a waiting thread and changes nothing in the data of pid.c. -/
def cv_signal : PidM Unit := pure ()

/-- Modelled from the spec: synch.c is not among the sources; `cv_wait`
puts the running thread to sleep until another thread signals; no other
thread runs inside one call, so the call does not return. -/
def cv_wait : PidM Unit := pid_stop .deadlock

/-- The read `pidinfo[i]`, with the use pid.c makes of the pointer when the
index is outside the array. Such a read gets the word of memory that follows
the array there. A zero word is NULL. Any other word is not a pointer to a
`struct pidinfo`: the one read of this kind, `child = pidinfo[i]` in
`pi_detach_children`, goes on to `child->pi_ppid` when `child != NULL`,
and that access stops the run. -/
def pidinfo_read (C : PidConfig) (i : Nat) : PidM (Option Pidinfo) := fun k =>
  if i < C.PROCS_MAX then .done (k.pidinfo i) k
  else if k.after_table i = 0 then .done none { k with oob_reads := k.oob_reads ++ [i] }
  else .halt .badptr

/-- The store `pidinfo[i] = v`, or a store through a pointer to the record
in slot `i`. -/
def pidinfo_write (i : Nat) (v : Option Pidinfo) : PidM Unit :=
  pid_modify fun k => { k with pidinfo := Function.update k.pidinfo i v }

/-- Dereference a pointer to the record in slot `i`. -/
def pidinfo_deref (i : Nat) : PidM Pidinfo := fun k =>
  match k.pidinfo i with
  | some e => .done e k
  | none => .halt .badptr

/-- The value of `1 << sig` as a 32-bit pattern. -/
def shl32 (sig : Int) : Nat := (1 <<< sig.toNat) % 2 ^ 32

/-- The value of `~x` as a 32-bit pattern. -/
def not32 (x : Nat) : Nat := (2 ^ 32 - 1) ^^^ (x % 2 ^ 32)

/-- The `int` with the given 32-bit pattern. -/
def int32_of (x : Nat) : Int :=
  if x % 2 ^ 32 < 2 ^ 31 then (x % 2 ^ 32 : Nat) else ((x % 2 ^ 32 : Nat) : Int) - 2 ^ 32

/-! ## pid.c -/

/-- The function `pidinfo_create`: NULL when kmalloc or cv_create fails. -/
def pidinfo_create (pid ppid : Nat) : PidM (Option Pidinfo) := do
  pid_KASSERT (pid != INVALID_PID)
  let k ← pid_state
  if k.pi_avail = 0 then
    pure none
  else do
    pid_modify fun s => { s with pi_avail := s.pi_avail - 1 }
    pure (some { pi_pid := pid, pi_ppid := ppid, pi_exited := false,
                 pi_exitstatus := 0xbaad, pi_signal := 0 })

/-- The function `pidinfo_destroy`. -/
def pidinfo_destroy (pi : Pidinfo) : PidM Unit := do
  pid_KASSERT (pi.pi_exited == true)
  pid_KASSERT (pi.pi_ppid == INVALID_PID)
  pid_modify fun s => { s with pi_avail := s.pi_avail + 1 }

/-- The function `pid_bootstrap`, when `lock_create` succeeds; a failing
`pidinfo_create` is the panic. -/
def pid_bootstrap (C : PidConfig) : PidM Unit := do
  pid_modify fun s => { s with pidlock := false }
  pid_modify fun s => { s with pidinfo := fun _ => none }
  match ← pidinfo_create BOOTUP_PID INVALID_PID with
  | none => pid_stop .assertion
  | some pi =>
    pid_modify fun s => { s with pidinfo := Function.update s.pidinfo BOOTUP_PID (some pi) }
    pid_modify fun s => { s with nextpid := C.PID_MIN, nprocs := 1 }

/-- The function `pi_get`: a pointer to the record of `pid` (its slot), or
NULL. The check `pid>=0` holds by type. -/
def pi_get (C : PidConfig) (pid : Nat) : PidM (Option Nat) := do
  pid_KASSERT (pid != INVALID_PID)
  pid_KASSERT (← pidlock_do_i_hold)
  let pi ← pidinfo_read C (pid % C.PROCS_MAX)
  match pi with
  | none => pure none
  | some e =>
    if e.pi_pid ≠ pid then pure none
    else pure (some (pid % C.PROCS_MAX))

/-- The function `pi_put`. -/
def pi_put (C : PidConfig) (pid : Nat) (pi : Pidinfo) : PidM Unit := do
  pid_KASSERT (← pidlock_do_i_hold)
  pid_KASSERT (pid != INVALID_PID)
  let old ← pidinfo_read C (pid % C.PROCS_MAX)
  pid_KASSERT old.isNone
  pidinfo_write (pid % C.PROCS_MAX) (some pi)
  pid_modify fun s => { s with nprocs := s.nprocs + 1 }

/-- The function `pi_drop`. -/
def pi_drop (C : PidConfig) (pid : Nat) : PidM Unit := do
  pid_KASSERT (← pidlock_do_i_hold)
  let pi ← pidinfo_read C (pid % C.PROCS_MAX)
  match pi with
  | none => pid_stop .assertion
  | some e =>
    pid_KASSERT (e.pi_pid == pid)
    pidinfo_destroy e
    pidinfo_write (pid % C.PROCS_MAX) none
    pid_modify fun s => { s with nprocs := s.nprocs - 1 }

/-- The function `inc_nextpid`. -/
def inc_nextpid (C : PidConfig) : PidM Unit := do
  pid_KASSERT (← pidlock_do_i_hold)
  pid_modify fun s => { s with nextpid := s.nextpid + 1 }
  let k ← pid_state
  if k.nextpid > C.PID_MAX then
    pid_modify fun s => { s with nextpid := C.PID_MIN }

/-- The `while` loop of `pid_alloc`; the first argument bounds the number of
passes, `count` is the local variable of that name. -/
def pid_alloc_scan (C : PidConfig) : Nat → Nat → PidM Unit
  | 0, _ => pid_stop .fuel
  | fuel + 1, count => do
    let k ← pid_state
    let pi ← pidinfo_read C (k.nextpid % C.PROCS_MAX)
    if pi.isSome then do
      pid_KASSERT (count < C.PROCS_MAX * 2 + 5)
      inc_nextpid C
      pid_alloc_scan C fuel (count + 1)
    else
      pure ()

/-- The function `pid_alloc` run by a thread whose pid is `t_pid`: the
error number it returns, or the pid it stores in `*retval` when it returns
0. The assertion in the loop fails before the budget of the loop is used
up. -/
def pid_alloc (C : PidConfig) (t_pid : Nat) : PidM (Except PidErrno Nat) := do
  pid_KASSERT (t_pid != INVALID_PID)
  pidlock_acquire
  let k ← pid_state
  if k.nprocs = C.PROCS_MAX then do
    pidlock_release
    pure (.error .EAGAIN)
  else do
    pid_alloc_scan C (C.PROCS_MAX * 2 + 5 + 1) 0
    let k1 ← pid_state
    let pid := k1.nextpid
    match ← pidinfo_create pid t_pid with
    | none =>
      pidlock_release
      pure (.error .ENOMEM)
    | some pi =>
      pi_put C pid pi
      inc_nextpid C
      pidlock_release
      pure (.ok pid)

/-- The body of the `for` loop of `pi_detach_children` for the index `i`. -/
def pi_detach_child (C : PidConfig) (pid i : Nat) : PidM Unit := do
  let child ← pidinfo_read C i
  match child with
  | none => pure ()
  | some c =>
    if c.pi_ppid = pid then do
      pidinfo_write i (some { c with pi_ppid := INVALID_PID })
      if c.pi_exited then
        pi_drop C c.pi_pid
    else
      pure ()

/-- Run the body of the `for` loop of `pi_detach_children` for the given
indices, in order. -/
def pi_detach_children_loop (C : PidConfig) (pid : Nat) : List Nat → PidM Unit
  | [] => pure ()
  | i :: rest => do
    pi_detach_child C pid i
    pi_detach_children_loop C pid rest

/-- The function `pi_detach_children`: the loop
`for (int i = 1; i <= PROCS_MAX; ++i)`. -/
def pi_detach_children (C : PidConfig) (pid : Nat) : PidM Unit := do
  pid_KASSERT (pid != INVALID_PID)
  pid_KASSERT (← pidlock_do_i_hold)
  pi_detach_children_loop C pid (List.range' 1 C.PROCS_MAX)

/-- The function `pid_exit` run by a thread whose pid is `t_pid`. -/
def pid_exit (C : PidConfig) (t_pid : Nat) (status : Int) : PidM Unit := do
  pidlock_acquire
  match ← pi_get C t_pid with
  | none => pid_stop .assertion
  | some me =>
    let m ← pidinfo_deref me
    pid_KASSERT (m.pi_exited == false)
    pidinfo_write me (some { m with pi_exitstatus := status, pi_exited := true })
    let m1 ← pidinfo_deref me
    pi_detach_children C m1.pi_pid
    let m2 ← pidinfo_deref me
    if m2.pi_ppid = INVALID_PID then
      pi_drop C m2.pi_pid
    else
      cv_signal
    pidlock_release

/-- The function `pid_join` run by a thread whose pid is `t_pid`: `.error e`
is the return value `-e`, `.ok s` is the return value 0 with `s` stored in
`*status`. -/
def pid_join (C : PidConfig) (t_pid childpid : Nat) (options : Int) :
    PidM (Except PidErrno Int) := do
  if options ≠ 0 ∧ options ≠ C.WNOHANG then
    pure (.error .EINVAL)
  else if childpid = t_pid then
    pure (.error .EDEADLK)
  else do
    pidlock_acquire
    match ← pi_get C t_pid with
    | none => pid_stop .assertion
    | some me =>
      let m ← pidinfo_deref me
      pid_KASSERT (m.pi_exited == false)
      match ← pi_get C childpid with
      | none =>
        pidlock_release
        pure (.error .ESRCH)
      | some child =>
        let c ← pidinfo_deref child
        if c.pi_ppid ≠ m.pi_pid ∨ c.pi_ppid = INVALID_PID then do
          pidlock_release
          pure (.error .ECHILD)
        else do
          if options ≠ C.WNOHANG ∧ c.pi_exited = false then do
            cv_wait
            let c1 ← pidinfo_deref child
            pid_KASSERT (c1.pi_exited == true)
          let c2 ← pidinfo_deref child
          let status : Int :=
            if options = C.WNOHANG ∧ c2.pi_exited = false then 0 else c2.pi_exitstatus
          pidlock_release
          pure (.ok status)

/-- The function `pi_unset_signal`. -/
def pi_unset_signal (C : PidConfig) (pid : Nat) (sig : Int) : PidM Unit := do
  pid_KASSERT (← pidlock_do_i_hold)
  match ← pi_get C pid with
  | none => pid_stop .assertion
  | some target =>
    let t ← pidinfo_deref target
    pidinfo_write target (some { t with pi_signal := t.pi_signal &&& not32 (shl32 sig) })

/-- The function `pid_kill`: `.error e` is the return value `e`, `.ok ()` is
the return value 0. -/
def pid_kill (C : PidConfig) (pid : Nat) (sig : Int) : PidM (Except PidErrno Unit) := do
  pidlock_acquire
  match ← pi_get C pid with
  | none =>
    pidlock_release
    pure (.error .ESRCH)
  | some target =>
    if sig = 0 then do
      pidlock_release
      pure (.ok ())
    else if sig > 32 ∨ sig < 1 then do
      pidlock_release
      pure (.error .EINVAL)
    else if sig = C.SIGCONT then do
      pi_unset_signal C pid C.SIGSTOP
      cv_signal
      pidlock_release
      pure (.ok ())
    else if sig = C.SIGKILL ∨ sig = C.SIGSTOP ∨ sig = C.SIGINT ∨ sig = C.SIGQUIT
        ∨ sig = C.SIGWINCH ∨ sig = C.SIGINFO then do
      let t ← pidinfo_deref target
      pidinfo_write target (some { t with pi_signal := (t.pi_signal ||| shl32 sig) % 2 ^ 32 })
      pidlock_release
      pure (.ok ())
    else do
      pidlock_release
      pure (.error .EUNIMP)

/-- The function `pid_get_signal`. The path for a pid that is not found
returns -1 without releasing the lock. -/
def pid_get_signal (C : PidConfig) (pid : Nat) : PidM Int := do
  pidlock_acquire
  match ← pi_get C pid with
  | none => pure (-1)
  | some target =>
    let t ← pidinfo_deref target
    let sig := t.pi_signal
    pidlock_release
    pure (int32_of sig)


/-! ## Vocabulary of the properties of pid.c -/

/-- The constants fit together: the table has a slot, the valid pids start
above INVALID_PID, and there are at least as many valid pids as slots. -/
def PidConfig.ok (C : PidConfig) : Prop :=
  0 < C.PROCS_MAX ∧ INVALID_PID < C.PID_MIN ∧ C.PID_MIN ≤ C.PID_MAX ∧
  C.PID_MIN + C.PROCS_MAX ≤ C.PID_MAX + 1

instance (C : PidConfig) : Decidable C.ok := by
  unfold PidConfig.ok
  infer_instance

/-- Every record of the table sits in the slot of its pid. -/
def table_wf (C : PidConfig) (k : PidState) : Prop :=
  ∀ i, i < C.PROCS_MAX → ∀ e, k.pidinfo i = some e → e.pi_pid % C.PROCS_MAX = i

instance (C : PidConfig) (k : PidState) : Decidable (table_wf C k) := by
  unfold table_wf
  infer_instance

/-- Number of occupied slots of the table. -/
def occupied (C : PidConfig) (k : PidState) : Nat :=
  ((List.range C.PROCS_MAX).filter fun i => (k.pidinfo i).isSome).length

/-- The pid `pid` is present in the table: its slot holds a record with that
pid. -/
def pid_present (C : PidConfig) (k : PidState) (pid : Nat) : Prop :=
  ∃ e, k.pidinfo (pid % C.PROCS_MAX) = some e ∧ e.pi_pid = pid

/-- The value `inc_nextpid` gives to `nextpid` when its value is `p`. -/
def next_pid (C : PidConfig) (p : Nat) : Nat :=
  if p + 1 > C.PID_MAX then C.PID_MIN else p + 1

/-- What `pi_detach_children pid` is to do with a slot: a record whose parent
is `pid` is removed when it has exited and is left without parent otherwise;
any other slot is left alone. -/
def detach_slot (pid : Nat) (x : Option Pidinfo) : Option Pidinfo :=
  match x with
  | none => none
  | some c =>
    if c.pi_ppid = pid then
      if c.pi_exited then none else some { c with pi_ppid := INVALID_PID }
    else some c

/-! ## A small process table and runs on it -/

/-- The values the constants have in OS/161 (kern/limits.h, kern/wait.h,
kern/signal.h); continuetest.c sends 17, 19 and 9 as SIGSTOP, SIGCONT and
SIGKILL. -/
def os161_config : PidConfig :=
  { PROCS_MAX := 128, PID_MIN := 2, PID_MAX := 32767, WNOHANG := 1,
    SIGKILL := 9, SIGSTOP := 17, SIGCONT := 19, SIGINT := 2, SIGQUIT := 3,
    SIGWINCH := 28, SIGINFO := 29 }

/-- The static data before `pid_bootstrap`, with memory for 200 records
and zero words after the table. -/
def pid_zero : PidState :=
  { pidlock := false, pidinfo := fun _ => none, nextpid := 0, nprocs := 0,
    pi_avail := 200, oob_reads := [], after_table := fun _ => 0 }

/-- The process table after `pid_bootstrap`. -/
def pid_boot : PidState := (pid_bootstrap os161_config pid_zero).state pid_zero

/-- The thread `t_pid` calls `pid_alloc` `n` times. -/
def pid_alloc_times (C : PidConfig) (t_pid : Nat) : Nat → PidState → PidState
  | 0, k => k
  | n + 1, k => pid_alloc_times C t_pid n ((pid_alloc C t_pid k).state k)

/-- The boot thread has forked once: the process 2. -/
def pid_k2 : PidState := pid_alloc_times os161_config BOOTUP_PID 1 pid_boot

/-- The process 2 has forked once: the process 3. -/
def pid_k3 : PidState := pid_alloc_times os161_config 2 1 pid_k2

/-- The same table in a kernel image in which the word after the array
`pidinfo` is the variable `nextpid`, which holds 4. -/
def pid_k3_wild : PidState := { pid_k3 with after_table := fun _ => 4 }

/-- The boot thread has forked 126 times (the processes 2 to 127), then the
process 2 has forked once: its child is the process 128, in slot 0. -/
def pid_k128 : PidState :=
  pid_alloc_times os161_config 2 1 (pid_alloc_times os161_config BOOTUP_PID 126 pid_boot)

/-! ## file.c: constants, data model -/

/-- Constants that file.c takes from headers that are not among the sources
(kern/limits.h, kern/fcntl.h); they are parameters of the model. `OPEN_MAX`
is `__OPEN_MAX`. -/
structure FileConfig where
  OPEN_MAX : Nat
  O_RDONLY : Nat
  O_WRONLY : Nat
  O_RDWR : Nat
  O_ACCMODE : Nat
  O_APPEND : Nat
deriving DecidableEq, Repr

/-- Error numbers file_open returns: EMFILE and ENOMEM (kern/errno.h is not
among the sources, so they are kept symbolic), or the error number that
`vfs_open` or `VOP_STAT` returned. -/
inductive FileErrno where
  | EMFILE
  | ENOMEM
  | other (code : Int)
deriving DecidableEq, Repr

/-- Modelled from the spec: file.h is not among the sources; the
`struct filetable` with the fields file.c uses: the vnode (`none` before
`vfs_open` has stored one), the offset, the flags, the counter that `dups`
points to, and whether `ftlock` is a lock (false for NULL). -/
structure Filetable where
  vnodes : Option Nat
  offsets : Nat
  flags : Nat
  dups : Nat
  ftlock : Bool
deriving DecidableEq, Repr

/-- What file.c sees of the running thread and of the kernel around it. A
`struct filetable *` stored in the table is the record itself. -/
structure FileState where
  /-- the words of `curthread->t_filetable`, by index; `none` is NULL. The
  array has `__OPEN_MAX` entries: an index from `__OPEN_MAX` on is the memory
  that follows the array -/
  t_filetable : Nat → Option Filetable
  /-- number of objects kmalloc can still hand out -/
  file_heap_avail : Nat
  /-- number of locks lock_create can still hand out -/
  file_locks_avail : Nat
  /-- what `vfs_open` returns for a path and flags: an error number or a vnode -/
  vfs_open_result : List Nat → Nat → Except Int Nat
  /-- what `VOP_STAT` returns for a vnode: an error number or `st_size` -/
  vop_stat_result : Nat → Except Int Nat
  /-- indices outside `0 .. __OPEN_MAX-1` at which the table has been
  accessed, oldest first -/
  ft_oob : List Nat

/-- Result of running code of file.c from a state. -/
inductive FileOutcome (α : Type) where
  | halt (h : Halt)
  | done (a : α) (k : FileState)

/-- Code of file.c: a state transformer that may stop. -/
def FileM (α : Type) : Type := FileState → FileOutcome α

/-- Continue a run that has not stopped. -/
def FileOutcome.andThen {α β : Type} (o : FileOutcome α) (f : α → FileState → FileOutcome β) :
    FileOutcome β :=
  match o with
  | .halt h => .halt h
  | .done a k1 => f a k1

/-- Sequencing. -/
def FileM.bind {α β : Type} (m : FileM α) (f : α → FileM β) : FileM β := fun k =>
  (m k).andThen f

/-- Return a value and leave the state alone. -/
def FileM.pure {α : Type} (a : α) : FileM α := fun k => .done a k

instance : Monad FileM where
  pure := FileM.pure
  bind := FileM.bind

/-- Stop the run. -/
def file_stop {α : Type} (h : Halt) : FileM α := fun _ => .halt h

/-- Read the state. -/
def file_state : FileM FileState := fun k => .done k k

/-- Change the state. -/
def file_modify (f : FileState → FileState) : FileM Unit := fun k => .done () (f k)

/-- The kernel assertion `KASSERT(b)` in file.c. -/
def file_KASSERT (b : Bool) : FileM Unit := fun k =>
  if b then .done () k else .halt .assertion

/-- The state a run ends in, or the given state when the run stops. -/
def FileOutcome.state {α : Type} (o : FileOutcome α) (dflt : FileState) : FileState :=
  match o with
  | .halt _ => dflt
  | .done _ k => k

/-- The value a run returns, if it returns. -/
def FileOutcome.result? {α : Type} (o : FileOutcome α) : Option α :=
  match o with
  | .halt _ => none
  | .done a _ => some a

/-! ## Collaborators of file.c -/

/-- Record an index at which the table is accessed, when it is outside
`0 .. __OPEN_MAX-1`. -/
def ft_touch (C : FileConfig) (i : Nat) : FileM Unit := file_modify fun k =>
  if i < C.OPEN_MAX then k else { k with ft_oob := k.ft_oob ++ [i] }

/-- The read `curthread->t_filetable[i]`. -/
def ft_read (C : FileConfig) (i : Nat) : FileM (Option Filetable) := do
  ft_touch C i
  let k ← file_state
  pure (k.t_filetable i)

/-- The store `curthread->t_filetable[i] = v`. -/
def ft_write (C : FileConfig) (i : Nat) (v : Option Filetable) : FileM Unit := do
  ft_touch C i
  file_modify fun k => { k with t_filetable := Function.update k.t_filetable i v }

/-- A store into a field of `curthread->t_filetable[i]`; the pointer must
not be NULL. -/
def ft_update (C : FileConfig) (i : Nat) (f : Filetable → Filetable) : FileM Unit := do
  match ← ft_read C i with
  | none => file_stop .badptr
  | some e => file_modify fun k => { k with t_filetable := Function.update k.t_filetable i (some (f e)) }

/-- Modelled from the spec: kmalloc is not among the sources; it returns
whether it hands out an object (false for NULL). -/
def file_kmalloc : FileM Bool := fun k =>
  if k.file_heap_avail = 0 then .done false k
  else .done true { k with file_heap_avail := k.file_heap_avail - 1 }

/-- Modelled from the spec: kfree is not among the sources. -/
def file_kfree : FileM Unit :=
  file_modify fun k => { k with file_heap_avail := k.file_heap_avail + 1 }

/-- Modelled from the spec: synch.c is not among the sources; `lock_create`
returns whether it hands out a lock (false for NULL). -/
def file_lock_create : FileM Bool := fun k =>
  if k.file_locks_avail = 0 then .done false k
  else .done true { k with file_locks_avail := k.file_locks_avail - 1 }

/-- Modelled from the spec: the VFS layer is not among the sources;
`vfs_open(path, flags, 0, &vn)` returns an error number or stores a vnode. -/
def vfs_open (path : List Nat) (flags : Nat) : FileM (Except Int Nat) := fun k =>
  .done (k.vfs_open_result path flags) k

/-- Modelled from the spec: the VFS layer is not among the sources;
`vfs_close(vn)` changes nothing that file.c sees. -/
def vfs_close : FileM Unit := pure ()

/-- Modelled from the spec: the VFS layer is not among the sources;
`VOP_STAT(vn, &stats)` returns an error number or fills in `st_size`. -/
def VOP_STAT (vn : Nat) : FileM (Except Int Nat) := fun k =>
  .done (k.vop_stat_result vn) k

/-! ## file.c -/

/-- The function `fd_init`. The store `*dup = 0` goes through the pointer
kmalloc returned, and the stores into the new record go through
`t_filetable[fd]`; a NULL pointer there stops the run. -/
def fd_init (C : FileConfig) (fd : Nat) : FileM Unit := do
  file_KASSERT ((← ft_read C fd).isNone)
  let got ← file_kmalloc
  ft_write C fd (if got then some { vnodes := none, offsets := 0, flags := 0, dups := 0,
                                    ftlock := false } else none)
  let dup ← file_kmalloc
  if !dup then
    file_stop .badptr
  else do
    ft_update C fd (fun e => { e with dups := 0 })
    ft_update C fd (fun e => { e with offsets := 0 })
    let l ← file_lock_create
    ft_update C fd (fun e => { e with ftlock := l })
    file_KASSERT ((← ft_read C fd).isSome)

/-- The `while (pos <= __OPEN_MAX)` loop of `filetable_scan` from the
position `pos` on, for `n` more passes at most. -/
def filetable_scan_loop (C : FileConfig) : Nat → Nat → FileM Int
  | 0, _ => pure (-1)
  | n + 1, pos => do
    if (← ft_read C pos).isNone then
      pure (pos : Int)
    else
      filetable_scan_loop C n (pos + 1)

/-- The function `filetable_scan`: `pos` runs from 3 while
`pos <= __OPEN_MAX`, which is `__OPEN_MAX + 1 - 3` passes at most. -/
def filetable_scan (C : FileConfig) : FileM Int :=
  filetable_scan_loop C (C.OPEN_MAX + 1 - 3) 3

/-- The function `file_open`: the error number it returns, or the
descriptor it stores in `*retfd` when it returns 0. `filename` is the string
without its terminating 0; `strcpy` copies it into `char path[5]`, and a
string that does not fit stops the run. -/
def file_open (C : FileConfig) (filename : List Nat) (flags : Nat) :
    FileM (Except FileErrno Nat) := do
  let fd ← filetable_scan C
  if fd < 3 then
    pure (.error .EMFILE)
  else do
    let fd := fd.toNat
    fd_init C fd
    file_KASSERT ((← ft_read C fd).isSome)
    if filename.length + 1 > 5 then
      file_stop .badptr
    else do
      let do_append : Bool := flags &&& C.O_APPEND != 0
      let flags1 := if do_append then flags &&& C.O_ACCMODE else flags
      match ← vfs_open filename flags1 with
      | .error code => pure (.error (.other code))
      | .ok vn =>
        ft_update C fd (fun e => { e with vnodes := some vn })
        let l ← file_lock_create
        ft_update C fd (fun e => { e with ftlock := l })
        if !l then do
          vfs_close
          file_kfree
          ft_write C fd none
          pure (.error .ENOMEM)
        else do
          let stat ← (if do_append then VOP_STAT vn else pure (.ok 0) : FileM (Except Int Nat))
          match stat with
          | .error code => pure (.error (.other code))
          | .ok size =>
            if do_append then
              ft_update C fd (fun e => { e with offsets := size })
            ft_update C fd (fun e => { e with flags := flags1 &&& C.O_ACCMODE })
            match ← ft_read C fd with
            | none => file_stop .badptr
            | some e =>
              file_KASSERT (e.flags == C.O_RDONLY || e.flags == C.O_WRONLY || e.flags == C.O_RDWR)
              pure (.ok fd)

/-! ## Vocabulary of the properties of file.c -/

/-- Every descriptor from 3 to `__OPEN_MAX-1` is in use. -/
def table_full (C : FileConfig) (k : FileState) : Prop :=
  ∀ i, i < C.OPEN_MAX → 3 ≤ i → (k.t_filetable i).isSome = true

instance (C : FileConfig) (k : FileState) : Decidable (table_full C k) := by
  unfold table_full
  infer_instance

/-! ## A full file table -/

/-- The values the constants have in OS/161 (kern/limits.h, kern/fcntl.h). -/
def os161_file_config : FileConfig :=
  { OPEN_MAX := 128, O_RDONLY := 0, O_WRONLY := 1, O_RDWR := 2, O_ACCMODE := 3,
    O_APPEND := 32 }

/-- An open file, as `file_open` leaves it for a file opened `O_RDWR`. -/
def ft_entry : Filetable :=
  { vnodes := some 1, offsets := 0, flags := 2, dups := 0, ftlock := true }

/-- A thread with all 128 descriptors in use, as after 125 successful opens,
and zero memory after the table; kmalloc, lock_create and the VFS layer
succeed. -/
def ft_full : FileState :=
  { t_filetable := fun i => if i < 128 then some ft_entry else none,
    file_heap_avail := 8, file_locks_avail := 8,
    vfs_open_result := fun _ _ => .ok 1,
    vop_stat_result := fun _ => .ok 0,
    ft_oob := [] }

/-! ## The frame allocator under memory pressure -/

/-- Modelled from the spec: the coremap is not among the sources;
`allocate_user_frame(owner_page) -> frame | exhausted`, which may trigger
eviction internally, calling back into `lpage_evict`. Victim selection is
outside the spec: `victim` is the lpage the allocator selects when its
supply is empty, if any. With a frame in the supply, with no victim, or with
a victim that is not resident or whose frame is pinned, the call is
`coremap_allocuser`. Otherwise the allocator takes the global paging lock,
pins the frame of the victim, calls `lpage_evict`, unpins the frame, puts it
into its supply, releases the lock, and hands that frame out. -/
def coremap_allocuser_evicting (victim : Option Nat) (lp : Nat) : KM Nat := fun k =>
  match k.cm_free, victim with
  | [], some v =>
    match heap_get k.lpages v with
    | some pg =>
      if frame_of pg.lp_paddr ≠ INVALID_PADDR ∧ frame_of pg.lp_paddr ∉ k.cm_pinned then
        (do paging_lock_acquire
            modK fun s => { s with cm_pinned := frame_of pg.lp_paddr :: s.cm_pinned }
            lpage_evict v
            modK fun s => { s with cm_pinned := s.cm_pinned.erase (frame_of pg.lp_paddr),
                                   cm_free := s.cm_free ++ [frame_of pg.lp_paddr] }
            paging_lock_release
            coremap_allocuser lp : KM Nat) k
      else coremap_allocuser lp k
    | none => coremap_allocuser lp k
  | _, _ => coremap_allocuser lp k

/-- The function `lpage_materialize` with the frame allocator as a
parameter: with `coremap_allocuser` it is `lpage_materialize`. -/
def lpage_materialize_with (alloc : Nat → KM Nat) : KM (Except Errno (Nat × Nat)) := do
  match ← lpage_create with
  | none => pure (.error .ENOMEM)
  | some lp =>
    let swa ← swap_alloc
    if swa = INVALID_SWAPADDR then do
      lpage_destroy lp
      pure (.error .ENOSPC)
    else do
      set_lp_swapaddr lp swa
      let pa ← alloc lp
      if pa = INVALID_PADDR then do
        lpage_destroy lp
        pure (.error .ENOSPC)
      else do
        lpage_lock lp
        set_lp_paddr lp (pa ||| LPF_DIRTY)
        KASSERT (← coremap_pageispinned pa)
        pure (.ok (lp, pa))

/-- The function `lpage_zerofill` with the frame allocator as a parameter:
with `coremap_allocuser` it is `lpage_zerofill`. -/
def lpage_zerofill_with (alloc : Nat → KM Nat) : KM (Except Errno Nat) := do
  match ← lpage_materialize_with alloc with
  | .error e => pure (.error e)
  | .ok (lp, pa) =>
    let pg ← lp_get lp
    KASSERT pg.lp_spinlock
    KASSERT (← coremap_pageispinned pa)
    lpage_unlock lp
    coremap_zero_page pa
    KASSERT (← coremap_pageispinned pa)
    coremap_unpin pa
    stats_acquire
    modK fun s => { s with ct_zerofills := incr32 s.ct_zerofills }
    stats_release
    pure (.ok lp)

/-- The machine after the zero-fill of scenario B, with no free frame left:
the page 0 is resident and dirty in the frame 0x1000, which is not pinned. -/
def pressure_k : Kernel := { sb1 with cm_free := [] }

/-- After a zero-fill under memory pressure, the allocator evicting the
page 0. -/
def pressure_k1 : Kernel :=
  (lpage_zerofill_with (coremap_allocuser_evicting (some 0)) pressure_k).state boot

/-- After a read fault on the new page. -/
def pressure_k2 : Kernel := (lpage_fault 1 1 VM_FAULT_READ 0x400000 pressure_k1).state boot

/-! ## More runs: the failed copy step by step, the scan of pid_alloc -/

/-- The state of `copyfail_k` when `lpage_copy` has materialised the new
page. -/
def copyfail_ka : Kernel := (lpage_materialize copyfail_k).state boot

/-- Then `lpage_lock_and_pin(oldlp)` on the page 0. -/
def copyfail_kb : Kernel := (lpage_lock_and_pin 0 copyfail_ka).state boot

/-- Then `lpage_unlock(oldlp)`. -/
def copyfail_kc : Kernel := (lpage_unlock 0 copyfail_kb).state boot

/-- Then `coremap_allocuser(oldlp)`, which finds no frame. -/
def copyfail_kd : Kernel := (coremap_allocuser 0 copyfail_kc).state boot

/-- Then `coremap_unpin` of the frame of the new page: the state in which
`lpage_copy` calls `lpage_destroy(newlp)`. -/
def copyfail_ke : Kernel := (coremap_unpin 0x3000 copyfail_kd).state boot

/-- The small table inside `pid_alloc`: the lock is held, and `nextpid` has
come round to 2, whose slot and the next are occupied. -/
def pid_k3_scan : PidState := { pid_k3 with pidlock := true, nextpid := 2 }

/-! # Theorems -/

/-! ## Running kernel code: rewriting rules -/

@[simp] theorem andThen_halt {α β : Type} (h : Halt) (f : α → Kernel → Outcome β) :
    (Outcome.halt h : Outcome α).andThen f = .halt h := rfl

@[simp] theorem andThen_done {α β : Type} (a : α) (k : Kernel) (f : α → Kernel → Outcome β) :
    (Outcome.done a k).andThen f = f a k := rfl

@[simp] theorem bind_apply {α β : Type} (m : KM α) (f : α → KM β) (k : Kernel) :
    (m >>= f) k = (m k).andThen f := rfl

@[simp] theorem pure_apply {α : Type} (a : α) (k : Kernel) :
    (pure a : KM α) k = .done a k := rfl

@[simp] theorem km_ite_apply {α : Type} (c : Prop) [Decidable c] (m1 m2 : KM α) (k : Kernel) :
    (if c then m1 else m2) k = if c then m1 k else m2 k := by
  split <;> rfl

theorem andThen_done_inv {α β : Type} {o : Outcome α} {f : α → Kernel → Outcome β}
    {b : β} {k' : Kernel} (h : o.andThen f = .done b k') :
    ∃ a k1, o = .done a k1 ∧ f a k1 = .done b k' := by
  cases o with
  | halt e => simp at h
  | done a k1 => exact ⟨a, k1, rfl, by simpa using h⟩

/-- A run that returns the value `a` is done with `a` in the state it ends in. -/
theorem Outcome.eq_done_of_result {α : Type} (o : Outcome α) (a : α) (dflt : Kernel)
    (h : o.result? = some a) : o = .done a (o.state dflt) := by
  cases o with
  | halt e => simp [Outcome.result?] at h
  | done b k =>
    simp [Outcome.result?] at h
    simp [Outcome.state, h]

/-! ## The lpage heap -/

theorem heap_get_lt {l : List (Option Lpage)} {i : Nat} {a : Lpage}
    (h : heap_get l i = some a) : i < l.length := by
  by_contra hc
  simp [heap_get, List.getD, List.getElem?_eq_none (Nat.le_of_not_lt hc)] at h

@[simp] theorem heap_set_length (l : List (Option Lpage)) (i : Nat) (x : Option Lpage) :
    (heap_set l i x).length = l.length := by
  simp [heap_set]

@[simp] theorem heap_get_set_eq (l : List (Option Lpage)) (i : Nat) (x : Option Lpage)
    (hi : i < l.length) : heap_get (heap_set l i x) i = x := by
  simp [heap_get, heap_set, List.getD, List.getElem?_set, hi]

@[simp] theorem heap_get_set_ne (l : List (Option Lpage)) (i j : Nat) (x : Option Lpage)
    (hij : i ≠ j) : heap_get (heap_set l i x) j = heap_get l j := by
  simp [heap_get, heap_set, List.getD, List.getElem?_set, hij]

@[simp] theorem heap_set_set (l : List (Option Lpage)) (i : Nat) (x y : Option Lpage) :
    heap_set (heap_set l i x) i y = heap_set l i y := by
  simp [heap_set]

@[simp] theorem heap_get_append_new (l : List (Option Lpage)) (x : Option Lpage) :
    heap_get (l ++ [x]) l.length = x := by
  simp [heap_get, List.getD]

theorem heap_get_append_old (l : List (Option Lpage)) (x : Option Lpage) (i : Nat)
    (hi : i < l.length) : heap_get (l ++ [x]) i = heap_get l i := by
  simp [heap_get, List.getD, List.getElem?_append_left hi]

/-! ## The packed address word -/

theorem frame_of_or_dirty (pa : Nat) : frame_of (pa ||| LPF_DIRTY) = frame_of pa := by
  unfold frame_of
  rw [Nat.and_comm, Nat.and_or_distrib_left]
  have hz : PAGE_FRAME &&& LPF_DIRTY = 0 := by decide
  rw [hz, Nat.or_zero, Nat.and_comm]

theorem or_dirty_and_dirty (pa : Nat) : (pa ||| LPF_DIRTY) &&& LPF_DIRTY = LPF_DIRTY := by
  rw [Nat.and_comm, Nat.and_or_distrib_left]
  have hz : LPF_DIRTY &&& LPF_DIRTY = LPF_DIRTY := by decide
  rw [hz]
  apply Nat.eq_of_testBit_eq
  intro i
  simp only [Nat.testBit_or, Nat.testBit_and]
  cases Nat.testBit LPF_DIRTY i <;> simp

theorem aligned_not_dirty (pa : Nat) (h : frame_of pa = pa) : pa &&& LPF_DIRTY = 0 := by
  rw [← h]
  unfold frame_of
  have hz : PAGE_FRAME &&& LPF_DIRTY = 0 := by decide
  rw [Nat.and_assoc, hz, Nat.and_zero]

theorem frame_of_frame_of (pa : Nat) : frame_of (frame_of pa) = frame_of pa := by
  unfold frame_of
  rw [Nat.and_assoc, Nat.and_self]

theorem frame_of_zero : frame_of INVALID_PADDR = INVALID_PADDR := by decide

attribute [simp] stop getK modK KASSERT log lp_get lp_set stats_acquire stats_release
  paging_lock_acquire paging_lock_release paging_lock_do_i_hold kmalloc kfree swap_alloc swap_free
  swap_pagein swap_pageout coremap_allocuser coremap_free coremap_pin coremap_unpin
  coremap_pageispinned coremap_zero_page coremap_copy_page mmu_map set_lp_paddr set_lp_swapaddr
  LP_SET lpage_create lpage_lock lpage_unlock spinlock_cleanup

/-! ## What a returning call of each operation has done -/

/-- A returning `lpage_evict`: the page was resident, unlocked, with a swap
slot; a dirty page is written to its slot (and the write-back counter
grows), a clean one is only counted as discarded; the page ends non-resident
and unlocked. -/
theorem lpage_evict_inv (k k' : Kernel) (lp : Nat) (h : lpage_evict lp k = .done () k') :
    ∃ pg, heap_get k.lpages lp = some pg ∧ pg.lp_spinlock = false ∧
      pg.lp_paddr ≠ INVALID_PADDR ∧ pg.lp_swapaddr ≠ INVALID_SWAPADDR ∧
      k.stats_spinlock = false ∧
      ((LP_ISDIRTY pg = true ∧ k.global_paging_lock = true ∧
        frame_of pg.lp_paddr ∈ k.cm_pinned ∧ frame_of pg.lp_paddr ≠ INVALID_PADDR ∧
        ∃ c : Call, c.ev = .swap_pageout (frame_of pg.lp_paddr) pg.lp_swapaddr ∧
        k' = { k with
          ct_write_evictions := incr32 k.ct_write_evictions
          lpages := heap_set k.lpages lp (some { pg with lp_paddr := INVALID_PADDR })
          swap := fun x => if x = pg.lp_swapaddr then k.ram (frame_of pg.lp_paddr) else k.swap x
          trace := k.trace ++ [c] }) ∨
       (LP_ISDIRTY pg = false ∧
        k' = { k with
          ct_discard_evictions := incr32 k.ct_discard_evictions
          lpages := heap_set k.lpages lp (some { pg with lp_paddr := INVALID_PADDR }) })) := by
  unfold lpage_evict at h
  cases hpg : heap_get k.lpages lp with
  | none => simp [hpg] at h
  | some pg =>
    have hlt := heap_get_lt hpg
    refine ⟨pg, rfl, ?_⟩
    cases hl : pg.lp_spinlock with
    | true => simp [hpg, hl] at h
    | false =>
      by_cases hpa : pg.lp_paddr = INVALID_PADDR
      · simp [hpg, hl, hlt, hpa] at h
      by_cases hsw : pg.lp_swapaddr = INVALID_SWAPADDR
      · simp [hpg, hl, hlt, hpa, hsw] at h
      cases hd : LP_ISDIRTY pg with
      | false =>
        have hd1 : LP_ISDIRTY { pg with lp_spinlock := true } = false := by
          simpa [LP_ISDIRTY] using hd
        cases hst : k.stats_spinlock with
        | true => simp [hpg, hl, hlt, hpa, hsw, hd1, hst] at h
        | false =>
          simp [hpg, hl, hlt, hpa, hsw, hd1, hst] at h
          exact ⟨rfl, hpa, hsw, rfl, Or.inr ⟨rfl, h.symm⟩⟩
      | true =>
        have hd1 : LP_ISDIRTY { pg with lp_spinlock := true } = true := by
          simpa [LP_ISDIRTY] using hd
        cases hgl : k.global_paging_lock with
        | false => simp [hpg, hl, hlt, hpa, hsw, hd1, hgl] at h
        | true =>
          by_cases hpin : frame_of pg.lp_paddr ∈ k.cm_pinned
          swap
          · simp [hpg, hl, hlt, hpa, hsw, hd1, hgl, hpin] at h
          by_cases hfr : frame_of pg.lp_paddr = INVALID_PADDR
          · have hpin0 : INVALID_PADDR ∈ k.cm_pinned := by rw [← hfr]; exact hpin
            simp [hpg, hl, hlt, hpa, hsw, hd1, hgl, hpin0, hfr] at h
          cases hst : k.stats_spinlock with
          | true => simp [hpg, hl, hlt, hpa, hsw, hd1, hgl, hpin, hfr, hst] at h
          | false =>
            simp [hpg, hl, hlt, hpa, hsw, hd1, hgl, hpin, hfr, hst] at h
            exact ⟨rfl, hpa, hsw, rfl, Or.inl ⟨rfl, rfl, hpin, hfr, _, rfl, h.symm⟩⟩

theorem frame_ne_zero_word {pa : Nat} (h : frame_of pa ≠ INVALID_PADDR) : pa ≠ INVALID_PADDR := by
  intro hz
  rw [hz] at h
  exact h frame_of_zero

/-- A returning `lpage_fault` on a resident page: it is a minor fault. The
page was unlocked with its frame unpinned, no lock was held; the frame is
pinned, mapped (which consumes the pin), the page is marked dirty on a write,
and the minor-fault counter grows. -/
theorem lpage_fault_minor_inv (k k' : Kernel) (lp as va : Nat) (ft : Int)
    (r : Except Errno Unit) (pg : Lpage)
    (hpg : heap_get k.lpages lp = some pg) (hres : frame_of pg.lp_paddr ≠ INVALID_PADDR)
    (h : lpage_fault lp as ft va k = .done r k') :
    r = .ok () ∧ pg.lp_spinlock = false ∧ k.global_paging_lock = false ∧
    k.stats_spinlock = false ∧ pg.lp_swapaddr ≠ INVALID_SWAPADDR ∧
    frame_of pg.lp_paddr ∉ k.cm_pinned ∧
    ∃ l1 l2 : List Nat,
      k' = { k with
        ct_minfaults := incr32 k.ct_minfaults
        lpages := heap_set k.lpages lp (some { pg with
          lp_paddr := if ft ≠ VM_FAULT_READ then pg.lp_paddr ||| LPF_DIRTY else pg.lp_paddr })
        trace := k.trace ++ [⟨.coremap_pin (frame_of pg.lp_paddr), l1, true⟩,
          ⟨.mmu_map as va
            (if ft ≠ VM_FAULT_READ then pg.lp_paddr ||| LPF_DIRTY else pg.lp_paddr)
            (decide (ft ≠ VM_FAULT_READ)), l2, false⟩] } := by
  have hlt := heap_get_lt hpg
  have hw := frame_ne_zero_word hres
  unfold lpage_fault at h
  cases hgl : k.global_paging_lock with
  | true => simp [hgl] at h
  | false =>
    cases hl : pg.lp_spinlock with
    | true => simp [hgl, hpg, hres, lpage_lock_and_pin, hl] at h
    | false =>
      by_cases hpin : frame_of pg.lp_paddr ∈ k.cm_pinned
      · simp [hgl, hpg, hres, lpage_lock_and_pin, hl, hlt, LOCK_AND_PIN_PASSES,
          lpage_lock_and_pin_loop, hpin] at h
      by_cases hsw : pg.lp_swapaddr = INVALID_SWAPADDR
      · simp [hgl, hpg, hres, lpage_lock_and_pin, hl, hlt, LOCK_AND_PIN_PASSES,
          lpage_lock_and_pin_loop, hpin, hsw] at h
      cases hst : k.stats_spinlock with
      | true =>
        simp [hgl, hpg, hres, lpage_lock_and_pin, hl, hlt, LOCK_AND_PIN_PASSES,
          lpage_lock_and_pin_loop, hpin, hsw, hw, hst] at h
      | false =>
        by_cases hft : ft = VM_FAULT_READ
        · simp [hgl, hpg, hres, lpage_lock_and_pin, hl, hlt, LOCK_AND_PIN_PASSES,
            lpage_lock_and_pin_loop, hpin, hsw, hw, hst, lpage_fault_map, hft] at h
          obtain ⟨hr, hk⟩ := h
          subst hk
          subst hr
          simp [hft, hsw, hpin]
        · simp [hgl, hpg, hres, lpage_lock_and_pin, hl, hlt, LOCK_AND_PIN_PASSES,
            lpage_lock_and_pin_loop, hpin, hsw, hw, hst, lpage_fault_map, hft, frame_of_or_dirty] at h
          obtain ⟨hr, hk⟩ := h
          subst hk
          subst hr
          simp [hft, hsw, hpin]

theorem heap_set_get_self (l : List (Option Lpage)) (i : Nat) (a : Lpage)
    (h : heap_get l i = some a) : heap_set l i (some a) = l := by
  have hi := heap_get_lt h
  unfold heap_get at h
  unfold heap_set
  apply List.ext_getElem?
  intro j
  by_cases hj : i = j
  · subst hj
    simp [List.getElem?_set, hi]
    simp [List.getD, List.getElem?_eq_getElem hi] at h
    simp [List.getElem?_eq_getElem hi, h]
  · simp [List.getElem?_set, hj]

/-- A returning `lpage_fault` on a non-resident page: either the allocator
had no frame and the call returns ENOMEM with the page as it was, or the page
is read from its swap slot into the new frame, becomes resident there, is
mapped read-only and the major-fault counter grows. -/
theorem lpage_fault_major_inv (k k' : Kernel) (lp as va : Nat) (ft : Int)
    (r : Except Errno Unit) (pg : Lpage)
    (hpg : heap_get k.lpages lp = some pg) (hnr : frame_of pg.lp_paddr = INVALID_PADDR)
    (h : lpage_fault lp as ft va k = .done r k') :
    pg.lp_spinlock = false ∧ k.global_paging_lock = false ∧
    pg.lp_swapaddr ≠ INVALID_SWAPADDR ∧ pg.lp_paddr = INVALID_PADDR ∧
    ((r = .error .ENOMEM ∧ k.cm_free = [] ∧ ∃ l1 : List Nat,
        k' = { k with
          trace := k.trace ++ [⟨.coremap_allocuser lp INVALID_PADDR, l1, false⟩] }) ∨
     (r = .error .ENOMEM ∧ ∃ pa1 rest, k.cm_free = pa1 :: rest ∧
        frame_of pa1 = INVALID_PADDR ∧ ∃ l1 : List Nat,
        k' = { k with
          cm_free := rest
          cm_pinned := pa1 :: k.cm_pinned
          trace := k.trace ++ [⟨.coremap_allocuser lp pa1, l1, false⟩] }) ∨
     (r = .ok () ∧ k.stats_spinlock = false ∧ ∃ pa1 rest, k.cm_free = pa1 :: rest ∧
        frame_of pa1 ≠ INVALID_PADDR ∧ frame_of pa1 ∈ pa1 :: k.cm_pinned ∧
        ∃ l1 l2 l3 : List Nat,
        k' = { k with
          ct_majfaults := incr32 k.ct_majfaults
          lpages := heap_set k.lpages lp (some { pg with lp_paddr := pa1 })
          cm_free := rest
          cm_pinned := (pa1 :: k.cm_pinned).erase (frame_of pa1)
          ram := fun x => if x = frame_of pa1 then k.swap pg.lp_swapaddr else k.ram x
          trace := k.trace ++ [⟨.coremap_allocuser lp pa1, l1, false⟩,
            ⟨.swap_pagein (frame_of pa1) pg.lp_swapaddr, l2, true⟩,
            ⟨.mmu_map as va pa1 false, l3, false⟩] })) := by
  have hlt := heap_get_lt hpg
  unfold lpage_fault at h
  cases hgl : k.global_paging_lock with
  | true => simp [hgl] at h
  | false =>
    cases hl : pg.lp_spinlock with
    | true => simp [hgl, hpg, hnr, hl] at h
    | false =>
      by_cases hsw : pg.lp_swapaddr = INVALID_SWAPADDR
      · simp [hgl, hpg, hnr, hl, hlt, hsw] at h
      by_cases hw : pg.lp_paddr = INVALID_PADDR
      swap
      · simp [hgl, hpg, hnr, hl, hlt, hsw, hw] at h
      have hself : heap_set k.lpages lp
          (some { lp_paddr := INVALID_PADDR, lp_swapaddr := pg.lp_swapaddr, lp_spinlock := false })
          = k.lpages := by
        apply heap_set_get_self
        rw [hpg, ← hw, ← hl]
      refine ⟨rfl, rfl, hsw, hw, ?_⟩
      cases hfree : k.cm_free with
      | nil =>
        left
        simp [hgl, hpg, hnr, hl, hlt, hsw, hw, frame_of_zero, hfree, hself] at h
        obtain ⟨hr, hk⟩ := h
        refine ⟨hr.symm, rfl, ?_⟩
        subst hk
        simp
      | cons pa1 rest =>
        right
        by_cases hfr : frame_of pa1 = INVALID_PADDR
        · left
          simp [hgl, hpg, hnr, hl, hlt, hsw, hw, frame_of_zero, hfree, hfr, hself] at h
          obtain ⟨hr, hk⟩ := h
          refine ⟨hr.symm, pa1, rest, rfl, hfr, ?_⟩
          subst hk
          simp
        · right
          by_cases hpin : frame_of pa1 ∈ pa1 :: k.cm_pinned
          swap
          · simp [hgl, hpg, hnr, hl, hlt, hsw, hw, frame_of_zero, hfree, hfr, hself] at h
            simp at hpin
            simp [hpin] at h
          cases hst : k.stats_spinlock with
          | true =>
            simp [hgl, hpg, hnr, hl, hlt, hsw, hw, frame_of_zero, hfree, hfr, hself] at h
            have hpin1 := hpin
            simp at hpin1
            simp [hpin1, hpg, hl, hlt, hw, frame_of_zero, hst] at h
          | false =>
            simp [hgl, hpg, hnr, hl, hlt, hsw, hw, frame_of_zero, hfree, hfr, hself] at h
            have hpin1 := hpin
            simp at hpin1
            simp [hpin1, hpg, hl, hlt, hw, frame_of_zero, hst, lpage_fault_map] at h
            obtain ⟨hr, hk⟩ := h
            refine ⟨hr.symm, rfl, pa1, rest, rfl, hfr, hpin, ?_⟩
            subst hk
            simp

@[simp] theorem heap_set_append_new (l : List (Option Lpage)) (x y : Option Lpage) :
    heap_set (l ++ [x]) l.length y = l ++ [y] := by
  simp [heap_set]

/-- With an empty swap store `lpage_materialize` returns ENOSPC, and the only calls
made are the kmalloc, the failed swap_alloc and the kfree. -/
theorem lpage_materialize_noswap (k : Kernel) (hheap : k.kheap_avail ≠ 0)
    (hsw : k.sw_free = []) :
    ∃ l1 l2 l3 : List Nat, ∃ b1 b2 b3 : Bool,
    lpage_materialize k = .done (.error .ENOSPC)
      { k with
        lpages := k.lpages ++ [none]
        trace := k.trace ++ [⟨.kmalloc (some k.lpages.length), l1, b1⟩,
          ⟨.swap_alloc INVALID_SWAPADDR, l2, b2⟩, ⟨.kfree k.lpages.length, l3, b3⟩] } := by
  unfold lpage_materialize
  simp [hheap, hsw, lpage_destroy, lpage_lock_and_pin, lpage_lock_and_pin_loop,
    LOCK_AND_PIN_PASSES, frame_of_zero]
  omega

/-- With a swap slot but no frame `lpage_materialize` returns ENOSPC, and the slot
just allocated is handed back by one swap_free. -/
theorem lpage_materialize_noframe (k : Kernel) (swa : Nat) (srest : List Nat)
    (hheap : k.kheap_avail ≠ 0) (hsw : k.sw_free = swa :: srest)
    (hswa : swa ≠ INVALID_SWAPADDR) (hcm : k.cm_free = []) :
    ∃ l1 l2 l3 l4 l5 : List Nat, ∃ b1 b2 b3 b4 b5 : Bool,
    lpage_materialize k = .done (.error .ENOSPC)
      { k with
        lpages := k.lpages ++ [none]
        sw_free := srest ++ [swa]
        trace := k.trace ++ [⟨.kmalloc (some k.lpages.length), l1, b1⟩,
          ⟨.swap_alloc swa, l2, b2⟩,
          ⟨.coremap_allocuser k.lpages.length INVALID_PADDR, l3, b3⟩,
          ⟨.swap_free swa, l4, b4⟩, ⟨.kfree k.lpages.length, l5, b5⟩] } := by
  unfold lpage_materialize
  simp [hheap, hsw, hswa, hcm, lpage_destroy, lpage_lock_and_pin, lpage_lock_and_pin_loop,
    LOCK_AND_PIN_PASSES, frame_of_zero]
  omega

/-- A returning `lpage_materialize` that hands out a page. -/
theorem lpage_materialize_ok_inv (k k' : Kernel) (lp pa : Nat)
    (h : lpage_materialize k = .done (.ok (lp, pa)) k') :
    lp = k.lpages.length ∧ k.kheap_avail ≠ 0 ∧ pa ≠ INVALID_PADDR ∧
    frame_of pa ∈ pa :: k.cm_pinned ∧
    ∃ swa srest crest, k.sw_free = swa :: srest ∧ swa ≠ INVALID_SWAPADDR ∧
      k.cm_free = pa :: crest ∧
      ∃ l1 l2 l3 : List Nat, ∃ b1 b2 b3 : Bool,
      k' = { k with
        lpages := k.lpages ++ [some ⟨pa ||| LPF_DIRTY, swa, true⟩]
        kheap_avail := k.kheap_avail - 1
        cm_free := crest
        cm_pinned := pa :: k.cm_pinned
        sw_free := srest
        trace := k.trace ++ [⟨.kmalloc (some k.lpages.length), l1, b1⟩,
          ⟨.swap_alloc swa, l2, b2⟩, ⟨.coremap_allocuser k.lpages.length pa, l3, b3⟩] } := by
  unfold lpage_materialize at h
  by_cases hheap : k.kheap_avail = 0
  · simp [hheap] at h
  cases hsw : k.sw_free with
  | nil =>
    simp [hheap, hsw, lpage_destroy, lpage_lock_and_pin, lpage_lock_and_pin_loop,
      LOCK_AND_PIN_PASSES, frame_of_zero] at h
  | cons swa srest =>
    by_cases hswa : swa = INVALID_SWAPADDR
    · simp [hheap, hsw, hswa, lpage_destroy, lpage_lock_and_pin, lpage_lock_and_pin_loop,
        LOCK_AND_PIN_PASSES, frame_of_zero] at h
    cases hcm : k.cm_free with
    | nil =>
      simp [hheap, hsw, hswa, hcm, lpage_destroy, lpage_lock_and_pin, lpage_lock_and_pin_loop,
        LOCK_AND_PIN_PASSES, frame_of_zero] at h
    | cons pa1 crest =>
      by_cases hpa : pa1 = INVALID_PADDR
      · simp [hheap, hsw, hswa, hcm, hpa, lpage_destroy, lpage_lock_and_pin,
          lpage_lock_and_pin_loop, LOCK_AND_PIN_PASSES, frame_of_zero] at h
      · by_cases hpin : frame_of pa1 ∈ pa1 :: k.cm_pinned
        swap
        · have hpin1 := hpin
          simp at hpin1
          simp [hheap, hsw, hswa, hcm, hpa, hpin1] at h
        · have hpin1 := hpin
          simp at hpin1
          simp [hheap, hsw, hswa, hcm, hpa, hpin1] at h
          obtain ⟨⟨hlp, hpa1⟩, hk⟩ := h
          subst hpa1
          refine ⟨hlp.symm, hheap, hpa, hpin, swa, srest, crest, rfl, hswa, rfl, ?_⟩
          subst hk
          simp

/-- A returning `lpage_zerofill` that hands out a page: the page is new,
resident in the frame the allocator gave, dirty, unlocked, its frame zeroed
and unpinned again, and only the zero-fill counter has grown. -/
theorem lpage_zerofill_ok_inv (k k' : Kernel) (lp : Nat)
    (h : lpage_zerofill k = .done (.ok lp) k') :
    lp = k.lpages.length ∧ k.kheap_avail ≠ 0 ∧ k.stats_spinlock = false ∧
    ∃ pa swa srest crest, k.sw_free = swa :: srest ∧ swa ≠ INVALID_SWAPADDR ∧
      k.cm_free = pa :: crest ∧ pa ≠ INVALID_PADDR ∧ frame_of pa ∈ pa :: k.cm_pinned ∧
      ∃ l1 l2 l3 l4 l5 : List Nat, ∃ b1 b2 b3 b4 b5 : Bool,
      k' = { k with
        ct_zerofills := incr32 k.ct_zerofills
        lpages := k.lpages ++ [some ⟨pa ||| LPF_DIRTY, swa, false⟩]
        kheap_avail := k.kheap_avail - 1
        cm_free := crest
        ram := fun x => if x = pa then zero_page else k.ram x
        sw_free := srest
        trace := k.trace ++ [⟨.kmalloc (some k.lpages.length), l1, b1⟩,
          ⟨.swap_alloc swa, l2, b2⟩, ⟨.coremap_allocuser k.lpages.length pa, l3, b3⟩,
          ⟨.coremap_zero_page pa, l4, b4⟩, ⟨.coremap_unpin pa, l5, b5⟩] } := by
  unfold lpage_zerofill at h
  simp only [bind_apply] at h
  obtain ⟨a, k1, h1, h2⟩ := andThen_done_inv h
  cases a with
  | error e => simp at h2
  | ok p =>
    obtain ⟨lp1, pa⟩ := p
    obtain ⟨hlp, hheap, hpa, hpin, swa, srest, crest, hsw, hswa, hcm, l1, l2, l3, b1, b2, b3, hk1⟩ :=
      lpage_materialize_ok_inv k k1 lp1 pa h1
    subst hk1
    subst hlp
    have hpin1 := hpin
    simp at hpin1
    cases hst : k.stats_spinlock with
    | true => simp [hpin1, hst] at h2
    | false =>
      simp [hpin1, hst] at h2
      obtain ⟨hlp, hk⟩ := h2
      refine ⟨hlp.symm, hheap, rfl, pa, swa, srest, crest, hsw, hswa, hcm, hpa, hpin, ?_⟩
      subst hk
      simp [hst]

attribute [simp] frame_of_frame_of frame_of_zero

@[simp] theorem LPF_DIRTY_ne_zero : LPF_DIRTY ≠ 0 := by decide

/-- A returning `lpage_copy` that hands out a page. The new page is the
next heap object, resident and dirty in the first frame the allocator gave,
with the swap slot the swap store gave. A resident source is pinned and
copied; a non-resident source is first read from its swap slot into a second
frame of the allocator and becomes resident there. -/
theorem lpage_copy_ok_inv (k k' : Kernel) (oldlp newlp : Nat) (oldpg : Lpage)
    (hpg : heap_get k.lpages oldlp = some oldpg)
    (h : lpage_copy oldlp k = .done (.ok newlp) k') :
    newlp = k.lpages.length ∧ oldpg.lp_spinlock = false ∧
    ∃ newpa swa srest crest, k.sw_free = swa :: srest ∧ swa ≠ INVALID_SWAPADDR ∧
      k.cm_free = newpa :: crest ∧ newpa ≠ INVALID_PADDR ∧
      heap_get k'.lpages newlp = some ⟨newpa ||| LPF_DIRTY, swa, false⟩ ∧
      k'.swap = k.swap ∧ k'.sw_free = srest ∧
      ((frame_of oldpg.lp_paddr ≠ INVALID_PADDR ∧
        frame_of oldpg.lp_paddr ≠ newpa ∧
        heap_get k'.lpages oldlp = some oldpg ∧
        k'.ram = (fun x => if x = newpa then k.ram (frame_of oldpg.lp_paddr) else k.ram x) ∧
        k'.cm_free = crest ∧
        k'.trace.map Call.ev = k.trace.map Call.ev ++
          [.kmalloc (some k.lpages.length), .swap_alloc swa,
           .coremap_allocuser k.lpages.length newpa,
           .coremap_pin (frame_of oldpg.lp_paddr),
           .coremap_copy_page (frame_of oldpg.lp_paddr) newpa,
           .coremap_unpin newpa, .coremap_unpin (frame_of oldpg.lp_paddr)]) ∨
       (frame_of oldpg.lp_paddr = INVALID_PADDR ∧
        ∃ oldpa crest2, crest = oldpa :: crest2 ∧ oldpa ≠ INVALID_PADDR ∧
        heap_get k'.lpages oldlp = some { oldpg with lp_paddr := oldpa } ∧
        k'.ram = (fun x => if x = newpa then k.swap oldpg.lp_swapaddr
                           else if x = oldpa then k.swap oldpg.lp_swapaddr else k.ram x) ∧
        k'.cm_free = crest2 ∧
        k'.trace.map Call.ev = k.trace.map Call.ev ++
          [.kmalloc (some k.lpages.length), .swap_alloc swa,
           .coremap_allocuser k.lpages.length newpa,
           .coremap_allocuser oldlp oldpa,
           .swap_pagein oldpa oldpg.lp_swapaddr,
           .coremap_copy_page oldpa newpa,
           .coremap_unpin newpa, .coremap_unpin oldpa])) := by
  have hlt := heap_get_lt hpg
  have hne : oldlp ≠ k.lpages.length := Nat.ne_of_lt hlt
  unfold lpage_copy at h
  simp only [bind_apply] at h
  obtain ⟨a, k1, h1, h2⟩ := andThen_done_inv h
  cases a with
  | error e => simp at h2
  | ok p =>
    obtain ⟨lp1, newpa⟩ := p
    obtain ⟨hlp, hheap, hpa, hpin, swa, srest, crest, hsw, hswa, hcm, l1, l2, l3, b1, b2, b3, hk1⟩ :=
      lpage_materialize_ok_inv k k1 lp1 newpa h1
    subst hk1
    subst hlp
    have hpin1 := hpin
    simp at hpin1
    have hget : heap_get (k.lpages ++ [some ⟨newpa ||| LPF_DIRTY, swa, true⟩]) oldlp = some oldpg := by
      rw [heap_get_append_old _ _ _ hlt, hpg]
    have hlt2 : oldlp < k.lpages.length + 1 := by omega
    have hlt3 : k.lpages.length < k.lpages.length + 1 := by omega
    clear h h1
    cases hl : oldpg.lp_spinlock with
    | true => simp [hpin1, lpage_lock_and_pin, hget, hl] at h2
    | false =>
      have hrec : (⟨oldpg.lp_paddr, oldpg.lp_swapaddr, false⟩ : Lpage) = oldpg := by
        rw [← hl]
      by_cases hres : frame_of oldpg.lp_paddr = INVALID_PADDR
      · -- the source is not resident
        cases hcr : crest with
        | nil =>
          simp [hpin1, lpage_lock_and_pin, hget, hl, hlt2, hlt3, lpage_lock_and_pin_loop,
            LOCK_AND_PIN_PASSES, hres, hne, hne.symm, hcr, frame_of_or_dirty, lpage_destroy] at h2
        | cons oldpa crest2 =>
          by_cases hopa : oldpa = INVALID_PADDR
          · simp [hpin1, lpage_lock_and_pin, hget, hl, hlt2, hlt3, lpage_lock_and_pin_loop,
              LOCK_AND_PIN_PASSES, hres, hne, hne.symm, hcr, frame_of_or_dirty, lpage_destroy,
              hopa] at h2
          by_cases hpo : frame_of oldpa ∈ oldpa :: newpa :: k.cm_pinned
          swap
          · have hpo1 := hpo
            simp at hpo1
            simp [hpin1, lpage_lock_and_pin, hget, hl, hlt2, hlt3, lpage_lock_and_pin_loop,
              LOCK_AND_PIN_PASSES, hres, hne, hne.symm, hcr, hopa, hpo1] at h2
          have hpo1 := hpo
          simp at hpo1
          cases hgl : k.global_paging_lock with
          | true =>
            simp [hpin1, lpage_lock_and_pin, hget, hl, hlt2, hlt3, lpage_lock_and_pin_loop,
              LOCK_AND_PIN_PASSES, hres, hne, hne.symm, hcr, hopa, hpo1, hgl] at h2
          | false =>
            simp [hpin1, lpage_lock_and_pin, hget, hl, hlt2, hlt3, lpage_lock_and_pin_loop,
              LOCK_AND_PIN_PASSES, hres, hne, hne.symm, hcr, hopa, hpo1, hgl, LP_ISDIRTY,
              or_dirty_and_dirty] at h2
            have hmem : oldpa ∈ (oldpa :: newpa :: k.cm_pinned).erase newpa := by
              by_cases hon : oldpa = newpa
              · subst hon
                simp
              · rw [List.erase_cons_tail (by simpa using hon)]
                simp
            simp [hmem] at h2
            obtain ⟨hlp, hk⟩ := h2
            refine ⟨hlp.symm, rfl, newpa, swa, srest, crest, hsw, hswa, hcm, hpa,
              ?_, ?_, ?_, Or.inr ?_⟩
            · subst hk; subst hlp
              simp [hlt2, hlt3]
            · subst hk; simp
            · subst hk; simp
            · subst hk; subst hlp
              refine ⟨hres, oldpa, crest2, hcr, hopa, ?_, ?_, ?_, ?_⟩
              · simp [hlt2, hlt3, hne, hne.symm]
              · simp
              · simp
              · simp
      · -- the source is resident
        by_cases hpo : frame_of oldpg.lp_paddr ∈ newpa :: k.cm_pinned
        · have hpo1 := hpo
          simp at hpo1
          simp [hpin1, lpage_lock_and_pin, hget, hl, hlt2, lpage_lock_and_pin_loop,
            LOCK_AND_PIN_PASSES, hres, hpo1] at h2
        · have hpo1 := hpo
          simp at hpo1
          simp [hpin1, lpage_lock_and_pin, hget, hl, hlt2, hlt3, lpage_lock_and_pin_loop,
            LOCK_AND_PIN_PASSES, hres, hpo1, hne, hne.symm, LP_ISDIRTY, or_dirty_and_dirty] at h2
          obtain ⟨hlp, hk⟩ := h2
          have hself : heap_set k.lpages oldlp (some ⟨oldpg.lp_paddr, oldpg.lp_swapaddr, false⟩)
              = k.lpages := by
            apply heap_set_get_self
            rw [hpg, ← hl]
          refine ⟨hlp.symm, rfl, newpa, swa, srest, crest, hsw, hswa, hcm, hpa, ?_, ?_, ?_, Or.inl ?_⟩
          · subst hk; subst hlp
            simp [hlt2, hlt3]
          · subst hk; simp
          · subst hk; simp
          · subst hk; subst hlp
            refine ⟨hres, hpo1.1, ?_, ?_, ?_, ?_⟩
            · simp [hlt2, hlt3, hne, hne.symm, hrec]
            · simp
            · simp
            · simp

/-! ## The loop of lpage_lock_and_pin -/

/-- Two passes are all the loop of `lpage_lock_and_pin` ever makes when no
other thread interleaves: granting more passes changes nothing, whatever the
state. -/
theorem lpage_lock_and_pin_loop_passes (lp n : Nat) (k : Kernel) :
    lpage_lock_and_pin_loop lp (n + 2) INVALID_PADDR k =
      lpage_lock_and_pin_loop lp LOCK_AND_PIN_PASSES INVALID_PADDR k := by
  cases hpg : heap_get k.lpages lp with
  | none => simp [lpage_lock_and_pin_loop, LOCK_AND_PIN_PASSES, hpg]
  | some pg =>
    have hlt := heap_get_lt hpg
    by_cases hfr : frame_of pg.lp_paddr = INVALID_PADDR
    · simp [lpage_lock_and_pin_loop, LOCK_AND_PIN_PASSES, hpg, hfr]
    · cases hl : pg.lp_spinlock with
      | false => simp [lpage_lock_and_pin_loop, LOCK_AND_PIN_PASSES, hpg, hfr, hl]
      | true =>
        by_cases hpin : frame_of pg.lp_paddr ∈ k.cm_pinned
        · simp [lpage_lock_and_pin_loop, LOCK_AND_PIN_PASSES, hpg, hfr, hl, hlt, hpin]
        · simp [lpage_lock_and_pin_loop, LOCK_AND_PIN_PASSES, hpg, hfr, hl, hlt, hpin]

/-- The loop budget is never what stops `lpage_lock_and_pin`. -/
theorem lpage_lock_and_pin_not_fuel (lp : Nat) (k : Kernel) :
    lpage_lock_and_pin lp k ≠ .halt .fuel := by
  unfold lpage_lock_and_pin
  cases hpg : heap_get k.lpages lp with
  | none => simp [hpg]
  | some pg =>
    have hlt := heap_get_lt hpg
    cases hl : pg.lp_spinlock with
    | true => simp [hpg, hl]
    | false =>
      by_cases hfr : frame_of pg.lp_paddr = INVALID_PADDR
      · simp [lpage_lock_and_pin_loop, LOCK_AND_PIN_PASSES, hpg, hfr, hl, hlt]
      · by_cases hpin : frame_of pg.lp_paddr ∈ k.cm_pinned
        · simp [lpage_lock_and_pin_loop, LOCK_AND_PIN_PASSES, hpg, hfr, hl, hlt, hpin]
        · simp [lpage_lock_and_pin_loop, LOCK_AND_PIN_PASSES, hpg, hfr, hl, hlt, hpin]

/-! ## Scenarios, durability and clean eviction -/

theorem incr32_zero : incr32 0 = 1 := by decide

theorem resident_or_dirty (pa : Nat) (h : frame_of pa = pa) (hpa : pa ≠ INVALID_PADDR) (swa : Nat) (b : Bool) :
    resident ⟨pa ||| LPF_DIRTY, swa, b⟩ = true := by
  simp [resident, frame_of_or_dirty, h, hpa]

/-- C1 (amended). Scenario B: zerofill, eviction with no write in between,
successful read fault. The frame mapped by the fault holds zero bytes and
the major-fault counter is 1; the eviction was a write-back (the page is
dirty from its materialization on): write-back counter 1, discard counter 0. -/
theorem scenario_B_writeback (k0 k1 k1e k2 k2e k3 : Kernel) (lp as va : Nat)
    (h0 : counters_zero k0) (hal : cm_frames_aligned k0)
    (hz : lpage_zerofill k0 = .done (.ok lp) k1)
    (he1 : page_untouched lp k1 k1e)
    (hev : lpage_evict lp k1e = .done () k2)
    (he2 : page_untouched lp k2 k2e)
    (hf : lpage_fault lp as VM_FAULT_READ va k2e = .done (.ok ()) k3) :
    ∃ pg, heap_get k3.lpages lp = some pg ∧
      last_call k3 = some (.mmu_map as va pg.lp_paddr false) ∧
      k3.ram (frame_of pg.lp_paddr) = zero_page ∧
      k3.ct_write_evictions = 1 ∧ k3.ct_discard_evictions = 0 ∧ k3.ct_majfaults = 1 := by
  obtain ⟨hz0, hmn0, hmj0, hde0, hwe0⟩ := h0
  obtain ⟨hlp, -, -, pa, swa, srest, crest, -, hswa, hcm, hpa, -, l1, l2, l3, l4, l5,
    b1, b2, b3, b4, b5, hk1⟩ := lpage_zerofill_ok_inv k0 k1 lp hz
  have hfa : frame_of pa = pa := hal pa (by rw [hcm]; simp)
  have hpg1 : heap_get k1.lpages lp = some ⟨pa ||| LPF_DIRTY, swa, false⟩ := by
    rw [hk1, hlp]; simp
  obtain ⟨e1, e2, e3, e4, e5, e6, e7⟩ := he1
  obtain ⟨e7r, e7s⟩ := e7 _ hpg1
  have hres := resident_or_dirty pa hfa hpa swa false
  have e7r := e7r hres
  simp only [frame_of_or_dirty, hfa] at e7r
  rw [hpg1] at e6
  obtain ⟨pg, hpg, -, -, -, -, hcase⟩ := lpage_evict_inv k1e k2 lp hev
  rw [e6] at hpg
  cases hpg
  rcases hcase with ⟨-, -, -, -, c, -, hk2⟩ | ⟨hd, -⟩
  swap
  · simp [LP_ISDIRTY, or_dirty_and_dirty] at hd
  have hlt := heap_get_lt e6
  have hpg2 : heap_get k2.lpages lp = some ⟨INVALID_PADDR, swa, false⟩ := by
    rw [hk2]; simp [hlt]
  obtain ⟨f1, f2, f3, f4, f5, f6, f7⟩ := he2
  obtain ⟨-, f7s⟩ := f7 _ hpg2
  rw [hpg2] at f6
  obtain ⟨-, -, -, -, hcase⟩ :=
    lpage_fault_major_inv k2e k3 lp as va VM_FAULT_READ (.ok ()) _ f6 (by simp) hf
  rcases hcase with ⟨hr, -⟩ | ⟨hr, -⟩ | ⟨-, -, pa1, rest, -, -, -, m1, m2, m3, hk3⟩
  · cases hr
  · cases hr
  have hlt2 := heap_get_lt f6
  refine ⟨⟨pa1, swa, false⟩, ?_, ?_, ?_, ?_, ?_, ?_⟩
  · rw [hk3]; simp [hlt2]
  · rw [hk3]; simp [last_call]
  · rw [hk3]; simp
    rw [f7s, hk2]; simp
    rw [frame_of_or_dirty, hfa, e7r, hk1]; simp
  · rw [hk3]; simp
    rw [f5, hk2]; simp
    rw [e5, hk1]; simp [hwe0, incr32_zero]
  · rw [hk3]; simp
    rw [f4, hk2]; simp
    rw [e4, hk1]; simp [hde0]
  · rw [hk3]; simp
    rw [f3, hk2]; simp
    rw [e3, hk1]; simp [hmj0, incr32_zero]

theorem page_untouched_pins (lp : Nat) (k : Kernel) (pinned free : List Nat) (gl : Bool) :
    page_untouched lp k { k with cm_pinned := pinned, cm_free := free, global_paging_lock := gl } :=
  ⟨rfl, rfl, rfl, rfl, rfl, rfl, fun _ _ => ⟨fun _ => rfl, rfl⟩⟩

/-- Witness of `scenario_B_writeback`: scenario B on the booted machine. -/
theorem scenario_B_writeback_witness :
    ∃ pg, heap_get sb3.lpages 0 = some pg ∧
      last_call sb3 = some (.mmu_map 1 0x400000 pg.lp_paddr false) ∧
      sb3.ram (frame_of pg.lp_paddr) = zero_page ∧
      sb3.ct_write_evictions = 1 ∧ sb3.ct_discard_evictions = 0 ∧ sb3.ct_majfaults = 1 :=
  scenario_B_writeback boot sb1 sb1e sb2 sb2e sb3 0 1 0x400000
    (by decide) (by decide) rfl (page_untouched_pins 0 sb1 _ _ _) rfl
    (page_untouched_pins 0 sb2 _ _ _) rfl

/-- C1 as stated fails: on the booted machine scenario B runs as described,
and the eviction is counted as a write-back, not as a discard. -/
theorem scenario_B_claim_fails :
    counters_zero boot ∧ lpage_zerofill boot = .done (.ok 0) sb1 ∧
    page_untouched 0 sb1 sb1e ∧ lpage_evict 0 sb1e = .done () sb2 ∧
    page_untouched 0 sb2 sb2e ∧
    lpage_fault 0 1 VM_FAULT_READ 0x400000 sb2e = .done (.ok ()) sb3 ∧
    sb3.ct_write_evictions = 1 ∧ sb3.ct_discard_evictions = 0 ∧
    ¬ (sb3.ct_write_evictions = 0 ∧ sb3.ct_discard_evictions = 1 ∧ sb3.ct_majfaults = 1) :=
  ⟨by decide, rfl, page_untouched_pins 0 sb1 _ _ _, rfl, page_untouched_pins 0 sb2 _ _ _, rfl,
    by decide, by decide, by decide⟩

/-- C2. Scenario A: zerofill, successful write fault, eviction, successful
read fault on the same page, nothing else touching the page in between. The
frame mapped by the last fault holds zero bytes, and the counters are: major
faults 1, minor faults 1, write-back evictions 1, discard evictions 0. -/
theorem scenario_A (k0 k1 k1e k2 k2e k3 k3e k4 : Kernel) (lp as va : Nat) (ft : Int)
    (h0 : counters_zero k0) (hal : cm_frames_aligned k0)
    (hft : ft ≠ VM_FAULT_READ)
    (hz : lpage_zerofill k0 = .done (.ok lp) k1)
    (he1 : page_untouched lp k1 k1e)
    (hw : lpage_fault lp as ft va k1e = .done (.ok ()) k2)
    (he2 : page_untouched lp k2 k2e)
    (hev : lpage_evict lp k2e = .done () k3)
    (he3 : page_untouched lp k3 k3e)
    (hf : lpage_fault lp as VM_FAULT_READ va k3e = .done (.ok ()) k4) :
    ∃ pg, heap_get k4.lpages lp = some pg ∧
      last_call k4 = some (.mmu_map as va pg.lp_paddr false) ∧
      k4.ram (frame_of pg.lp_paddr) = zero_page ∧
      k4.ct_majfaults = 1 ∧ k4.ct_minfaults = 1 ∧
      k4.ct_write_evictions = 1 ∧ k4.ct_discard_evictions = 0 := by
  obtain ⟨hz0, hmn0, hmj0, hde0, hwe0⟩ := h0
  obtain ⟨hlp, -, -, pa, swa, srest, crest, -, hswa, hcm, hpa, -, l1, l2, l3, l4, l5,
    b1, b2, b3, b4, b5, hk1⟩ := lpage_zerofill_ok_inv k0 k1 lp hz
  have hfa : frame_of pa = pa := hal pa (by rw [hcm]; simp)
  have hpg1 : heap_get k1.lpages lp = some ⟨pa ||| LPF_DIRTY, swa, false⟩ := by
    rw [hk1, hlp]; simp
  obtain ⟨e1, e2, e3, e4, e5, e6, e7⟩ := he1
  obtain ⟨e7r, e7s⟩ := e7 _ hpg1
  have hres := resident_or_dirty pa hfa hpa swa false
  have e7r := e7r hres
  simp only [frame_of_or_dirty, hfa] at e7r
  rw [hpg1] at e6
  -- the write fault is a minor fault
  obtain ⟨-, -, -, -, -, -, n1, n2, hk2⟩ :=
    lpage_fault_minor_inv k1e k2 lp as va ft (.ok ()) _ e6
      (by simp [frame_of_or_dirty, hfa, hpa]) hw
  simp only [ne_eq, hft, not_false_eq_true, if_true] at hk2
  have hdd : (pa ||| LPF_DIRTY) ||| LPF_DIRTY = pa ||| LPF_DIRTY := by
    rw [Nat.lor_assoc, Nat.or_self]
  rw [hdd] at hk2
  have hlt1 := heap_get_lt e6
  have hpg2 : heap_get k2.lpages lp = some ⟨pa ||| LPF_DIRTY, swa, false⟩ := by
    rw [hk2]; simp [hlt1]
  obtain ⟨g1, g2, g3, g4, g5, g6, g7⟩ := he2
  obtain ⟨g7r, g7s⟩ := g7 _ hpg2
  have g7r := g7r hres
  simp only [frame_of_or_dirty, hfa] at g7r
  rw [hpg2] at g6
  -- the eviction writes the page back
  obtain ⟨pg, hpg, -, -, -, -, hcase⟩ := lpage_evict_inv k2e k3 lp hev
  rw [g6] at hpg
  cases hpg
  rcases hcase with ⟨-, -, -, -, c, -, hk3⟩ | ⟨hd, -⟩
  swap
  · simp [LP_ISDIRTY, or_dirty_and_dirty] at hd
  have hlt2 := heap_get_lt g6
  have hpg3 : heap_get k3.lpages lp = some ⟨INVALID_PADDR, swa, false⟩ := by
    rw [hk3]; simp [hlt2]
  obtain ⟨f1, f2, f3, f4, f5, f6, f7⟩ := he3
  obtain ⟨-, f7s⟩ := f7 _ hpg3
  rw [hpg3] at f6
  -- the read fault pages it in
  obtain ⟨-, -, -, -, hcase⟩ :=
    lpage_fault_major_inv k3e k4 lp as va VM_FAULT_READ (.ok ()) _ f6 (by simp) hf
  rcases hcase with ⟨hr, -⟩ | ⟨hr, -⟩ | ⟨-, -, pa1, rest, -, -, -, m1, m2, m3, hk4⟩
  · cases hr
  · cases hr
  have hlt3 := heap_get_lt f6
  refine ⟨⟨pa1, swa, false⟩, ?_, ?_, ?_, ?_, ?_, ?_, ?_⟩
  · rw [hk4]; simp [hlt3]
  · rw [hk4]; simp [last_call]
  · rw [hk4]; simp
    rw [f7s, hk3]; simp
    rw [frame_of_or_dirty, hfa, g7r, hk2]; simp
    rw [e7r, hk1]; simp
  · rw [hk4]; simp
    rw [f3, hk3]; simp
    rw [g3, hk2]; simp
    rw [e3, hk1]; simp [hmj0, incr32_zero]
  · rw [hk4]; simp
    rw [f2, hk3]; simp
    rw [g2, hk2]; simp
    rw [e2, hk1]; simp [hmn0, incr32_zero]
  · rw [hk4]; simp
    rw [f5, hk3]; simp
    rw [g5, hk2]; simp
    rw [e5, hk1]; simp [hwe0, incr32_zero]
  · rw [hk4]; simp
    rw [f4, hk3]; simp
    rw [g4, hk2]; simp
    rw [e4, hk1]; simp [hde0]

theorem page_untouched_refl (lp : Nat) (k : Kernel) : page_untouched lp k k :=
  ⟨rfl, rfl, rfl, rfl, rfl, rfl, fun _ _ => ⟨fun _ => rfl, rfl⟩⟩

/-- Witness of `scenario_A`: scenario A on the booted machine. -/
theorem scenario_A_witness :
    ∃ pg, heap_get sa4.lpages 0 = some pg ∧
      last_call sa4 = some (.mmu_map 1 0x400000 pg.lp_paddr false) ∧
      sa4.ram (frame_of pg.lp_paddr) = zero_page ∧
      sa4.ct_majfaults = 1 ∧ sa4.ct_minfaults = 1 ∧
      sa4.ct_write_evictions = 1 ∧ sa4.ct_discard_evictions = 0 :=
  scenario_A boot sb1 sb1 sa2 sa2e sa3 sa3e sa4 0 1 0x400000 VM_FAULT_WRITE
    (by decide) (by decide) (by decide) rfl (page_untouched_refl 0 sb1) rfl
    (page_untouched_pins 0 sa2 _ _ _) rfl (page_untouched_pins 0 sa3 _ _ _) rfl

/-- C3. Swap durability: a resident dirty page whose frame holds `c` is
evicted (the evictor holds the global paging lock), nothing else writes its
swap slot or changes its record, and a later fault on it succeeds; the frame
the fault gives the page holds exactly `c`. -/
theorem swap_durability (k k1 k2 k3 : Kernel) (lp as va : Nat) (ft : Int)
    (pg : Lpage) (c : PageData)
    (hpg : heap_get k.lpages lp = some pg)
    (_hres : resident pg = true) (hdirty : LP_ISDIRTY pg = true)
    (hc : k.ram (frame_of pg.lp_paddr) = c)
    (hev : lpage_evict lp k = .done () k1)
    (hrec : heap_get k2.lpages lp = heap_get k1.lpages lp)
    (hslot : k2.swap pg.lp_swapaddr = k1.swap pg.lp_swapaddr)
    (hf : lpage_fault lp as ft va k2 = .done (.ok ()) k3) :
    k.global_paging_lock = true ∧
    (∃ call ∈ k1.trace, call.ev = .swap_pageout (frame_of pg.lp_paddr) pg.lp_swapaddr) ∧
    ∃ pg3, heap_get k3.lpages lp = some pg3 ∧ resident pg3 = true ∧
      pg3.lp_swapaddr = pg.lp_swapaddr ∧
      k3.ram (frame_of pg3.lp_paddr) = c := by
  obtain ⟨pg', hpg', hl, -, -, -, hcase⟩ := lpage_evict_inv k k1 lp hev
  rw [hpg] at hpg'
  cases hpg'
  rcases hcase with ⟨-, hgl, -, -, call, hcall, hk1⟩ | ⟨hd, -⟩
  swap
  · rw [hdirty] at hd
    cases hd
  have hlt := heap_get_lt hpg
  have hpg1 : heap_get k1.lpages lp = some { pg with lp_paddr := INVALID_PADDR } := by
    rw [hk1]; simp [hlt]
  rw [hpg1] at hrec
  obtain ⟨-, -, -, -, hcase⟩ :=
    lpage_fault_major_inv k2 k3 lp as va ft (.ok ()) _ hrec (by simp) hf
  rcases hcase with ⟨hr, -⟩ | ⟨hr, -⟩ | ⟨-, -, pa1, rest, -, hfr, -, m1, m2, m3, hk3⟩
  · cases hr
  · cases hr
  have hlt2 := heap_get_lt hrec
  refine ⟨hgl, ⟨call, ?_, hcall⟩, ⟨pa1, pg.lp_swapaddr, false⟩, ?_, ?_, rfl, ?_⟩
  · rw [hk1]; simp
  · rw [hk3]; simp [hlt2, hl]
  · simpa [resident] using hfr
  · rw [hk3]; simp
    rw [hslot, hk1]; simp [hc]

/-- Witness of `swap_durability`: three bytes written back and read in again. -/
theorem swap_durability_witness :
    durable_k.global_paging_lock = true ∧
    (∃ call ∈ durable_k1.trace, call.ev = .swap_pageout (frame_of 0x1001) 0x5000) ∧
    ∃ pg3, heap_get durable_k3.lpages 0 = some pg3 ∧ resident pg3 = true ∧
      pg3.lp_swapaddr = 0x5000 ∧
      durable_k3.ram (frame_of pg3.lp_paddr) = [1, 2, 3] :=
  swap_durability durable_k durable_k1 durable_k2 durable_k3 0 1 0x400000 VM_FAULT_WRITE
    ⟨0x1001, 0x5000, false⟩ [1, 2, 3] (by decide) (by decide) (by decide) rfl rfl rfl rfl rfl

/-- C4. Clean eviction: a resident page with the dirty flag clear, whose
frame holds what its swap slot holds, is evicted without any call into the
swap store; the discard counter is incremented, the write-back counter
stays; after a later successful fault the page has a frame with the content
its frame had before the eviction. -/
theorem clean_eviction (k k1 k2 k3 : Kernel) (lp as va : Nat) (ft : Int) (pg : Lpage)
    (hpg : heap_get k.lpages lp = some pg)
    (_hres : resident pg = true) (hclean : LP_ISDIRTY pg = false)
    (hsame : k.ram (frame_of pg.lp_paddr) = k.swap pg.lp_swapaddr)
    (hev : lpage_evict lp k = .done () k1)
    (hrec : heap_get k2.lpages lp = heap_get k1.lpages lp)
    (hslot : k2.swap pg.lp_swapaddr = k1.swap pg.lp_swapaddr)
    (hf : lpage_fault lp as ft va k2 = .done (.ok ()) k3) :
    k1.trace = k.trace ∧ k1.swap = k.swap ∧
    k1.ct_discard_evictions = incr32 k.ct_discard_evictions ∧
    (k.ct_discard_evictions + 1 < UINT32_MOD →
      k1.ct_discard_evictions = k.ct_discard_evictions + 1) ∧
    k1.ct_write_evictions = k.ct_write_evictions ∧
    ∃ pg3, heap_get k3.lpages lp = some pg3 ∧ resident pg3 = true ∧
      k3.ram (frame_of pg3.lp_paddr) = k.ram (frame_of pg.lp_paddr) := by
  obtain ⟨pg', hpg', hl, -, -, -, hcase⟩ := lpage_evict_inv k k1 lp hev
  rw [hpg] at hpg'
  cases hpg'
  rcases hcase with ⟨hd, -⟩ | ⟨-, hk1⟩
  · rw [hclean] at hd
    cases hd
  have hlt := heap_get_lt hpg
  have hpg1 : heap_get k1.lpages lp = some { pg with lp_paddr := INVALID_PADDR } := by
    rw [hk1]; simp [hlt]
  rw [hpg1] at hrec
  obtain ⟨-, -, -, -, hcase⟩ :=
    lpage_fault_major_inv k2 k3 lp as va ft (.ok ()) _ hrec (by simp) hf
  rcases hcase with ⟨hr, -⟩ | ⟨hr, -⟩ | ⟨-, -, pa1, rest, -, hfr, -, m1, m2, m3, hk3⟩
  · cases hr
  · cases hr
  have hlt2 := heap_get_lt hrec
  refine ⟨?_, ?_, ?_, ?_, ?_, ⟨pa1, pg.lp_swapaddr, false⟩, ?_, ?_, ?_⟩
  · rw [hk1]
  · rw [hk1]
  · rw [hk1]
  · intro hno
    rw [hk1]
    simp only [incr32]
    exact Nat.mod_eq_of_lt hno
  · rw [hk1]
  · rw [hk3]; simp [hlt2, hl]
  · simpa [resident] using hfr
  · rw [hk3]; simp
    rw [hslot, hk1]; simp [hsame]

/-- Witness of `clean_eviction`: the page of scenario B evicted once more. -/
theorem clean_eviction_witness :
    clean_k1.trace = clean_k.trace ∧ clean_k1.swap = clean_k.swap ∧
    clean_k1.ct_discard_evictions = incr32 clean_k.ct_discard_evictions ∧
    (clean_k.ct_discard_evictions + 1 < UINT32_MOD →
      clean_k1.ct_discard_evictions = clean_k.ct_discard_evictions + 1) ∧
    clean_k1.ct_write_evictions = clean_k.ct_write_evictions ∧
    ∃ pg3, heap_get clean_k3.lpages 0 = some pg3 ∧ resident pg3 = true ∧
      clean_k3.ram (frame_of pg3.lp_paddr) = clean_k.ram (frame_of 0x2000) :=
  clean_eviction clean_k clean_k1 clean_k2 clean_k3 0 1 0x400000 VM_FAULT_READ
    ⟨0x2000, 0x5000, false⟩ (by decide) (by decide) (by decide) rfl rfl rfl rfl rfl

/-! ## The fault handler -/

/-- C5. Failure atomicity of the major-fault path: on a non-resident page
with a swap slot (unlocked, the caller not holding the global paging lock),
when the frame allocator has no frame, `lpage_fault` returns ENOMEM and has
only asked the allocator: the page record is the same (not resident, same
dirty flag and swap slot, lock free), no swap read and no mapping happened,
memory and swap content and the five counters are unchanged. -/
theorem fault_enomem_atomic (k : Kernel) (lp as va : Nat) (ft : Int) (pg : Lpage)
    (hpg : heap_get k.lpages lp = some pg)
    (hnr : pg.lp_paddr = INVALID_PADDR) (hsw : pg.lp_swapaddr ≠ INVALID_SWAPADDR)
    (hl : pg.lp_spinlock = false) (hgl : k.global_paging_lock = false)
    (hcm : k.cm_free = []) :
    ∃ k', lpage_fault lp as ft va k = .done (.error .ENOMEM) k' ∧
      heap_get k'.lpages lp = some pg ∧ resident pg = false ∧
      k'.lpages = k.lpages ∧ k'.global_paging_lock = false ∧
      k'.trace.map Call.ev = k.trace.map Call.ev ++ [.coremap_allocuser lp INVALID_PADDR] ∧
      k'.ram = k.ram ∧ k'.swap = k.swap ∧ k'.cm_pinned = k.cm_pinned ∧
      k'.ct_zerofills = k.ct_zerofills ∧ k'.ct_minfaults = k.ct_minfaults ∧
      k'.ct_majfaults = k.ct_majfaults ∧
      k'.ct_discard_evictions = k.ct_discard_evictions ∧
      k'.ct_write_evictions = k.ct_write_evictions := by
  have hlt := heap_get_lt hpg
  have hself : heap_set k.lpages lp
      (some { lp_paddr := INVALID_PADDR, lp_swapaddr := pg.lp_swapaddr, lp_spinlock := false })
      = k.lpages := by
    apply heap_set_get_self
    rw [hpg, ← hnr, ← hl]
  have hrun : lpage_fault lp as ft va k = .done (.error .ENOMEM)
      { k with trace := k.trace ++
          [⟨.coremap_allocuser lp INVALID_PADDR, held_lpages k.lpages, false⟩] } := by
    unfold lpage_fault
    simp [hgl, hpg, hnr, hl, hlt, hsw, hcm, hself]
  refine ⟨_, hrun, ?_⟩
  simp [hpg, resident, hnr, hgl]

/-- Witness of `fault_enomem_atomic`: the evicted page of scenario B with no
frame left. -/
theorem fault_enomem_atomic_witness :
    ∃ k', lpage_fault 0 1 VM_FAULT_WRITE 0x400000 enomem_k = .done (.error .ENOMEM) k' ∧
      heap_get k'.lpages 0 = some ⟨INVALID_PADDR, 0x5000, false⟩ ∧
      resident ⟨INVALID_PADDR, 0x5000, false⟩ = false ∧
      k'.lpages = enomem_k.lpages ∧ k'.global_paging_lock = false ∧
      k'.trace.map Call.ev = enomem_k.trace.map Call.ev ++ [.coremap_allocuser 0 INVALID_PADDR] ∧
      k'.ram = enomem_k.ram ∧ k'.swap = enomem_k.swap ∧ k'.cm_pinned = enomem_k.cm_pinned ∧
      k'.ct_zerofills = enomem_k.ct_zerofills ∧ k'.ct_minfaults = enomem_k.ct_minfaults ∧
      k'.ct_majfaults = enomem_k.ct_majfaults ∧
      k'.ct_discard_evictions = enomem_k.ct_discard_evictions ∧
      k'.ct_write_evictions = enomem_k.ct_write_evictions :=
  fault_enomem_atomic enomem_k 0 1 0x400000 VM_FAULT_WRITE ⟨INVALID_PADDR, 0x5000, false⟩
    (by decide) rfl (by decide) rfl rfl rfl

/-- What a successful fault on a non-resident page leaves behind, the
allocator handing out frame addresses. -/
theorem lpage_fault_major_ok (k k' : Kernel) (lp as va : Nat) (ft : Int) (pg : Lpage)
    (hpg : heap_get k.lpages lp = some pg) (hnr : resident pg = false)
    (hal : cm_frames_aligned k)
    (h : lpage_fault lp as ft va k = .done (.ok ()) k') :
    ∃ pa rest, k.cm_free = pa :: rest ∧ pa ≠ INVALID_PADDR ∧
      ∃ pg', heap_get k'.lpages lp = some pg' ∧
        pg'.lp_paddr = pa ∧ frame_of pg'.lp_paddr = pa ∧ LP_ISDIRTY pg' = false ∧
        last_call k' = some (.mmu_map as va pa false) ∧
        k'.ct_majfaults = incr32 k.ct_majfaults ∧
        (k.ct_majfaults + 1 < UINT32_MOD → k'.ct_majfaults = k.ct_majfaults + 1) ∧
        k'.ct_minfaults = k.ct_minfaults := by
  have hnr' : frame_of pg.lp_paddr = INVALID_PADDR := by
    simpa [resident] using hnr
  obtain ⟨hl, -, -, -, hcase⟩ := lpage_fault_major_inv k k' lp as va ft (.ok ()) pg hpg hnr' h
  rcases hcase with ⟨hr, -⟩ | ⟨hr, -⟩ | ⟨-, -, pa, rest, hcm, hfr, -, m1, m2, m3, hk'⟩
  · cases hr
  · cases hr
  have hfa : frame_of pa = pa := hal pa (by rw [hcm]; simp)
  have hlt := heap_get_lt hpg
  have hpa : pa ≠ INVALID_PADDR := by rw [← hfa]; exact hfr
  refine ⟨pa, rest, hcm, hpa, ⟨pa, pg.lp_swapaddr, false⟩, ?_, rfl, hfa, ?_, ?_, ?_, ?_, ?_⟩
  · rw [hk']; simp [hlt, hl]
  · simp [LP_ISDIRTY, aligned_not_dirty pa hfa]
  · rw [hk']; simp [last_call]
  · rw [hk']
  · intro hno
    rw [hk']
    simp only [incr32]
    exact Nat.mod_eq_of_lt hno
  · rw [hk']

/-- C6. A successful major fault (any fault type), the allocator handing out
frame addresses: the page is at the frame the allocator returned, clean; the
mapping handed to mmu_map is not writable; the major-fault counter has been
incremented and the minor-fault counter is unchanged. -/
theorem major_fault_post (k k' : Kernel) (lp as va : Nat) (ft : Int) (pg : Lpage)
    (hpg : heap_get k.lpages lp = some pg) (hnr : resident pg = false)
    (hal : cm_frames_aligned k)
    (h : lpage_fault lp as ft va k = .done (.ok ()) k') :
    ∃ pa rest, k.cm_free = pa :: rest ∧ pa ≠ INVALID_PADDR ∧
      ∃ pg', heap_get k'.lpages lp = some pg' ∧
        pg'.lp_paddr = pa ∧ frame_of pg'.lp_paddr = pa ∧ LP_ISDIRTY pg' = false ∧
        last_call k' = some (.mmu_map as va pa false) ∧
        k'.ct_majfaults = incr32 k.ct_majfaults ∧
        (k.ct_majfaults + 1 < UINT32_MOD → k'.ct_majfaults = k.ct_majfaults + 1) ∧
        k'.ct_minfaults = k.ct_minfaults :=
  lpage_fault_major_ok k k' lp as va ft pg hpg hnr hal h

/-- Witness of `major_fault_post`: a write fault on the evicted page of
scenario B. -/
theorem major_fault_post_witness :
    ∃ pa rest, sb2e.cm_free = pa :: rest ∧ pa ≠ INVALID_PADDR ∧
      ∃ pg', heap_get major_k'.lpages 0 = some pg' ∧
        pg'.lp_paddr = pa ∧ frame_of pg'.lp_paddr = pa ∧ LP_ISDIRTY pg' = false ∧
        last_call major_k' = some (.mmu_map 1 0x400000 pa false) ∧
        major_k'.ct_majfaults = incr32 sb2e.ct_majfaults ∧
        (sb2e.ct_majfaults + 1 < UINT32_MOD → major_k'.ct_majfaults = sb2e.ct_majfaults + 1) ∧
        major_k'.ct_minfaults = sb2e.ct_minfaults :=
  major_fault_post sb2e major_k' 0 1 0x400000 VM_FAULT_WRITE ⟨INVALID_PADDR, 0x5000, false⟩
    (by decide) (by decide) (by decide) rfl

/-- C7 as stated fails: a write fault on the evicted page of scenario B
succeeds and leaves the page's dirty flag clear. -/
theorem write_fault_dirty_claim_fails :
    VM_FAULT_WRITE ≠ VM_FAULT_READ ∧
    lpage_fault 0 1 VM_FAULT_WRITE 0x400000 sb2e = .done (.ok ()) major_k' ∧
    heap_get major_k'.lpages 0 = some ⟨0x2000, 0x5000, false⟩ ∧
    LP_ISDIRTY ⟨0x2000, 0x5000, false⟩ = false :=
  ⟨by decide, rfl, by decide, by decide⟩

/-- C7 (amended). A successful write fault on a resident page leaves the
page dirty; a successful fault that had to page the page in leaves it clean
whatever the fault type (the allocator handing out frame addresses). -/
theorem write_fault_dirty (k k' : Kernel) (lp as va : Nat) (ft : Int) (pg : Lpage)
    (hpg : heap_get k.lpages lp = some pg) (hft : ft ≠ VM_FAULT_READ)
    (hal : cm_frames_aligned k)
    (h : lpage_fault lp as ft va k = .done (.ok ()) k') :
    ∃ pg', heap_get k'.lpages lp = some pg' ∧
      (resident pg = true → LP_ISDIRTY pg' = true) ∧
      (resident pg = false → LP_ISDIRTY pg' = false) := by
  have hlt := heap_get_lt hpg
  cases hres : resident pg with
  | true =>
    have hres' : frame_of pg.lp_paddr ≠ INVALID_PADDR := by
      simpa [resident] using hres
    obtain ⟨-, -, -, -, -, -, n1, n2, hk'⟩ :=
      lpage_fault_minor_inv k k' lp as va ft (.ok ()) pg hpg hres' h
    simp only [ne_eq, hft, not_false_eq_true, if_true] at hk'
    refine ⟨⟨pg.lp_paddr ||| LPF_DIRTY, pg.lp_swapaddr, pg.lp_spinlock⟩, ?_, ?_, ?_⟩
    · rw [hk']; simp [hlt]
    · intro _
      simp [LP_ISDIRTY, or_dirty_and_dirty]
    · intro hc
      exact Bool.noConfusion hc
  | false =>
    obtain ⟨pa, rest, -, -, pg', hpg', -, -, hd, -⟩ :=
      lpage_fault_major_ok k k' lp as va ft pg hpg hres hal h
    exact ⟨pg', hpg', ⟨fun hc => Bool.noConfusion hc, fun _ => hd⟩⟩

/-- Witness of `write_fault_dirty`: the write fault of scenario A, on a
resident page. -/
theorem write_fault_dirty_witness :
    ∃ pg', heap_get sa2.lpages 0 = some pg' ∧
      (resident ⟨0x1001, 0x5000, false⟩ = true → LP_ISDIRTY pg' = true) ∧
      (resident ⟨0x1001, 0x5000, false⟩ = false → LP_ISDIRTY pg' = false) :=
  write_fault_dirty sb1 sa2 0 1 0x400000 VM_FAULT_WRITE ⟨0x1001, 0x5000, false⟩
    (by decide) (by decide) (by decide) rfl

/-! ## Materialize and copy -/

/-- C8. Materialize unwinds on failure (kmalloc having succeeded). With no
swap slot available `lpage_materialize`, and so `lpage_zerofill`, returns
ENOSPC after kmalloc, the failed swap_alloc and kfree only: no frame was
asked for and no swap slot freed. With a swap slot but no frame available it
returns ENOSPC and the slot just allocated is freed by exactly one
swap_free. Either way the new lpage is gone, the set of pinned frames and
the zero-fill counter are as before. -/
theorem materialize_unwinds (k : Kernel) (hheap : k.kheap_avail ≠ 0) :
    (k.sw_free = [] →
      ∃ k', lpage_materialize k = .done (.error .ENOSPC) k' ∧
        lpage_zerofill k = .done (.error .ENOSPC) k' ∧
        k'.trace.map Call.ev = k.trace.map Call.ev ++
          [.kmalloc (some k.lpages.length), .swap_alloc INVALID_SWAPADDR,
           .kfree k.lpages.length] ∧
        heap_get k'.lpages k.lpages.length = none ∧
        k'.cm_free = k.cm_free ∧ k'.cm_pinned = k.cm_pinned ∧ k'.sw_free = k.sw_free ∧
        k'.ct_zerofills = k.ct_zerofills) ∧
    (∀ swa srest, k.sw_free = swa :: srest → swa ≠ INVALID_SWAPADDR → k.cm_free = [] →
      ∃ k' evs, lpage_materialize k = .done (.error .ENOSPC) k' ∧
        lpage_zerofill k = .done (.error .ENOSPC) k' ∧
        k'.trace.map Call.ev = k.trace.map Call.ev ++ evs ∧
        evs = [.kmalloc (some k.lpages.length), .swap_alloc swa,
           .coremap_allocuser k.lpages.length INVALID_PADDR, .swap_free swa,
           .kfree k.lpages.length] ∧
        evs.count (.swap_free swa) = 1 ∧
        heap_get k'.lpages k.lpages.length = none ∧
        k'.cm_free = [] ∧ k'.cm_pinned = k.cm_pinned ∧ k'.sw_free = srest ++ [swa] ∧
        k'.ct_zerofills = k.ct_zerofills) := by
  constructor
  · intro hsw
    obtain ⟨l1, l2, l3, b1, b2, b3, hm⟩ := lpage_materialize_noswap k hheap hsw
    refine ⟨_, hm, ?_, ?_⟩
    · unfold lpage_zerofill
      simp [hm]
    · simp
  · intro swa srest hsw hswa hcm
    obtain ⟨l1, l2, l3, l4, l5, b1, b2, b3, b4, b5, hm⟩ :=
      lpage_materialize_noframe k swa srest hheap hsw hswa hcm
    refine ⟨_, _, hm, ?_, ?_, rfl, ?_, ?_⟩
    · unfold lpage_zerofill
      simp [hm]
    · simp
    · simp [List.count_cons]
    · simp [hcm]

/-- Witness of `materialize_unwinds`: the booted machine without swap slots,
and without frames. -/
theorem materialize_unwinds_witness :
    (∃ k', lpage_materialize noswap_k = .done (.error .ENOSPC) k' ∧
        lpage_zerofill noswap_k = .done (.error .ENOSPC) k' ∧
        k'.trace.map Call.ev = noswap_k.trace.map Call.ev ++
          [.kmalloc (some noswap_k.lpages.length), .swap_alloc INVALID_SWAPADDR,
           .kfree noswap_k.lpages.length] ∧
        heap_get k'.lpages noswap_k.lpages.length = none ∧
        k'.cm_free = noswap_k.cm_free ∧ k'.cm_pinned = noswap_k.cm_pinned ∧
        k'.sw_free = noswap_k.sw_free ∧
        k'.ct_zerofills = noswap_k.ct_zerofills) ∧
    (∃ k' evs, lpage_materialize noframe_k = .done (.error .ENOSPC) k' ∧
        lpage_zerofill noframe_k = .done (.error .ENOSPC) k' ∧
        k'.trace.map Call.ev = noframe_k.trace.map Call.ev ++ evs ∧
        evs = [.kmalloc (some noframe_k.lpages.length), .swap_alloc 0x5000,
           .coremap_allocuser noframe_k.lpages.length INVALID_PADDR, .swap_free 0x5000,
           .kfree noframe_k.lpages.length] ∧
        evs.count (.swap_free 0x5000) = 1 ∧
        heap_get k'.lpages noframe_k.lpages.length = none ∧
        k'.cm_free = [] ∧ k'.cm_pinned = noframe_k.cm_pinned ∧
        k'.sw_free = [0x6000] ++ [0x5000] ∧
        k'.ct_zerofills = noframe_k.ct_zerofills) :=
  ⟨(materialize_unwinds noswap_k (by decide)).1 rfl,
   (materialize_unwinds noframe_k (by decide)).2 0x5000 [0x6000] rfl (by decide) rfl⟩

/-- On a non-resident source page, with a frame for the new page but none
left for the source, `lpage_copy` does not return: it calls `lpage_destroy`
on the new page whose spinlock it still holds from `lpage_materialize`. -/
theorem lpage_copy_unwind_halts (k : Kernel) (oldlp : Nat) (oldpg : Lpage)
    (newpa swa : Nat) (srest : List Nat)
    (hpg : heap_get k.lpages oldlp = some oldpg)
    (hl : oldpg.lp_spinlock = false) (hnr : frame_of oldpg.lp_paddr = INVALID_PADDR)
    (hheap : k.kheap_avail ≠ 0)
    (hsw : k.sw_free = swa :: srest) (hswa : swa ≠ INVALID_SWAPADDR)
    (hcm : k.cm_free = [newpa]) (hpa : newpa ≠ INVALID_PADDR)
    (hfa : frame_of newpa = newpa) :
    lpage_copy oldlp k = .halt .deadlock := by
  have hlt := heap_get_lt hpg
  have hne : oldlp ≠ k.lpages.length := Nat.ne_of_lt hlt
  have hlt2 : oldlp < k.lpages.length + 1 := by omega
  have hget : heap_get (k.lpages ++ [some ⟨newpa ||| LPF_DIRTY, swa, true⟩]) oldlp = some oldpg := by
    rw [heap_get_append_old _ _ _ hlt, hpg]
  unfold lpage_copy lpage_materialize
  simp [hheap, hsw, hswa, hcm, hpa, hfa, lpage_lock_and_pin, lpage_lock_and_pin_loop,
    LOCK_AND_PIN_PASSES, hget, hl, hlt2, hnr, hne, hne.symm, frame_of_or_dirty, lpage_destroy]

/-- C9, the code at the failing input: copying the evicted page of scenario B
with one free frame never returns. -/
theorem lpage_copy_unwind_deadlock :
    heap_get copyfail_k.lpages 0 = some ⟨INVALID_PADDR, 0x5000, false⟩ ∧
    copyfail_k.cm_free = [0x3000] ∧ copyfail_k.sw_free = [0x6000] ∧
    lpage_copy 0 copyfail_k = .halt .deadlock :=
  ⟨by decide, rfl, rfl, rfl⟩

/-- C10. Copy independence: after a successful `lpage_copy` of page `A`
returning `B`, with an allocator that hands out frame addresses, none of them
twice, and a swap store that does not hand out the slot of `A`: `B` is
resident and dirty, its frame holds the bytes of the frame of `A`, the two
frames differ and the two swap slots differ, so storing into the frame of
one page leaves the content of the frame of the other as it was. -/
theorem copy_independence (k k' : Kernel) (A B : Nat) (pgA : Lpage)
    (hpg : heap_get k.lpages A = some pgA)
    (hal : cm_frames_aligned k) (hnodup : k.cm_free.Nodup)
    (hslot : pgA.lp_swapaddr ∉ k.sw_free)
    (h : lpage_copy A k = .done (.ok B) k') :
    ∃ pgA' pgB, heap_get k'.lpages A = some pgA' ∧ heap_get k'.lpages B = some pgB ∧
      A ≠ B ∧ resident pgA' = true ∧ resident pgB = true ∧ LP_ISDIRTY pgB = true ∧
      k'.ram (frame_of pgB.lp_paddr) = k'.ram (frame_of pgA'.lp_paddr) ∧
      frame_of pgB.lp_paddr ≠ frame_of pgA'.lp_paddr ∧
      pgB.lp_swapaddr ≠ pgA'.lp_swapaddr ∧
      (∀ c, (frame_store k' (frame_of pgA'.lp_paddr) c).ram (frame_of pgB.lp_paddr)
              = k'.ram (frame_of pgB.lp_paddr)) ∧
      (∀ c, (frame_store k' (frame_of pgB.lp_paddr) c).ram (frame_of pgA'.lp_paddr)
              = k'.ram (frame_of pgA'.lp_paddr)) := by
  have hlt := heap_get_lt hpg
  obtain ⟨hB, -, newpa, swa, srest, crest, hsw, -, hcm, hpa, hpgB, -, -, hcase⟩ :=
    lpage_copy_ok_inv k k' A B pgA hpg h
  have hAB : A ≠ B := by rw [hB]; exact Nat.ne_of_lt hlt
  have hfa : frame_of newpa = newpa := hal newpa (by rw [hcm]; simp)
  have hsl : swa ≠ pgA.lp_swapaddr := by
    intro hc
    apply hslot
    rw [hsw, ← hc]
    simp
  have hresB : resident ⟨newpa ||| LPF_DIRTY, swa, false⟩ = true :=
    resident_or_dirty newpa hfa hpa swa false
  have hdB : LP_ISDIRTY ⟨newpa ||| LPF_DIRTY, swa, false⟩ = true := by
    simp [LP_ISDIRTY, or_dirty_and_dirty]
  rcases hcase with ⟨hres, hne, hpgA, hram, -, -⟩ |
    ⟨-, oldpa, crest2, hcr, hopa, hpgA, hram, -, -⟩
  · -- resident source
    have hne' : newpa ≠ frame_of pgA.lp_paddr := fun hc => hne hc.symm
    refine ⟨pgA, _, hpgA, hpgB, hAB, ?_, hresB, hdB, ?_, ?_, hsl, ?_, ?_⟩
    · simpa [resident] using hres
    · simp [hram, frame_of_or_dirty, hfa, hne]
    · simpa [frame_of_or_dirty, hfa] using hne'
    · intro c
      simp [frame_store, frame_of_or_dirty, hfa, hne']
    · intro c
      simp [frame_store, frame_of_or_dirty, hfa, hne]
  · -- source paged in first
    have hmem : oldpa ∈ k.cm_free := by rw [hcm, hcr]; simp
    have hfo : frame_of oldpa = oldpa := hal oldpa hmem
    have hne : newpa ≠ oldpa := by
      rw [hcm, hcr] at hnodup
      intro hc
      simp [hc] at hnodup
    refine ⟨_, _, hpgA, hpgB, hAB, ?_, hresB, hdB, ?_, ?_, hsl, ?_, ?_⟩
    · simp [resident, hfo, hopa]
    · simp [hram, frame_of_or_dirty, hfa, hfo]
    · simpa [frame_of_or_dirty, hfa, hfo] using hne
    · intro c
      simp [frame_store, frame_of_or_dirty, hfa, hfo, hne]
    · intro c
      simp [frame_store, frame_of_or_dirty, hfa, hfo, hne.symm]

/-- Witness of `copy_independence`: the zero-filled page of scenario B is
copied. -/
theorem copy_independence_witness :
    ∃ pgA' pgB, heap_get copy_k'.lpages 0 = some pgA' ∧ heap_get copy_k'.lpages 1 = some pgB ∧
      0 ≠ 1 ∧ resident pgA' = true ∧ resident pgB = true ∧ LP_ISDIRTY pgB = true ∧
      copy_k'.ram (frame_of pgB.lp_paddr) = copy_k'.ram (frame_of pgA'.lp_paddr) ∧
      frame_of pgB.lp_paddr ≠ frame_of pgA'.lp_paddr ∧
      pgB.lp_swapaddr ≠ pgA'.lp_swapaddr ∧
      (∀ c, (frame_store copy_k' (frame_of pgA'.lp_paddr) c).ram (frame_of pgB.lp_paddr)
              = copy_k'.ram (frame_of pgB.lp_paddr)) ∧
      (∀ c, (frame_store copy_k' (frame_of pgB.lp_paddr) c).ram (frame_of pgA'.lp_paddr)
              = copy_k'.ram (frame_of pgA'.lp_paddr)) :=
  copy_independence sb1 copy_k' 0 1 ⟨0x1001, 0x5000, false⟩
    (by decide) (by decide) (by decide) (by decide)
    (Outcome.eq_done_of_result _ _ _ (by decide!))

/-! ## More about returning calls of lpage.c -/

/-- A returning `lpage_lock_and_pin`: the page was unlocked; it is now
locked, and when it is resident its frame, which was not pinned, has been
pinned by one `coremap_pin` made with no page lock held. -/
theorem lpage_lock_and_pin_inv (k k' : Kernel) (lp : Nat)
    (h : lpage_lock_and_pin lp k = .done () k') :
    ∃ pg, heap_get k.lpages lp = some pg ∧ pg.lp_spinlock = false ∧
      ((frame_of pg.lp_paddr = INVALID_PADDR ∧
        k' = { k with lpages := heap_set k.lpages lp (some { pg with lp_spinlock := true }) }) ∨
       (frame_of pg.lp_paddr ≠ INVALID_PADDR ∧ frame_of pg.lp_paddr ∉ k.cm_pinned ∧
        k' = { k with
          lpages := heap_set k.lpages lp (some { pg with lp_spinlock := true })
          cm_pinned := frame_of pg.lp_paddr :: k.cm_pinned
          trace := k.trace ++ [⟨.coremap_pin (frame_of pg.lp_paddr),
            held_lpages (heap_set k.lpages lp (some { pg with lp_spinlock := false })),
            k.global_paging_lock⟩] })) := by
  unfold lpage_lock_and_pin at h
  cases hpg : heap_get k.lpages lp with
  | none => simp [hpg] at h
  | some pg =>
    have hlt := heap_get_lt hpg
    refine ⟨pg, rfl, ?_⟩
    cases hl : pg.lp_spinlock with
    | true => simp [hpg, hl] at h
    | false =>
      refine ⟨rfl, ?_⟩
      by_cases hfr : frame_of pg.lp_paddr = INVALID_PADDR
      · left
        simp [lpage_lock_and_pin_loop, LOCK_AND_PIN_PASSES, hpg, hfr, hl, hlt] at h
        exact ⟨hfr, h.symm⟩
      · right
        by_cases hpin : frame_of pg.lp_paddr ∈ k.cm_pinned
        · simp [lpage_lock_and_pin_loop, LOCK_AND_PIN_PASSES, hpg, hfr, hl, hlt, hpin] at h
        · simp [lpage_lock_and_pin_loop, LOCK_AND_PIN_PASSES, hpg, hfr, hl, hlt, hpin] at h
          exact ⟨hfr, hpin, h.symm⟩

/-! ## Which page locks are held -/

theorem held_lpages_nil_iff (l : List (Option Lpage)) :
    held_lpages l = [] ↔ ∀ i pg, heap_get l i = some pg → pg.lp_spinlock = false := by
  unfold held_lpages
  rw [List.filter_eq_nil_iff]
  constructor
  · intro h i pg hpg
    have h1 := h i (by simpa using heap_get_lt hpg)
    rw [hpg] at h1
    simpa using h1
  · intro h i _
    cases hg : heap_get l i with
    | none => simp
    | some pg => simp [h i pg hg]

theorem held_lpages_set_unlocked (l : List (Option Lpage)) (i a b : Nat)
    (h : held_lpages l = []) : held_lpages (heap_set l i (some ⟨a, b, false⟩)) = [] := by
  rw [held_lpages_nil_iff] at h ⊢
  intro j pg hpg
  by_cases hij : i = j
  · subst hij
    have hlt := heap_get_lt hpg
    rw [heap_set_length] at hlt
    rw [heap_get_set_eq _ _ _ hlt] at hpg
    cases hpg
    rfl
  · rw [heap_get_set_ne _ _ _ _ hij] at hpg
    exact h j pg hpg

theorem held_lpages_set_none (l : List (Option Lpage)) (i : Nat)
    (h : held_lpages l = []) : held_lpages (heap_set l i none) = [] := by
  rw [held_lpages_nil_iff] at h ⊢
  intro j pg hpg
  by_cases hij : i = j
  · subst hij
    have hlt := heap_get_lt hpg
    rw [heap_set_length] at hlt
    rw [heap_get_set_eq _ _ _ hlt] at hpg
    cases hpg
  · rw [heap_get_set_ne _ _ _ _ hij] at hpg
    exact h j pg hpg

theorem held_lpages_append_unlocked (l : List (Option Lpage)) (a b : Nat)
    (h : held_lpages l = []) : held_lpages (l ++ [some ⟨a, b, false⟩]) = [] := by
  rw [held_lpages_nil_iff] at h ⊢
  intro j pg hpg
  have hlt := heap_get_lt hpg
  simp at hlt
  by_cases hj : j < l.length
  · rw [heap_get_append_old _ _ _ hj] at hpg
    exact h j pg hpg
  · have hj2 : j = l.length := by omega
    subst hj2
    rw [heap_get_append_new] at hpg
    cases hpg
    rfl

theorem held_lpages_append_none (l : List (Option Lpage))
    (h : held_lpages l = []) : held_lpages (l ++ [none]) = [] := by
  rw [held_lpages_nil_iff] at h ⊢
  intro j pg hpg
  have hlt := heap_get_lt hpg
  simp at hlt
  by_cases hj : j < l.length
  · rw [heap_get_append_old _ _ _ hj] at hpg
    exact h j pg hpg
  · have hj2 : j = l.length := by omega
    subst hj2
    rw [heap_get_append_new] at hpg
    cases hpg

/-- A returning `lpage_evict` that started with no page lock held respects
the lock discipline. -/
theorem lpage_evict_disciplined (k k' : Kernel) (lp : Nat)
    (hnl : held_lpages k.lpages = []) (h : lpage_evict lp k = .done () k') :
    disciplined k k' := by
  obtain ⟨pg, hpg, hl, hpa, hsw, hst, hc⟩ := lpage_evict_inv k k' lp h
  have hlt := heap_get_lt hpg
  unfold lpage_evict at h
  rcases hc with ⟨hd, hgl, hpin, hfr, -⟩ | ⟨hd, -⟩
  · have hd1 : LP_ISDIRTY { pg with lp_spinlock := true } = true := by
      simpa [LP_ISDIRTY] using hd
    simp [hpg, hl, hlt, hpa, hsw, hd1, hgl, hpin, hfr, hst] at h
    subst h
    simp [calls_since, disciplined, Call.no_page_lock, Call.swap_locked,
      Event.allocator_or_swap, Event.swap_io, held_lpages_set_unlocked, hnl]
  · have hd1 : LP_ISDIRTY { pg with lp_spinlock := true } = false := by
      simpa [LP_ISDIRTY] using hd
    simp [hpg, hl, hlt, hpa, hsw, hd1, hst] at h
    subst h
    simp [calls_since, disciplined]

/-- A returning `lpage_fault` that started with no page lock held respects
the lock discipline. -/
theorem lpage_fault_disciplined (k k' : Kernel) (lp as va : Nat) (ft : Int)
    (r : Except Errno Unit)
    (hnl : held_lpages k.lpages = []) (h : lpage_fault lp as ft va k = .done r k') :
    disciplined k k' := by
  cases hpg : heap_get k.lpages lp with
  | none => cases hgl : k.global_paging_lock <;> simp [lpage_fault, hpg, hgl] at h
  | some pg =>
    have hlt := heap_get_lt hpg
    by_cases hres : frame_of pg.lp_paddr = INVALID_PADDR
    · -- major fault
      obtain ⟨hl, hgl, hsw, hw, hc⟩ := lpage_fault_major_inv k k' lp as va ft r pg hpg hres h
      have hself : heap_set k.lpages lp
          (some { lp_paddr := INVALID_PADDR, lp_swapaddr := pg.lp_swapaddr, lp_spinlock := false })
          = k.lpages := by
        apply heap_set_get_self
        rw [hpg, ← hw, ← hl]
      unfold lpage_fault at h
      rcases hc with ⟨-, hfree, -⟩ | ⟨-, pa1, rest, hfree, hfr, -⟩ |
        ⟨-, hst, pa1, rest, hfree, hfr, hpin, -⟩
      · simp [hgl, hpg, hres, hl, hlt, hsw, hw, frame_of_zero, hfree, hself] at h
        rw [← h.2]
        simp [calls_since, disciplined, Call.no_page_lock, Call.swap_locked,
          Event.allocator_or_swap, Event.swap_io, hnl]
      · simp [hgl, hpg, hres, hl, hlt, hsw, hw, frame_of_zero, hfree, hfr, hself] at h
        rw [← h.2]
        simp [calls_since, disciplined, Call.no_page_lock, Call.swap_locked,
          Event.allocator_or_swap, Event.swap_io, hnl]
      · simp [hgl, hpg, hres, hl, hlt, hsw, hw, frame_of_zero, hfree, hfr, hself] at h
        have hpin1 := hpin
        simp at hpin1
        simp [hpin1, hpg, hl, hlt, hw, frame_of_zero, hst, lpage_fault_map] at h
        rw [← h.2]
        simp [calls_since, disciplined, Call.no_page_lock, Call.swap_locked,
          Event.allocator_or_swap, Event.swap_io, hnl]
    · -- minor fault
      obtain ⟨-, hl, hgl, hst, hsw, hpin, -⟩ :=
        lpage_fault_minor_inv k k' lp as va ft r pg hpg hres h
      have hw := frame_ne_zero_word hres
      unfold lpage_fault at h
      by_cases hft : ft = VM_FAULT_READ
      · simp [hgl, hpg, hres, lpage_lock_and_pin, hl, hlt, LOCK_AND_PIN_PASSES,
          lpage_lock_and_pin_loop, hpin, hsw, hw, hst, lpage_fault_map, hft] at h
        rw [← h.2]
        simp [calls_since, disciplined, Call.no_page_lock, Call.swap_locked,
          Event.allocator_or_swap, Event.swap_io, held_lpages_set_unlocked, hnl]
      · simp [hgl, hpg, hres, lpage_lock_and_pin, hl, hlt, LOCK_AND_PIN_PASSES,
          lpage_lock_and_pin_loop, hpin, hsw, hw, hst, lpage_fault_map, hft, frame_of_or_dirty] at h
        rw [← h.2]
        simp [calls_since, disciplined, Call.no_page_lock, Call.swap_locked,
          Event.allocator_or_swap, Event.swap_io, held_lpages_set_unlocked, hnl]

/-- A returning `lpage_materialize`, whatever it returns: the lpages that
existed before the call are as they were, it has made no swap read or write,
and when it started with no page lock held it respects the lock
discipline. -/
theorem lpage_materialize_any (k k' : Kernel) (r : Except Errno (Nat × Nat))
    (h : lpage_materialize k = .done r k') :
    (∀ i, i < k.lpages.length → heap_get k'.lpages i = heap_get k.lpages i) ∧
    swap_io_locked k k' ∧
    (held_lpages k.lpages = [] → disciplined k k') := by
  unfold lpage_materialize at h
  by_cases hheap : k.kheap_avail = 0
  · simp [hheap] at h
    rw [← h.2]
    refine ⟨fun i _ => rfl, ?_, fun hnl => ?_⟩
    · simp [calls_since, swap_io_locked, Call.swap_locked, Event.swap_io]
    · simp [calls_since, disciplined, Call.no_page_lock, Call.swap_locked,
        Event.allocator_or_swap, Event.swap_io]
  cases hsw : k.sw_free with
  | nil =>
    simp [hheap, hsw, lpage_destroy, lpage_lock_and_pin, lpage_lock_and_pin_loop,
      LOCK_AND_PIN_PASSES, frame_of_zero] at h
    rw [← h.2]
    refine ⟨fun i hi => heap_get_append_old _ _ _ hi, ?_, fun hnl => ?_⟩
    · simp [calls_since, swap_io_locked, Call.swap_locked, Event.swap_io]
    · simp [calls_since, disciplined, Call.no_page_lock, Call.swap_locked,
        Event.allocator_or_swap, Event.swap_io, held_lpages_append_unlocked, hnl]
  | cons swa srest =>
    by_cases hswa : swa = INVALID_SWAPADDR
    · simp [hheap, hsw, hswa, lpage_destroy, lpage_lock_and_pin, lpage_lock_and_pin_loop,
        LOCK_AND_PIN_PASSES, frame_of_zero] at h
      rw [← h.2]
      refine ⟨fun i hi => heap_get_append_old _ _ _ hi, ?_, fun hnl => ?_⟩
      · simp [calls_since, swap_io_locked, Call.swap_locked, Event.swap_io]
      · simp [calls_since, disciplined, Call.no_page_lock, Call.swap_locked,
          Event.allocator_or_swap, Event.swap_io, held_lpages_append_unlocked, hnl]
    cases hcm : k.cm_free with
    | nil =>
      simp [hheap, hsw, hswa, hcm, lpage_destroy, lpage_lock_and_pin, lpage_lock_and_pin_loop,
        LOCK_AND_PIN_PASSES, frame_of_zero] at h
      rw [← h.2]
      refine ⟨fun i hi => heap_get_append_old _ _ _ hi, ?_, fun hnl => ?_⟩
      · simp [calls_since, swap_io_locked, Call.swap_locked, Event.swap_io]
      · simp [calls_since, disciplined, Call.no_page_lock, Call.swap_locked,
          Event.allocator_or_swap, Event.swap_io, held_lpages_append_unlocked, hnl]
    | cons pa1 crest =>
      by_cases hpa : pa1 = INVALID_PADDR
      · simp [hheap, hsw, hswa, hcm, hpa, lpage_destroy, lpage_lock_and_pin,
          lpage_lock_and_pin_loop, LOCK_AND_PIN_PASSES, frame_of_zero] at h
        rw [← h.2]
        refine ⟨fun i hi => heap_get_append_old _ _ _ hi, ?_, fun hnl => ?_⟩
        · simp [calls_since, swap_io_locked, Call.swap_locked, Event.swap_io]
        · simp [calls_since, disciplined, Call.no_page_lock, Call.swap_locked,
            Event.allocator_or_swap, Event.swap_io, held_lpages_append_unlocked, hnl]
      · by_cases hpin : frame_of pa1 ∈ pa1 :: k.cm_pinned
        swap
        · have hpin1 := hpin
          simp at hpin1
          simp [hheap, hsw, hswa, hcm, hpa, hpin1] at h
        · have hpin1 := hpin
          simp at hpin1
          simp [hheap, hsw, hswa, hcm, hpa, hpin1] at h
          rw [← h.2]
          refine ⟨fun i hi => heap_get_append_old _ _ _ hi, ?_, fun hnl => ?_⟩
          · simp [calls_since, swap_io_locked, Call.swap_locked, Event.swap_io]
          · simp [calls_since, disciplined, Call.no_page_lock, Call.swap_locked,
              Event.allocator_or_swap, Event.swap_io, held_lpages_append_unlocked, hnl]

/-- A returning `lpage_zerofill` that started with no page lock held respects
the lock discipline. -/
theorem lpage_zerofill_disciplined (k k' : Kernel) (r : Except Errno Nat)
    (hnl : held_lpages k.lpages = []) (h : lpage_zerofill k = .done r k') :
    disciplined k k' := by
  unfold lpage_zerofill at h
  simp only [bind_apply] at h
  obtain ⟨a, k1, h1, h2⟩ := andThen_done_inv h
  have hd := (lpage_materialize_any k k1 a h1).2.2 hnl
  cases a with
  | error e =>
    simp at h2
    rw [← h2.2]
    exact hd
  | ok p =>
    obtain ⟨lp1, pa⟩ := p
    obtain ⟨hlp, hheap, hpa, hpin, swa, srest, crest, hsw, hswa, hcm, l1, l2, l3, b1, b2, b3, hk1⟩ :=
      lpage_materialize_ok_inv k k1 lp1 pa h1
    subst hk1
    subst hlp
    have hpin1 := hpin
    simp at hpin1
    simp [calls_since, disciplined, Call.no_page_lock, Call.swap_locked,
      Event.allocator_or_swap, Event.swap_io] at hd
    cases hst : k.stats_spinlock with
    | true => simp [hpin1, hst] at h2
    | false =>
      simp [hpin1, hst] at h2
      rw [← h2.2]
      simp [calls_since, disciplined, Call.no_page_lock, Call.swap_locked,
        Event.allocator_or_swap, Event.swap_io, held_lpages_append_unlocked, hnl, hd]

/-- A returning `lpage_destroy` that started with no page lock held respects
the lock discipline. -/
theorem lpage_destroy_disciplined (k k' : Kernel) (lp : Nat)
    (hnl : held_lpages k.lpages = []) (h : lpage_destroy lp k = .done () k') :
    disciplined k k' := by
  unfold lpage_destroy at h
  simp only [bind_apply] at h
  obtain ⟨u, k1, h1, h2⟩ := andThen_done_inv h
  obtain ⟨pg, hpg, hl, hc⟩ := lpage_lock_and_pin_inv k k1 lp h1
  have hlt := heap_get_lt hpg
  clear h h1
  rcases hc with ⟨hfr, hk1⟩ | ⟨hfr, hpin, hk1⟩
  · subst hk1
    by_cases hsw : pg.lp_swapaddr = INVALID_SWAPADDR
    · simp [hlt, hfr, hsw] at h2
      rw [← h2]
      simp [calls_since, disciplined, Call.no_page_lock, Call.swap_locked,
        Event.allocator_or_swap, Event.swap_io, held_lpages_set_unlocked, hnl]
    · simp [hlt, hfr, hsw] at h2
      rw [← h2]
      simp [calls_since, disciplined, Call.no_page_lock, Call.swap_locked,
        Event.allocator_or_swap, Event.swap_io, held_lpages_set_unlocked, hnl]
  · subst hk1
    by_cases hsw : pg.lp_swapaddr = INVALID_SWAPADDR
    · simp [hlt, hfr, hsw] at h2
      rw [← h2]
      simp [calls_since, disciplined, Call.no_page_lock, Call.swap_locked,
        Event.allocator_or_swap, Event.swap_io, held_lpages_set_unlocked, hnl]
    · simp [hlt, hfr, hsw] at h2
      rw [← h2]
      simp [calls_since, disciplined, Call.no_page_lock, Call.swap_locked,
        Event.allocator_or_swap, Event.swap_io, held_lpages_set_unlocked, hnl]

set_option maxHeartbeats 1600000 in
/-- A returning `lpage_copy`, whatever it returns: an error comes from
`lpage_materialize`, which then is the whole run; and the swap read, if any,
is made with the global paging lock held. -/
theorem lpage_copy_any (k k' : Kernel) (oldlp : Nat) (r : Except Errno Nat)
    (h : lpage_copy oldlp k = .done r k') :
    (∀ e, r = .error e → lpage_materialize k = .done (.error e) k') ∧
    swap_io_locked k k' := by
  unfold lpage_copy at h
  simp only [bind_apply] at h
  obtain ⟨a, k1, h1, h2⟩ := andThen_done_inv h
  have hd := (lpage_materialize_any k k1 a h1).2.1
  cases a with
  | error e1 =>
    simp at h2
    obtain ⟨hr, hk⟩ := h2
    subst hk
    refine ⟨?_, hd⟩
    intro e he
    rw [he] at hr
    cases hr
    exact h1
  | ok p =>
    obtain ⟨lp1, newpa⟩ := p
    obtain ⟨hlp, hheap, hpa, hpin, swa, srest, crest, hsw, hswa, hcm, l1, l2, l3, b1, b2, b3, hk1⟩ :=
      lpage_materialize_ok_inv k k1 lp1 newpa h1
    subst hk1
    subst hlp
    have hpin1 := hpin
    simp at hpin1
    clear h h1 hd
    cases hpg : heap_get k.lpages oldlp with
    | none =>
      by_cases hne : oldlp = k.lpages.length
      · subst hne
        simp [hpin1, lpage_lock_and_pin] at h2
      · have hget : heap_get (k.lpages ++ [some ⟨newpa ||| LPF_DIRTY, swa, true⟩]) oldlp = none := by
          by_cases hlt : oldlp < k.lpages.length
          · rw [heap_get_append_old _ _ _ hlt, hpg]
          · simp [heap_get, List.getD]
            rw [List.getElem?_eq_none (by simp; omega)]
            rfl
        simp [hpin1, lpage_lock_and_pin, hget] at h2
    | some oldpg =>
      have hlt := heap_get_lt hpg
      have hne : oldlp ≠ k.lpages.length := Nat.ne_of_lt hlt
      have hget : heap_get (k.lpages ++ [some ⟨newpa ||| LPF_DIRTY, swa, true⟩]) oldlp = some oldpg := by
        rw [heap_get_append_old _ _ _ hlt, hpg]
      have hlt2 : oldlp < k.lpages.length + 1 := by omega
      have hlt3 : k.lpages.length < k.lpages.length + 1 := by omega
      cases hl : oldpg.lp_spinlock with
      | true => simp [hpin1, lpage_lock_and_pin, hget, hl] at h2
      | false =>
        by_cases hres : frame_of oldpg.lp_paddr = INVALID_PADDR
        · cases hcr : crest with
          | nil =>
            simp [hpin1, lpage_lock_and_pin, hget, hl, hlt2, hlt3, lpage_lock_and_pin_loop,
              LOCK_AND_PIN_PASSES, hres, hne, hne.symm, hcr, frame_of_or_dirty, lpage_destroy] at h2
          | cons oldpa crest2 =>
            by_cases hopa : oldpa = INVALID_PADDR
            · simp [hpin1, lpage_lock_and_pin, hget, hl, hlt2, hlt3, lpage_lock_and_pin_loop,
                LOCK_AND_PIN_PASSES, hres, hne, hne.symm, hcr, frame_of_or_dirty, lpage_destroy,
                hopa] at h2
            by_cases hpo : frame_of oldpa ∈ oldpa :: newpa :: k.cm_pinned
            swap
            · have hpo1 := hpo
              simp at hpo1
              simp [hpin1, lpage_lock_and_pin, hget, hl, hlt2, hlt3, lpage_lock_and_pin_loop,
                LOCK_AND_PIN_PASSES, hres, hne, hne.symm, hcr, hopa, hpo1] at h2
            have hpo1 := hpo
            simp at hpo1
            cases hgl : k.global_paging_lock with
            | true =>
              simp [hpin1, lpage_lock_and_pin, hget, hl, hlt2, hlt3, lpage_lock_and_pin_loop,
                LOCK_AND_PIN_PASSES, hres, hne, hne.symm, hcr, hopa, hpo1, hgl] at h2
            | false =>
              simp [hpin1, lpage_lock_and_pin, hget, hl, hlt2, hlt3, lpage_lock_and_pin_loop,
                LOCK_AND_PIN_PASSES, hres, hne, hne.symm, hcr, hopa, hpo1, hgl, LP_ISDIRTY,
                or_dirty_and_dirty] at h2
              have hmem : oldpa ∈ (oldpa :: newpa :: k.cm_pinned).erase newpa := by
                by_cases hon : oldpa = newpa
                · subst hon
                  simp
                · rw [List.erase_cons_tail (by simpa using hon)]
                  simp
              simp [hmem] at h2
              refine ⟨?_, ?_⟩
              · intro e he
                rw [he] at h2
                exact absurd h2.1 (by simp)
              · rw [← h2.2]
                simp [calls_since, swap_io_locked, Call.swap_locked, Event.swap_io]
        · by_cases hpo : frame_of oldpg.lp_paddr ∈ newpa :: k.cm_pinned
          · have hpo1 := hpo
            simp at hpo1
            simp [hpin1, lpage_lock_and_pin, hget, hl, hlt2, lpage_lock_and_pin_loop,
              LOCK_AND_PIN_PASSES, hres, hpo1] at h2
          · have hpo1 := hpo
            simp at hpo1
            simp [hpin1, lpage_lock_and_pin, hget, hl, hlt2, hlt3, lpage_lock_and_pin_loop,
              LOCK_AND_PIN_PASSES, hres, hpo1, hne, hne.symm, LP_ISDIRTY, or_dirty_and_dirty] at h2
            refine ⟨?_, ?_⟩
            · intro e he
              rw [he] at h2
              exact absurd h2.1 (by simp)
            · rw [← h2.2]
              simp [calls_since, swap_io_locked, Call.swap_locked, Event.swap_io]

/-- A returning `lpage_copy` that reports an error has failed in
`lpage_materialize`: the source page is as it was. -/
theorem lpage_copy_err_inv (k k' : Kernel) (oldlp : Nat) (e : Errno) (oldpg : Lpage)
    (hpg : heap_get k.lpages oldlp = some oldpg)
    (h : lpage_copy oldlp k = .done (.error e) k') :
    lpage_materialize k = .done (.error e) k' ∧
    heap_get k'.lpages oldlp = some oldpg := by
  have hm := (lpage_copy_any k k' oldlp _ h).1 e rfl
  refine ⟨hm, ?_⟩
  rw [(lpage_materialize_any k k' _ hm).1 oldlp (heap_get_lt hpg), hpg]

/-! ## lpage_lock_and_pin with other threads at work -/

theorem others_move_none (lp : Nat) (k : Kernel) : others_move lp none k = .done () k := by
  unfold others_move
  cases heap_get k.lpages lp <;> rfl

/-- The loop of `lpage_lock_and_pin` with other threads at work, entered with
the page lock held and the frame `pinned` (if any) pinned: when it returns
the page is locked, its frame (if any) is pinned, and the pins made balance
the unpins made, up to the pin held at entry and the pin held at exit. -/
theorem lpage_lock_and_pin_loop_with_post (lp : Nat) :
    ∀ (fuel pinned : Nat) (env : List (Option Nat)) (k k' : Kernel),
    lpage_lock_and_pin_loop_with lp fuel pinned env k = .done () k' →
    (∀ pg, heap_get k.lpages lp = some pg → pg.lp_spinlock = true) →
    (pinned ≠ INVALID_PADDR → pinned ∈ k.cm_pinned) →
    ∃ pg tr, heap_get k'.lpages lp = some pg ∧ pg.lp_spinlock = true ∧
      k'.trace = k.trace ++ tr ∧
      (frame_of pg.lp_paddr ≠ INVALID_PADDR → frame_of pg.lp_paddr ∈ k'.cm_pinned) ∧
      ∀ f, pins f tr + (if f = pinned ∧ pinned ≠ INVALID_PADDR then 1 else 0) =
        unpins f tr + (if f = frame_of pg.lp_paddr ∧ f ≠ INVALID_PADDR then 1 else 0) := by
  intro fuel
  induction fuel with
  | zero =>
    intro pinned env k k' h
    simp [lpage_lock_and_pin_loop_with] at h
  | succ fuel ih =>
    intro pinned env k k' h hheld hpinned
    rw [lpage_lock_and_pin_loop_with] at h
    cases hpg : heap_get k.lpages lp with
    | none => simp [hpg] at h
    | some pg =>
      have hlt := heap_get_lt hpg
      have hl := hheld pg hpg
      by_cases hpa : frame_of pg.lp_paddr = pinned
      · simp [hpg, hpa] at h
        subst h
        refine ⟨pg, [], hpg, hl, by simp, ?_, ?_⟩
        · intro hne
          rw [hpa]
          exact hpinned (by rw [← hpa]; exact hne)
        · intro f
          simp [pins, unpins, hpa]
          by_cases hf : f = pinned
          · subst hf; simp
          · simp [hf]
      · by_cases hfr : frame_of pg.lp_paddr = INVALID_PADDR
        · -- the page is not resident: unpin what is pinned and stop
          have hp0 : pinned ≠ INVALID_PADDR := fun hc => hpa (by rw [hfr, hc])
          have hpin := hpinned hp0
          have hpa0 : ¬ INVALID_PADDR = pinned := fun hc => hp0 hc.symm
          generalize env.headD none = mv at h
          cases mv with
          | none =>
            simp [hpg, hfr, hpa0, hl, hlt, hp0, hpin, others_move_none] at h
            subst h
            refine ⟨{ pg with lp_spinlock := true }, [⟨.coremap_unpin pinned, _, _⟩], ?_, rfl, rfl, ?_, ?_⟩
            · simp [hlt]
            · intro hne
              exact absurd hfr hne
            · intro f
              simp [pins, unpins, List.countP_cons, hfr, hp0]
              by_cases hf : f = pinned
              · simp [hf]
              · have hf2 : ¬ pinned = f := fun hc => hf hc.symm
                simp [hf, hf2]
          | some v =>
            have hget : heap_get (heap_set k.lpages lp
                (some { lp_paddr := pg.lp_paddr, lp_swapaddr := pg.lp_swapaddr,
                        lp_spinlock := false })) lp
                = some { lp_paddr := pg.lp_paddr, lp_swapaddr := pg.lp_swapaddr,
                         lp_spinlock := false } := heap_get_set_eq _ _ _ hlt
            by_cases hv : frame_of v = INVALID_PADDR
            · simp [hpg, hfr, hpa0, hl, hlt, hp0, hpin, others_move, hv] at h
              subst h
              refine ⟨⟨v, pg.lp_swapaddr, true⟩, [⟨.coremap_unpin pinned, _, _⟩], ?_, rfl, rfl, ?_, ?_⟩
              · simp [hlt]
              · intro hne
                exact absurd hv hne
              · intro f
                simp [pins, unpins, List.countP_cons, hv, hp0]
                by_cases hf : f = pinned
                · simp [hf]
                · have hf2 : ¬ pinned = f := fun hc => hf hc.symm
                  simp [hf, hf2]
            · simp [hpg, hfr, hpa0, hl, hlt, hp0, hpin, others_move, hv] at h
        · -- the page is resident in a frame other than the pinned one
          generalize env.headD none = mv at h
          by_cases hp0 : pinned = INVALID_PADDR
          · by_cases hpp : frame_of pg.lp_paddr ∈ k.cm_pinned
            · simp [hpg, hpa, hfr, hl, hlt, hp0, hpp] at h
            cases mv with
            | none =>
              simp [hpg, hpa, hfr, hl, hlt, hp0, hpp, others_move_none] at h
              obtain ⟨pg2, tr2, hg2, hl2, ht2, hm2, hb2⟩ := ih _ _ _ _ h
                (by intro q hq; simp [hlt] at hq; rw [← hq])
                (by intro _; simp)
              refine ⟨pg2, ⟨.coremap_pin (frame_of pg.lp_paddr), held_lpages (heap_set k.lpages lp
                (some { pg with lp_spinlock := false })), k.global_paging_lock⟩ :: tr2,
                hg2, hl2, ?_, hm2, ?_⟩
              · rw [ht2]; simp
              · intro f
                have hb := hb2 f
                simp only [pins, unpins, List.countP_cons] at hb ⊢
                simp only [hp0] at hb ⊢
                simp at hb ⊢
                split_ifs at hb ⊢ <;> omega
            | some v =>
              simp [hpg, hpa, hfr, hl, hlt, hp0, hpp, others_move] at h
              obtain ⟨pg2, tr2, hg2, hl2, ht2, hm2, hb2⟩ := ih _ _ _ _ h
                (by intro q hq; simp [hlt] at hq; rw [← hq])
                (by intro _; simp)
              refine ⟨pg2, ⟨.coremap_pin (frame_of pg.lp_paddr), held_lpages (heap_set k.lpages lp
                (some { pg with lp_spinlock := false })), k.global_paging_lock⟩ :: tr2,
                hg2, hl2, ?_, hm2, ?_⟩
              · rw [ht2]; simp
              · intro f
                have hb := hb2 f
                simp only [pins, unpins, List.countP_cons] at hb ⊢
                simp only [hp0] at hb ⊢
                simp at hb ⊢
                split_ifs at hb ⊢ <;> omega
          · have hpin := hpinned hp0
            by_cases hpp : frame_of pg.lp_paddr ∈ k.cm_pinned.erase pinned
            · simp [hpg, hpa, hfr, hl, hlt, hp0, hpin, hpp] at h
            cases mv with
            | none =>
              simp [hpg, hpa, hfr, hl, hlt, hp0, hpin, hpp, others_move_none] at h
              obtain ⟨pg2, tr2, hg2, hl2, ht2, hm2, hb2⟩ := ih _ _ _ _ h
                (by intro q hq; simp [hlt] at hq; rw [← hq])
                (by intro _; simp)
              refine ⟨pg2, ⟨.coremap_unpin pinned, held_lpages (heap_set k.lpages lp
                (some { pg with lp_spinlock := false })), k.global_paging_lock⟩ ::
                ⟨.coremap_pin (frame_of pg.lp_paddr), held_lpages (heap_set k.lpages lp
                (some { pg with lp_spinlock := false })), k.global_paging_lock⟩ :: tr2,
                hg2, hl2, ?_, hm2, ?_⟩
              · rw [ht2]; simp
              · intro f
                have hb := hb2 f
                simp only [pins, unpins, List.countP_cons] at hb ⊢
                simp at hb ⊢
                split_ifs at hb ⊢ <;> omega
            | some v =>
              simp [hpg, hpa, hfr, hl, hlt, hp0, hpin, hpp, others_move] at h
              obtain ⟨pg2, tr2, hg2, hl2, ht2, hm2, hb2⟩ := ih _ _ _ _ h
                (by intro q hq; simp [hlt] at hq; rw [← hq])
                (by intro _; simp)
              refine ⟨pg2, ⟨.coremap_unpin pinned, held_lpages (heap_set k.lpages lp
                (some { pg with lp_spinlock := false })), k.global_paging_lock⟩ ::
                ⟨.coremap_pin (frame_of pg.lp_paddr), held_lpages (heap_set k.lpages lp
                (some { pg with lp_spinlock := false })), k.global_paging_lock⟩ :: tr2,
                hg2, hl2, ?_, hm2, ?_⟩
              · rw [ht2]; simp
              · intro f
                have hb := hb2 f
                simp only [pins, unpins, List.countP_cons] at hb ⊢
                simp at hb ⊢
                split_ifs at hb ⊢ <;> omega

/-! ## Scenario C, lock and pin, lock discipline -/

/-- C11. Scenario C: a successful `lpage_copy` of a non-resident source page,
with an allocator that hands out frame addresses, makes these calls and no
other: kmalloc, swap_alloc and coremap_allocuser for the new page, then
coremap_allocuser for the source, one swap_pagein of the source's swap slot
into that newly allocated frame, then coremap_copy_page from that frame, then
the two unpins. On return the source page is resident at that frame, with
the swap slot it had, the frame holds the content of the slot, and the swap
device is unchanged. -/
theorem scenario_C (k k' : Kernel) (oldlp newlp : Nat) (oldpg : Lpage)
    (hal : cm_frames_aligned k)
    (hpg : heap_get k.lpages oldlp = some oldpg) (hnr : resident oldpg = false)
    (h : lpage_copy oldlp k = .done (.ok newlp) k') :
    ∃ newpa oldpa rest swa, k.cm_free = newpa :: oldpa :: rest ∧
      k'.trace.map Call.ev = k.trace.map Call.ev ++
        [.kmalloc (some newlp), .swap_alloc swa,
         .coremap_allocuser newlp newpa,
         .coremap_allocuser oldlp oldpa,
         .swap_pagein oldpa oldpg.lp_swapaddr,
         .coremap_copy_page oldpa newpa,
         .coremap_unpin newpa, .coremap_unpin oldpa] ∧
      heap_get k'.lpages oldlp = some { oldpg with lp_paddr := oldpa } ∧
      resident { oldpg with lp_paddr := oldpa } = true ∧
      frame_of oldpa = oldpa ∧
      k'.ram oldpa = k.swap oldpg.lp_swapaddr ∧
      k'.swap = k.swap := by
  obtain ⟨hB, -, newpa, swa, srest, crest, hsw, -, hcm, hpa, hpgB, hswap, -, hcase⟩ :=
    lpage_copy_ok_inv k k' oldlp newlp oldpg hpg h
  have hnr1 : frame_of oldpg.lp_paddr = INVALID_PADDR := by
    simpa [resident] using hnr
  rcases hcase with ⟨hres, -⟩ | ⟨-, oldpa, crest2, hcr, hopa, hpgA, hram, -, htr⟩
  · exact absurd hnr1 hres
  · have hmem : oldpa ∈ k.cm_free := by rw [hcm, hcr]; simp
    have hfo : frame_of oldpa = oldpa := hal oldpa hmem
    refine ⟨newpa, oldpa, crest2, swa, by rw [hcm, hcr], ?_, hpgA, ?_, hfo, ?_, hswap⟩
    · rw [htr, hB]
    · simp [resident, hfo, hopa]
    · rw [hram]
      by_cases hon : oldpa = newpa
      · simp [hon]
      · simp [hon]

/-- Witness of `scenario_C`: the evicted page of scenario B is copied. -/
theorem scenario_C_witness :
    ∃ newpa oldpa rest swa, sb2e.cm_free = newpa :: oldpa :: rest ∧
      copy_nr_k'.trace.map Call.ev = sb2e.trace.map Call.ev ++
        [.kmalloc (some 1), .swap_alloc swa,
         .coremap_allocuser 1 newpa,
         .coremap_allocuser 0 oldpa,
         .swap_pagein oldpa 0x5000,
         .coremap_copy_page oldpa newpa,
         .coremap_unpin newpa, .coremap_unpin oldpa] ∧
      heap_get copy_nr_k'.lpages 0 = some ⟨oldpa, 0x5000, false⟩ ∧
      resident ⟨oldpa, 0x5000, false⟩ = true ∧
      frame_of oldpa = oldpa ∧
      copy_nr_k'.ram oldpa = sb2e.swap 0x5000 ∧
      copy_nr_k'.swap = sb2e.swap :=
  scenario_C sb2e copy_nr_k' 0 1 ⟨INVALID_PADDR, 0x5000, false⟩
    (by decide) (by decide) (by decide)
    (Outcome.eq_done_of_result _ _ _ (by decide!))

/-- With no change made by other threads the loop with other threads at work
is the loop of `lpage_lock_and_pin`. -/
theorem lpage_lock_and_pin_loop_with_nil (lp : Nat) :
    ∀ (fuel pinned : Nat) (k : Kernel),
    lpage_lock_and_pin_loop_with lp fuel pinned [] k = lpage_lock_and_pin_loop lp fuel pinned k := by
  intro fuel
  induction fuel with
  | zero => intro pinned k; rfl
  | succ fuel ih =>
    intro pinned k
    rw [lpage_lock_and_pin_loop_with, lpage_lock_and_pin_loop]
    cases hpg : heap_get k.lpages lp with
    | none => simp [hpg]
    | some pg =>
      have hlt := heap_get_lt hpg
      by_cases hpa : frame_of pg.lp_paddr = pinned
      · simp [hpg, hpa]
      cases hl : pg.lp_spinlock with
      | false => simp [hpg, hpa, hl]
      | true =>
        by_cases hp0 : pinned = INVALID_PADDR
        · by_cases hfr : frame_of pg.lp_paddr = INVALID_PADDR
          · exact absurd (hfr.trans hp0.symm) hpa
          · by_cases hpp : frame_of pg.lp_paddr ∈ k.cm_pinned
            · simp [hpg, hpa, hl, hlt, hp0, hfr, hpp]
            · simp [hpg, hpa, hl, hlt, hp0, hfr, hpp, others_move_none]
              exact ih _ _
        · by_cases hpin : pinned ∈ k.cm_pinned
          swap
          · simp [hpg, hpa, hl, hlt, hp0, hpin]
          by_cases hfr : frame_of pg.lp_paddr = INVALID_PADDR
          · have hpa0 : ¬ INVALID_PADDR = pinned := fun hc => hp0 hc.symm
            simp [hpg, hl, hlt, hp0, hfr, hpin, hpa0, others_move_none]
          · by_cases hpp : frame_of pg.lp_paddr ∈ k.cm_pinned.erase pinned
            · simp [hpg, hpa, hl, hlt, hp0, hfr, hpin, hpp]
            · simp [hpg, hpa, hl, hlt, hp0, hfr, hpin, hpp, others_move_none]
              exact ih _ _


/-- The loop budget is never what stops the loop with other threads at work,
if it allows two passes more than the other threads make changes. -/
theorem lpage_lock_and_pin_loop_with_not_fuel (lp : Nat) :
    ∀ (env : List (Option Nat)) (pinned : Nat) (k : Kernel),
    lpage_lock_and_pin_loop_with lp (env.length + 2) pinned env k ≠ .halt .fuel := by
  intro env
  induction env with
  | nil =>
    intro pinned k
    rw [lpage_lock_and_pin_loop_with_nil]
    cases hpg : heap_get k.lpages lp with
    | none => simp [lpage_lock_and_pin_loop, hpg]
    | some pg =>
      have hlt := heap_get_lt hpg
      by_cases hpa : frame_of pg.lp_paddr = pinned
      · simp [lpage_lock_and_pin_loop, hpg, hpa]
      cases hl : pg.lp_spinlock with
      | false => simp [lpage_lock_and_pin_loop, hpg, hpa, hl]
      | true =>
        by_cases hp0 : pinned = INVALID_PADDR
        · by_cases hfr : frame_of pg.lp_paddr = INVALID_PADDR
          · exact absurd (hfr.trans hp0.symm) hpa
          · by_cases hpp : frame_of pg.lp_paddr ∈ k.cm_pinned
            · simp [lpage_lock_and_pin_loop, hpg, hpa, hl, hlt, hp0, hfr, hpp]
            · simp [lpage_lock_and_pin_loop, hpg, hpa, hl, hlt, hp0, hfr, hpp]
        · by_cases hpin : pinned ∈ k.cm_pinned
          swap
          · simp [lpage_lock_and_pin_loop, hpg, hpa, hl, hlt, hp0, hpin]
          by_cases hfr : frame_of pg.lp_paddr = INVALID_PADDR
          · have hpa0 : ¬ INVALID_PADDR = pinned := fun hc => hp0 hc.symm
            simp [lpage_lock_and_pin_loop, hpg, hl, hlt, hp0, hfr, hpin, hpa0]
          · by_cases hpp : frame_of pg.lp_paddr ∈ k.cm_pinned.erase pinned
            · simp [lpage_lock_and_pin_loop, hpg, hpa, hl, hlt, hp0, hfr, hpin, hpp]
            · simp [lpage_lock_and_pin_loop, hpg, hpa, hl, hlt, hp0, hfr, hpin, hpp]
  | cons e es ih =>
    intro pinned k
    have hlen : (e :: es).length + 2 = (es.length + 2) + 1 := by simp
    rw [hlen, lpage_lock_and_pin_loop_with]
    cases hpg : heap_get k.lpages lp with
    | none => simp [hpg]
    | some pg =>
      have hlt := heap_get_lt hpg
      by_cases hpa : frame_of pg.lp_paddr = pinned
      · simp [hpg, hpa]
      cases hl : pg.lp_spinlock with
      | false => simp [hpg, hpa, hl]
      | true =>
        by_cases hp0 : pinned = INVALID_PADDR
        · by_cases hfr : frame_of pg.lp_paddr = INVALID_PADDR
          · exact absurd (hfr.trans hp0.symm) hpa
          · by_cases hpp : frame_of pg.lp_paddr ∈ k.cm_pinned
            · simp [hpg, hpa, hl, hlt, hp0, hfr, hpp]
            · cases e with
              | none =>
                simp [hpg, hpa, hl, hlt, hp0, hfr, hpp, others_move_none]
                exact ih _ _
              | some v =>
                simp [hpg, hpa, hl, hlt, hp0, hfr, hpp, others_move]
                exact ih _ _
        · by_cases hpin : pinned ∈ k.cm_pinned
          swap
          · simp [hpg, hpa, hl, hlt, hp0, hpin]
          by_cases hfr : frame_of pg.lp_paddr = INVALID_PADDR
          · have hpa0 : ¬ INVALID_PADDR = pinned := fun hc => hp0 hc.symm
            cases e with
            | none => simp [hpg, hl, hlt, hp0, hfr, hpin, hpa0, others_move_none]
            | some v =>
              by_cases hv : frame_of v = INVALID_PADDR
              · simp [hpg, hl, hlt, hp0, hfr, hpin, hpa0, others_move, hv]
              · simp [hpg, hl, hlt, hp0, hfr, hpin, hpa0, others_move, hv]
          · by_cases hpp : frame_of pg.lp_paddr ∈ k.cm_pinned.erase pinned
            · simp [hpg, hpa, hl, hlt, hp0, hfr, hpin, hpp]
            · cases e with
              | none =>
                simp [hpg, hpa, hl, hlt, hp0, hfr, hpin, hpp, others_move_none]
                exact ih _ _
              | some v =>
                simp [hpg, hpa, hl, hlt, hp0, hfr, hpin, hpp, others_move]
                exact ih _ _


/-- C12. Postcondition of `lpage_lock_and_pin`, with other threads storing
any sequence of address words in the page while the caller does not hold
the page lock: whenever the call returns, the page is locked; counting the
`coremap_pin` and `coremap_unpin` calls it made, the frame of the page's
current address word (if the page is resident) has one pin more than unpins
and is pinned, and every other frame has as many unpins as pins, so nothing
else is left pinned. The loop budget never stops the call when it allows two
passes more than the other threads make changes; with no change by other
threads the call is `lpage_lock_and_pin` itself, which makes at most two
passes and returns for every unlocked page whose frame is not pinned. -/
theorem lock_and_pin_post (lp : Nat) (k : Kernel) :
    (∀ fuel env k', lpage_lock_and_pin_with lp fuel env k = .done () k' →
      ∃ pg tr, heap_get k'.lpages lp = some pg ∧ pg.lp_spinlock = true ∧
        k'.trace = k.trace ++ tr ∧
        (resident pg = true → frame_of pg.lp_paddr ∈ k'.cm_pinned) ∧
        ∀ f, pins f tr =
          unpins f tr + (if f = frame_of pg.lp_paddr ∧ resident pg = true then 1 else 0)) ∧
    (∀ env, lpage_lock_and_pin_with lp (env.length + 2) env k ≠ .halt .fuel) ∧
    (∀ n, lpage_lock_and_pin_with lp (n + 2) [] k = lpage_lock_and_pin lp k) ∧
    (∀ pg, heap_get k.lpages lp = some pg → pg.lp_spinlock = false →
      frame_of pg.lp_paddr ∉ k.cm_pinned → ∃ k', lpage_lock_and_pin lp k = .done () k') := by
  refine ⟨?_, ?_, ?_, ?_⟩
  · intro fuel env k' h
    unfold lpage_lock_and_pin_with at h
    simp only [bind_apply] at h
    obtain ⟨u, k1, h1, h2⟩ := andThen_done_inv h
    cases hpg : heap_get k.lpages lp with
    | none => simp [hpg] at h1
    | some pg0 =>
      have hlt := heap_get_lt hpg
      cases hl : pg0.lp_spinlock with
      | true => simp [hpg, hl] at h1
      | false =>
        simp [hpg, hl] at h1
        subst h1
        obtain ⟨pg, tr, hg, hlk, htr, hmem, hbal⟩ :=
          lpage_lock_and_pin_loop_with_post lp fuel INVALID_PADDR env _ k' h2
            (by intro q hq; simp [hlt] at hq; rw [← hq])
            (by intro hc; exact absurd rfl hc)
        refine ⟨pg, tr, hg, hlk, htr, ?_, ?_⟩
        · intro hres
          exact hmem (by simpa [resident] using hres)
        · intro f
          have hb := hbal f
          simp only [resident] at hb ⊢
          simp at hb ⊢
          rw [hb]
          by_cases hf : f = frame_of pg.lp_paddr
          · subst hf; simp
          · simp [hf]
  · intro env
    unfold lpage_lock_and_pin_with
    cases hpg : heap_get k.lpages lp with
    | none => simp [hpg]
    | some pg0 =>
      cases hl : pg0.lp_spinlock with
      | true => simp [hpg, hl]
      | false =>
        simp [hpg, hl]
        exact lpage_lock_and_pin_loop_with_not_fuel lp env _ _
  · intro n
    unfold lpage_lock_and_pin_with lpage_lock_and_pin
    simp only [bind_apply]
    generalize lpage_lock lp k = o
    cases o with
    | halt e => simp only [andThen_halt]
    | done u k1 =>
      simp only [andThen_done]
      rw [lpage_lock_and_pin_loop_with_nil, lpage_lock_and_pin_loop_passes]
  · intro pg hpg hl hpin
    have hlt := heap_get_lt hpg
    unfold lpage_lock_and_pin
    by_cases hfr : frame_of pg.lp_paddr = INVALID_PADDR
    · simp [lpage_lock_and_pin_loop, LOCK_AND_PIN_PASSES, hpg, hfr, hl, hlt]
    · simp [lpage_lock_and_pin_loop, LOCK_AND_PIN_PASSES, hpg, hfr, hl, hlt, hpin]

/-- Witness of `lock_and_pin_post`: the zero-filled page of scenario B
(frame 0x1000) is moved to the frame 0x2000 and back while the call runs;
the call pins 0x1000, 0x2000 and 0x1000 again, unpins the first two, and
returns with the page locked and 0x1000 pinned. Without other threads the
call returns on that page. -/
theorem lock_and_pin_post_witness :
    (∃ pg tr, heap_get moved_k'.lpages 0 = some pg ∧ pg.lp_spinlock = true ∧
      moved_k'.trace = sb1.trace ++ tr ∧
      (resident pg = true → frame_of pg.lp_paddr ∈ moved_k'.cm_pinned) ∧
      ∀ f, pins f tr =
        unpins f tr + (if f = frame_of pg.lp_paddr ∧ resident pg = true then 1 else 0)) ∧
    (∃ k', lpage_lock_and_pin 0 sb1 = .done () k') :=
  ⟨(lock_and_pin_post 0 sb1).1 4 [some 0x2000, some 0x1000] moved_k'
     (Outcome.eq_done_of_result _ _ _ (by decide!)),
   (lock_and_pin_post 0 sb1).2.2.2 ⟨0x1001, 0x5000, false⟩ (by decide) rfl (by decide)⟩

/-- C13 (amended). Lock discipline: along every returning execution of
`lpage_zerofill`, `lpage_fault`, `lpage_evict` and `lpage_destroy` that starts
with no per-page lock held, no call into the frame allocator or the swap
store is made with a per-page lock held, and every swap read or write is made
with the global paging lock held. Along every returning execution of
`lpage_copy` every swap read is made with the global paging lock held. -/
theorem lock_discipline (k k' : Kernel) (hnl : held_lpages k.lpages = []) :
    (∀ r, lpage_zerofill k = .done r k' → disciplined k k') ∧
    (∀ lp as va ft r, lpage_fault lp as ft va k = .done r k' → disciplined k k') ∧
    (∀ lp, lpage_evict lp k = .done () k' → disciplined k k') ∧
    (∀ lp, lpage_destroy lp k = .done () k' → disciplined k k') ∧
    (∀ oldlp r, lpage_copy oldlp k = .done r k' → swap_io_locked k k') :=
  ⟨fun r h => lpage_zerofill_disciplined k k' r hnl h,
   fun lp as va ft r h => lpage_fault_disciplined k k' lp as va ft r hnl h,
   fun lp h => lpage_evict_disciplined k k' lp hnl h,
   fun lp h => lpage_destroy_disciplined k k' lp hnl h,
   fun oldlp r h => (lpage_copy_any k k' oldlp r h).2⟩

/-- Witness of `lock_discipline`: the zero-fill on the booted machine, the
major fault of scenario B, the eviction of scenario B, the destruction of
the zero-filled page and the copy of the evicted page. -/
theorem lock_discipline_witness :
    disciplined boot sb1 ∧ disciplined sb2e sb3 ∧ disciplined sb1e sb2 ∧
    disciplined sb1 destroy_k' ∧ swap_io_locked sb2e copy_nr_k' :=
  ⟨(lock_discipline boot sb1 (by decide)).1 (.ok 0) rfl,
   (lock_discipline sb2e sb3 (by decide)).2.1 0 1 0x400000 VM_FAULT_READ (.ok ())
     (Outcome.eq_done_of_result _ _ _ (by decide!)),
   (lock_discipline sb1e sb2 (by decide)).2.2.1 0
     (Outcome.eq_done_of_result _ _ _ (by decide!)),
   (lock_discipline sb1 destroy_k' (by decide)).2.2.2.1 0
     (Outcome.eq_done_of_result _ _ _ (by decide!)),
   (lock_discipline sb2e copy_nr_k' (by decide)).2.2.2.2 0 (.ok 1)
     (Outcome.eq_done_of_result _ _ _ (by decide!))⟩

/-- C13 as claimed fails for `lpage_copy`: copying the zero-filled page of
scenario B, started with no page lock held, returns the new page 1, and on
the way `coremap_pin` on the source's frame is called with the lock of the
new page held and `coremap_copy_page` with both page locks held; copying the
evicted page of scenario B calls `coremap_allocuser` and `swap_pagein` for
the source with the lock of the new page held. -/
theorem lock_discipline_claim_fails :
    held_lpages sb1.lpages = [] ∧
    lpage_copy 0 sb1 = .done (.ok 1) copy_k' ∧
    (⟨.coremap_pin 0x1000, [1], false⟩ : Call) ∈ calls_since sb1 copy_k' ∧
    (⟨.coremap_copy_page 0x1000 0x2000, [0, 1], false⟩ : Call) ∈ calls_since sb1 copy_k' ∧
    ¬ disciplined sb1 copy_k' ∧
    held_lpages sb2e.lpages = [] ∧
    lpage_copy 0 sb2e = .done (.ok 1) copy_nr_k' ∧
    (⟨.coremap_allocuser 0 0x3000, [1], false⟩ : Call) ∈ calls_since sb2e copy_nr_k' ∧
    (⟨.swap_pagein 0x3000 0x5000, [1], true⟩ : Call) ∈ calls_since sb2e copy_nr_k' ∧
    ¬ disciplined sb2e copy_nr_k' :=
  ⟨by decide, Outcome.eq_done_of_result _ _ _ (by decide!), by decide!, by decide!, by decide!,
   by decide, Outcome.eq_done_of_result _ _ _ (by decide!), by decide!, by decide!, by decide!⟩

/-! ## Swap location, zero-fill, counting of faults -/

/-- C14. The swap location is assigned once and never changes: a page
returned by `lpage_zerofill` or `lpage_copy` has a swap location other than
INVALID_SWAPADDR; and for a page with an assigned swap location, a returning
`lpage_fault` (with success or an error), `lpage_evict`, `lpage_lock_and_pin`
or `lpage_copy` of that page as source (with success or an error) leaves the
page in the heap with the same swap location. -/
theorem swap_location_stable (k k' : Kernel) :
    (∀ lp, lpage_zerofill k = .done (.ok lp) k' →
      ∃ pg, heap_get k'.lpages lp = some pg ∧ pg.lp_swapaddr ≠ INVALID_SWAPADDR) ∧
    (∀ oldlp newlp oldpg, heap_get k.lpages oldlp = some oldpg →
      lpage_copy oldlp k = .done (.ok newlp) k' →
      ∃ pg, heap_get k'.lpages newlp = some pg ∧ pg.lp_swapaddr ≠ INVALID_SWAPADDR) ∧
    (∀ lp pg, heap_get k.lpages lp = some pg → pg.lp_swapaddr ≠ INVALID_SWAPADDR →
      (∀ as va ft r, lpage_fault lp as ft va k = .done r k' →
        ∃ pg', heap_get k'.lpages lp = some pg' ∧ pg'.lp_swapaddr = pg.lp_swapaddr) ∧
      (lpage_evict lp k = .done () k' →
        ∃ pg', heap_get k'.lpages lp = some pg' ∧ pg'.lp_swapaddr = pg.lp_swapaddr) ∧
      (lpage_lock_and_pin lp k = .done () k' →
        ∃ pg', heap_get k'.lpages lp = some pg' ∧ pg'.lp_swapaddr = pg.lp_swapaddr) ∧
      (∀ r, lpage_copy lp k = .done r k' →
        ∃ pg', heap_get k'.lpages lp = some pg' ∧ pg'.lp_swapaddr = pg.lp_swapaddr)) := by
  refine ⟨?_, ?_, ?_⟩
  · intro lp h
    obtain ⟨hlp, -, -, pa, swa, srest, crest, -, hswa, -, -, -,
      l1, l2, l3, l4, l5, b1, b2, b3, b4, b5, hk1⟩ := lpage_zerofill_ok_inv k k' lp h
    refine ⟨⟨pa ||| LPF_DIRTY, swa, false⟩, ?_, hswa⟩
    subst hk1; subst hlp; simp
  · intro oldlp newlp oldpg hpg h
    obtain ⟨-, -, newpa, swa, srest, crest, -, hswa, -, -, hpgB, -⟩ :=
      lpage_copy_ok_inv k k' oldlp newlp oldpg hpg h
    exact ⟨_, hpgB, hswa⟩
  · intro lp pg hpg hsw
    have hlt := heap_get_lt hpg
    refine ⟨?_, ?_, ?_, ?_⟩
    · intro as va ft r h
      by_cases hres : frame_of pg.lp_paddr = INVALID_PADDR
      · obtain ⟨-, -, -, -, hc⟩ := lpage_fault_major_inv k k' lp as va ft r pg hpg hres h
        rcases hc with ⟨-, -, l1, hk⟩ | ⟨-, pa1, rest, -, -, l1, hk⟩ |
          ⟨-, -, pa1, rest, -, -, -, l1, l2, l3, hk⟩
        · exact ⟨pg, by rw [hk]; exact hpg, rfl⟩
        · exact ⟨pg, by rw [hk]; exact hpg, rfl⟩
        · exact ⟨{ pg with lp_paddr := pa1 }, by rw [hk]; exact heap_get_set_eq _ _ _ hlt, rfl⟩
      · obtain ⟨-, -, -, -, -, -, l1, l2, hk⟩ :=
          lpage_fault_minor_inv k k' lp as va ft r pg hpg hres h
        exact ⟨{ pg with lp_paddr := if ft ≠ VM_FAULT_READ then pg.lp_paddr ||| LPF_DIRTY
          else pg.lp_paddr }, by rw [hk]; exact heap_get_set_eq _ _ _ hlt, rfl⟩
    · intro h
      obtain ⟨pg1, hpg1, -, -, -, -, hc⟩ := lpage_evict_inv k k' lp h
      rw [hpg] at hpg1
      cases hpg1
      rcases hc with ⟨-, -, -, -, c, -, hk⟩ | ⟨-, hk⟩
      · exact ⟨{ pg with lp_paddr := INVALID_PADDR }, by rw [hk]; exact heap_get_set_eq _ _ _ hlt, rfl⟩
      · exact ⟨{ pg with lp_paddr := INVALID_PADDR }, by rw [hk]; exact heap_get_set_eq _ _ _ hlt, rfl⟩
    · intro h
      obtain ⟨pg1, hpg1, -, hc⟩ := lpage_lock_and_pin_inv k k' lp h
      rw [hpg] at hpg1
      cases hpg1
      rcases hc with ⟨-, hk⟩ | ⟨-, -, hk⟩
      · exact ⟨{ pg with lp_spinlock := true }, by rw [hk]; exact heap_get_set_eq _ _ _ hlt, rfl⟩
      · exact ⟨{ pg with lp_spinlock := true }, by rw [hk]; exact heap_get_set_eq _ _ _ hlt, rfl⟩
    · intro r h
      cases r with
      | error e => exact ⟨pg, (lpage_copy_err_inv k k' lp e pg hpg h).2, rfl⟩
      | ok newlp =>
        obtain ⟨-, -, newpa, swa, srest, crest, -, -, -, -, -, -, -, hc⟩ :=
          lpage_copy_ok_inv k k' lp newlp pg hpg h
        rcases hc with ⟨-, -, hpgA, -⟩ | ⟨-, oldpa, crest2, -, -, hpgA, -⟩
        · exact ⟨pg, hpgA, rfl⟩
        · exact ⟨_, hpgA, rfl⟩

/-- Witness of `swap_location_stable`: the page zero-filled on the booted
machine has the slot 0x5000, and keeps it through an eviction and through the
copy of the evicted page. -/
theorem swap_location_stable_witness :
    (∃ pg, heap_get sb1.lpages 0 = some pg ∧ pg.lp_swapaddr ≠ INVALID_SWAPADDR) ∧
    (∃ pg', heap_get sb2.lpages 0 = some pg' ∧ pg'.lp_swapaddr = 0x5000) ∧
    (∃ pg', heap_get copy_nr_k'.lpages 0 = some pg' ∧ pg'.lp_swapaddr = 0x5000) :=
  ⟨(swap_location_stable boot sb1).1 0 rfl,
   ((swap_location_stable sb1e sb2).2.2 0 ⟨0x1001, 0x5000, false⟩ (by decide) (by decide)).2.1
     (Outcome.eq_done_of_result _ _ _ (by decide!)),
   ((swap_location_stable sb2e copy_nr_k').2.2 0 ⟨INVALID_PADDR, 0x5000, false⟩
     (by decide) (by decide)).2.2.2 (.ok 1)
     (Outcome.eq_done_of_result _ _ _ (by decide!))⟩

/-- With the allocator of the source, the functions with the allocator as a
parameter are the functions of lpage.c. -/
theorem lpage_zerofill_with_allocuser :
    lpage_materialize_with coremap_allocuser = lpage_materialize ∧
    lpage_zerofill_with coremap_allocuser = lpage_zerofill := ⟨rfl, rfl⟩

/-- With a frame in its supply the allocator evicts nothing. -/
theorem coremap_allocuser_evicting_supply (victim : Option Nat) (lp : Nat) (k : Kernel)
    (h : k.cm_free ≠ []) : coremap_allocuser_evicting victim lp k = coremap_allocuser lp k := by
  unfold coremap_allocuser_evicting
  cases hcm : k.cm_free with
  | nil => exact absurd hcm h
  | cons pa rest => rfl

/-- A returning allocation with an empty supply: either the allocator
reports exhaustion, or it has evicted its victim, a resident page whose
frame was not pinned, and hands out that frame, pinned; then the victim is
non-resident, exactly one eviction counter has grown by one and the other
counters are as they were. -/
theorem coremap_allocuser_evicting_inv (k k' : Kernel) (victim : Option Nat) (lp pa : Nat)
    (hcm : k.cm_free = [])
    (h : coremap_allocuser_evicting victim lp k = .done pa k') :
    pa = INVALID_PADDR ∨
    (∃ v pg, victim = some v ∧ heap_get k.lpages v = some pg ∧
      pa = frame_of pg.lp_paddr ∧ pa ≠ INVALID_PADDR ∧ pa ∉ k.cm_pinned ∧
      k'.lpages = heap_set k.lpages v (some { pg with lp_paddr := INVALID_PADDR }) ∧
      k'.cm_pinned = pa :: k.cm_pinned ∧ k'.stats_spinlock = k.stats_spinlock ∧
      k'.ct_zerofills = k.ct_zerofills ∧ k'.ct_minfaults = k.ct_minfaults ∧
      k'.ct_majfaults = k.ct_majfaults ∧
      ((k'.ct_discard_evictions = incr32 k.ct_discard_evictions ∧
          k'.ct_write_evictions = k.ct_write_evictions) ∨
       (k'.ct_write_evictions = incr32 k.ct_write_evictions ∧
          k'.ct_discard_evictions = k.ct_discard_evictions))) := by
  unfold coremap_allocuser_evicting at h
  rw [hcm] at h
  cases victim with
  | none =>
    left
    simp [hcm] at h
    exact h.1.symm
  | some v =>
    cases hv : heap_get k.lpages v with
    | none =>
      left
      simp [hv, hcm] at h
      exact h.1.symm
    | some pg =>
      by_cases hok : frame_of pg.lp_paddr ≠ INVALID_PADDR ∧ frame_of pg.lp_paddr ∉ k.cm_pinned
      swap
      · left
        simp only [hv, hok, if_false] at h
        simp [hcm] at h
        exact h.1.symm
      · right
        simp only [hv] at h
        rw [if_pos hok] at h
        cases hgl : k.global_paging_lock with
        | true => simp [hgl] at h
        | false =>
          simp only [bind_apply, paging_lock_acquire, hgl, Bool.false_eq_true, if_false,
            andThen_done, modK] at h
          obtain ⟨_, kc, hev, h⟩ := andThen_done_inv h
          obtain ⟨pg2, hpg2, -, -, -, hst, hcases⟩ := lpage_evict_inv _ kc v hev
          have hpgeq : pg2 = pg := by
            simp only [hv] at hpg2
            exact (Option.some.inj hpg2).symm
          subst hpgeq
          have hlt := heap_get_lt hv
          rcases hcases with ⟨-, -, -, -, c, -, hkc⟩ | ⟨-, hkc⟩
          · subst hkc
            simp [hcm] at h
            obtain ⟨hpa, hk'⟩ := h
            subst hk'
            refine ⟨v, pg2, rfl, hv, hpa.symm, by rw [← hpa]; exact hok.1,
              by rw [← hpa]; exact hok.2, rfl, by simp [hpa], hst.symm ▸ rfl, rfl, rfl, rfl,
              Or.inr ⟨rfl, rfl⟩⟩
          · subst hkc
            simp [hcm] at h
            obtain ⟨hpa, hk'⟩ := h
            subst hk'
            refine ⟨v, pg2, rfl, hv, hpa.symm, by rw [← hpa]; exact hok.1,
              by rw [← hpa]; exact hok.2, rfl, by simp [hpa], hst.symm ▸ rfl, rfl, rfl, rfl,
              Or.inl ⟨rfl, rfl⟩⟩

/-- A returning `lpage_materialize` that hands out a page, with an allocator
that may evict: the page is new, locked, resident and dirty in a frame that
was not pinned and now is; the zero-fill and fault counters are as they
were; the eviction counters are as they were when the allocator had a frame
in its supply, and exactly one of them has grown by one when it had none. -/
theorem lpage_materialize_evicting_inv (k km : Kernel) (victim : Option Nat) (lp pa : Nat)
    (hal : cm_frames_aligned k) (hfu : cm_free_unpinned k)
    (h : lpage_materialize_with (coremap_allocuser_evicting victim) k = .done (.ok (lp, pa)) km) :
    lp = k.lpages.length ∧ pa ≠ INVALID_PADDR ∧ frame_of pa = pa ∧ pa ∉ k.cm_pinned ∧
    (∃ swa, heap_get km.lpages lp = some ⟨pa ||| LPF_DIRTY, swa, true⟩) ∧
    km.cm_pinned = pa :: k.cm_pinned ∧ km.stats_spinlock = k.stats_spinlock ∧
    km.ct_zerofills = k.ct_zerofills ∧ km.ct_minfaults = k.ct_minfaults ∧
    km.ct_majfaults = k.ct_majfaults ∧
    ((k.cm_free ≠ [] ∧ km.ct_discard_evictions = k.ct_discard_evictions ∧
        km.ct_write_evictions = k.ct_write_evictions) ∨
     (k.cm_free = [] ∧ km.ct_discard_evictions = incr32 k.ct_discard_evictions ∧
        km.ct_write_evictions = k.ct_write_evictions) ∨
     (k.cm_free = [] ∧ km.ct_write_evictions = incr32 k.ct_write_evictions ∧
        km.ct_discard_evictions = k.ct_discard_evictions)) := by
  cases hcm : k.cm_free with
  | cons pa1 crest =>
    have hm : lpage_materialize k = .done (.ok (lp, pa)) km := by
      rw [← h]
      unfold lpage_materialize lpage_materialize_with
      by_cases hheap : k.kheap_avail = 0
      · simp [hheap]
      cases hsw : k.sw_free with
      | nil => simp [hheap, hsw]
      | cons swa srest =>
        by_cases hswa : swa = INVALID_SWAPADDR
        · simp [hheap, hsw, hswa]
        · simp [hheap, hsw, hswa, hcm, coremap_allocuser_evicting]
    obtain ⟨hlp, -, hpa, hpin, swa, srest, crest', -, -, hcm', l1, l2, l3, b1, b2, b3, hkm⟩ :=
      lpage_materialize_ok_inv k km lp pa hm
    have hmem : pa ∈ k.cm_free := by rw [hcm']; simp
    have hfa : frame_of pa = pa := hal pa hmem
    have hnp : pa ∉ k.cm_pinned := hfu pa hmem
    subst hkm
    refine ⟨hlp, hpa, hfa, hnp, ⟨swa, ?_⟩, rfl, rfl, rfl, rfl, rfl, Or.inl ⟨by simp, rfl, rfl⟩⟩
    subst hlp
    simp
  | nil =>
    unfold lpage_materialize_with at h
    by_cases hheap : k.kheap_avail = 0
    · simp [hheap] at h
    cases hsw : k.sw_free with
    | nil =>
      simp [hheap, hsw, lpage_destroy, lpage_lock_and_pin, lpage_lock_and_pin_loop,
        LOCK_AND_PIN_PASSES, frame_of_zero] at h
    | cons swa srest =>
      by_cases hswa : swa = INVALID_SWAPADDR
      · simp [hheap, hsw, hswa, lpage_destroy, lpage_lock_and_pin, lpage_lock_and_pin_loop,
          LOCK_AND_PIN_PASSES, frame_of_zero] at h
      simp [hheap, hsw, hswa] at h
      obtain ⟨pa1, kb, halloc, h⟩ := andThen_done_inv h
      have hinv0 := (fun hc => coremap_allocuser_evicting_inv _ kb victim _ pa1 hc halloc) hcm
      rcases hinv0 with
        hinv | ⟨v, pg, -, hv, hpa1, hne, hnp, hlp, hpin, hst, hz, hmi, hma, hct⟩
      · simp only [hinv, if_true, bind_apply] at h
        obtain ⟨_, _, _, h⟩ := andThen_done_inv h
        simp at h
      · have hvne : v ≠ k.lpages.length := by
          intro hc
          subst hc
          simp at hv
          rw [← hv] at hpa1
          simp [frame_of_zero] at hpa1
          exact hne hpa1
        have hfa : frame_of pa1 = pa1 := by rw [hpa1, frame_of_frame_of]
        have hget : heap_get kb.lpages k.lpages.length =
            some ⟨INVALID_PADDR, swa, false⟩ := by
          rw [hlp, heap_get_set_ne _ _ _ _ hvne]
          simp
        have hlen : k.lpages.length < kb.lpages.length := by
          rw [hlp]
          simp
        simp [hne, hget, hlen, hpin, hfa] at h
        obtain ⟨⟨hlp1, hpa⟩, hkm⟩ := h
        subst hpa
        subst hkm
        simp at hnp hst hz hmi hma hct
        refine ⟨hlp1.symm, hne, hfa, hnp, ⟨swa, ?_⟩, by simp [hpin], hst, hz, hmi, hma, ?_⟩
        · subst hlp1
          simp [hlen]
        · rcases hct with ⟨h1, h2⟩ | ⟨h1, h2⟩
          · exact Or.inr (Or.inl ⟨rfl, h1, h2⟩)
          · exact Or.inr (Or.inr ⟨rfl, h1, h2⟩)

/-- Without a victim the allocator that may evict is `coremap_allocuser`. -/
theorem coremap_allocuser_evicting_none (lp : Nat) :
    coremap_allocuser_evicting none lp = coremap_allocuser lp := by
  funext k
  unfold coremap_allocuser_evicting
  cases k.cm_free <;> rfl

/-- C15 (amended). Zero-fill correctness, with a frame allocator that may
evict its victim inside the allocation (supply page-aligned and unpinned):
after a successful `lpage_zerofill` the page is unlocked and resident, its
frame is not pinned and holds zero bytes, the zero-fill counter has been
incremented once as a `uint32_t` (plain +1 when it does not wrap) and the
fault counters have not changed; the eviction counters have not changed
when the allocator had a frame in its supply, and exactly one of them has
been incremented once when it had none and evicted; a successful
`lpage_fault` right after it makes no swap read, maps that frame, and the
frame still holds zero bytes. -/
theorem zerofill_correct (k k1 : Kernel) (victim : Option Nat) (lp : Nat)
    (hal : cm_frames_aligned k) (hfu : cm_free_unpinned k)
    (h : lpage_zerofill_with (coremap_allocuser_evicting victim) k = .done (.ok lp) k1) :
    ∃ pg, heap_get k1.lpages lp = some pg ∧ pg.lp_spinlock = false ∧
      resident pg = true ∧ frame_of pg.lp_paddr ∉ k1.cm_pinned ∧
      k1.ram (frame_of pg.lp_paddr) = zero_page ∧
      k1.ct_zerofills = incr32 k.ct_zerofills ∧
      (k.ct_zerofills + 1 < UINT32_MOD → k1.ct_zerofills = k.ct_zerofills + 1) ∧
      k1.ct_minfaults = k.ct_minfaults ∧ k1.ct_majfaults = k.ct_majfaults ∧
      ((k.cm_free ≠ [] ∧ k1.ct_discard_evictions = k.ct_discard_evictions ∧
          k1.ct_write_evictions = k.ct_write_evictions) ∨
       (k.cm_free = [] ∧ k1.ct_discard_evictions = incr32 k.ct_discard_evictions ∧
          k1.ct_write_evictions = k.ct_write_evictions) ∨
       (k.cm_free = [] ∧ k1.ct_write_evictions = incr32 k.ct_write_evictions ∧
          k1.ct_discard_evictions = k.ct_discard_evictions)) ∧
      ∀ (as va : Nat) (ft : Int) (k2 : Kernel),
        lpage_fault lp as ft va k1 = .done (.ok ()) k2 →
        ∃ pa w, k2.trace.map Call.ev = k1.trace.map Call.ev ++
            [.coremap_pin (frame_of pg.lp_paddr), .mmu_map as va pa w] ∧
          frame_of pa = frame_of pg.lp_paddr ∧
          k2.ram (frame_of pa) = zero_page := by
  unfold lpage_zerofill_with at h
  simp only [bind_apply] at h
  obtain ⟨a, km, h1, h2⟩ := andThen_done_inv h
  cases a with
  | error e => simp at h2
  | ok p =>
    obtain ⟨lp1, pa⟩ := p
    obtain ⟨-, hpa, hfa, hnp, ⟨swa, hgetm⟩, hpin, hst, hz, hmi, hma, hct⟩ :=
      lpage_materialize_evicting_inv k km victim lp1 pa hal hfu h1
    have hlt := heap_get_lt hgetm
    cases hss : km.stats_spinlock with
    | true => simp [hgetm, hpin, hfa, hss] at h2
    | false =>
      simp [hgetm, hpin, hfa, hss] at h2
      obtain ⟨hlp, hk1⟩ := h2
      subst hlp
      have hget : heap_get k1.lpages lp1 = some ⟨pa ||| LPF_DIRTY, swa, false⟩ := by
        subst hk1; simp [hlt]
      refine ⟨⟨pa ||| LPF_DIRTY, swa, false⟩, hget, rfl, resident_or_dirty pa hfa hpa swa false,
        ?_, ?_, ?_, ?_, ?_, ?_, ?_, ?_⟩
      · subst hk1; simpa [frame_of_or_dirty, hfa] using hnp
      · subst hk1; simp [frame_of_or_dirty, hfa]
      · subst hk1; simp [hz]
      · intro hno
        subst hk1
        simp [hz, incr32, Nat.mod_eq_of_lt hno]
      · subst hk1; simpa using hmi
      · subst hk1; simpa using hma
      · subst hk1; simpa using hct
      · intro as va ft k2 hf
        have hres : frame_of (⟨pa ||| LPF_DIRTY, swa, false⟩ : Lpage).lp_paddr ≠ INVALID_PADDR := by
          simpa [frame_of_or_dirty, hfa] using hpa
        obtain ⟨-, -, -, -, -, -, m1, m2, hk2⟩ :=
          lpage_fault_minor_inv k1 k2 lp1 as va ft (.ok ()) _ hget hres hf
        have hfr : frame_of (if ft ≠ VM_FAULT_READ then (pa ||| LPF_DIRTY) ||| LPF_DIRTY
            else pa ||| LPF_DIRTY) = pa := by
          by_cases hft : ft = VM_FAULT_READ
          · simp [hft, frame_of_or_dirty, hfa]
          · simp [hft, frame_of_or_dirty, hfa]
        refine ⟨if ft ≠ VM_FAULT_READ then (pa ||| LPF_DIRTY) ||| LPF_DIRTY else pa ||| LPF_DIRTY,
          decide (ft ≠ VM_FAULT_READ), ?_, ?_, ?_⟩
        · rw [hk2]; simp
        · rw [hfr]; simp [frame_of_or_dirty, hfa]
        · rw [hfr, hk2]
          subst hk1
          simp

/-- Witness of `zerofill_correct`: a zero-fill under memory pressure, where
the allocator evicts the dirty page 0 and hands out its frame 0x1000, and
the read fault on the new page right after it. -/
theorem zerofill_correct_witness :
    ∃ pg, heap_get pressure_k1.lpages 1 = some pg ∧ pg.lp_spinlock = false ∧
      resident pg = true ∧ frame_of pg.lp_paddr ∉ pressure_k1.cm_pinned ∧
      pressure_k1.ram (frame_of pg.lp_paddr) = zero_page ∧
      pressure_k1.ct_zerofills = incr32 pressure_k.ct_zerofills ∧
      pressure_k1.ct_minfaults = pressure_k.ct_minfaults ∧
      pressure_k1.ct_majfaults = pressure_k.ct_majfaults ∧
      ∃ pa w, pressure_k2.trace.map Call.ev = pressure_k1.trace.map Call.ev ++
          [.coremap_pin (frame_of pg.lp_paddr), .mmu_map 1 0x400000 pa w] ∧
        frame_of pa = frame_of pg.lp_paddr ∧
        pressure_k2.ram (frame_of pa) = zero_page := by
  obtain ⟨pg, h1, h2, h3, h4, h5, h6, -, h8, h9, -, hf⟩ :=
    zerofill_correct pressure_k pressure_k1 (some 0) 1 (by decide) (by decide)
      (Outcome.eq_done_of_result _ _ _ (by decide!))
  exact ⟨pg, h1, h2, h3, h4, h5, h6, h8, h9,
    hf 1 0x400000 VM_FAULT_READ pressure_k2 (Outcome.eq_done_of_result _ _ _ (by decide!))⟩

/-- C15, the claim as stated fails: in the zero-fill under memory pressure
the allocation evicts the dirty page 0, so that the successful call has
incremented the write-back counter as well as the zero-fill counter. -/
theorem zerofill_correct_claim_fails :
    cm_frames_aligned pressure_k ∧ cm_free_unpinned pressure_k ∧
    lpage_zerofill_with (coremap_allocuser_evicting (some 0)) pressure_k =
      .done (.ok 1) pressure_k1 ∧
    pressure_k.ct_zerofills = 1 ∧ pressure_k1.ct_zerofills = 2 ∧
    pressure_k.ct_write_evictions = 0 ∧ pressure_k1.ct_write_evictions = 1 ∧
    pressure_k1.ct_write_evictions ≠ pressure_k.ct_write_evictions :=
  ⟨by decide, by decide, Outcome.eq_done_of_result _ _ _ (by decide!), by decide!, by decide!,
   by decide!, by decide!, by decide!⟩

/-- Counting `n` increments of a 32-bit counter: the result is the start plus
`n`, modulo 2^32. -/
theorem incr32_mod (c n m : Nat) (h : m % UINT32_MOD = (c + n) % UINT32_MOD) :
    incr32 m % UINT32_MOD = (c + (n + 1)) % UINT32_MOD := by
  unfold incr32
  rw [Nat.mod_mod, Nat.add_mod, h, ← Nat.add_mod, Nat.add_assoc]

/-- C16. No double counting: along every run of `n` successful `lpage_fault`
calls (of any fault types) on a page that is resident before the first call
and is left alone between the calls (so not evicted), the minor-fault counter
ends at its start value plus `n` modulo 2^32, the major-fault counter and the
two eviction counters end unchanged, and the page is resident in the frame it
had at the start. Every prefix of such a run is such a run, so this holds
after every call. -/
theorem no_double_counting (lp n : Nat) (k k' : Kernel) (pg : Lpage)
    (hpg : heap_get k.lpages lp = some pg) (hres : resident pg = true)
    (hrun : resident_faults lp n k k') :
    k'.ct_minfaults % UINT32_MOD = (k.ct_minfaults + n) % UINT32_MOD ∧
    k'.ct_majfaults = k.ct_majfaults ∧
    k'.ct_discard_evictions = k.ct_discard_evictions ∧
    k'.ct_write_evictions = k.ct_write_evictions ∧
    ∃ pg', heap_get k'.lpages lp = some pg' ∧
      frame_of pg'.lp_paddr = frame_of pg.lp_paddr ∧ resident pg' = true := by
  induction hrun with
  | start k0 => exact ⟨rfl, rfl, rfl, rfl, pg, hpg, rfl, hres⟩
  | next as va ft hprev hun hf ih =>
    rename_i m k0 k1 k1e k2
    obtain ⟨hmin, hmaj, hdis, hwr, pg1, hpg1, hfr1, hres1⟩ := ih hpg
    obtain ⟨-, umin, umaj, udis, uwr, uget, -⟩ := hun
    have hpg1e : heap_get k1e.lpages lp = some pg1 := by rw [uget, hpg1]
    have hr1 : frame_of pg1.lp_paddr ≠ INVALID_PADDR := by
      simpa [resident] using hres1
    obtain ⟨-, -, -, -, -, -, l1, l2, hk2⟩ :=
      lpage_fault_minor_inv k1e k2 lp as va ft (.ok ()) pg1 hpg1e hr1 hf
    have hlt := heap_get_lt hpg1e
    have hfr2 : frame_of (if ft ≠ VM_FAULT_READ then pg1.lp_paddr ||| LPF_DIRTY
        else pg1.lp_paddr) = frame_of pg1.lp_paddr := by
      by_cases hft : ft = VM_FAULT_READ
      · simp [hft]
      · simp [hft, frame_of_or_dirty]
    refine ⟨?_, ?_, ?_, ?_, ?_⟩
    · rw [hk2]
      apply incr32_mod
      rw [umin, hmin]
    · rw [hk2]; simp [umaj, hmaj]
    · rw [hk2]; simp [udis, hdis]
    · rw [hk2]; simp [uwr, hwr]
    · refine ⟨{ pg1 with lp_paddr := if ft ≠ VM_FAULT_READ then pg1.lp_paddr ||| LPF_DIRTY
          else pg1.lp_paddr }, ?_, ?_, ?_⟩
      · rw [hk2]
        exact heap_get_set_eq _ _ _ hlt
      · simp only [hfr2, hfr1]
      · simp only [resident, hfr2]
        simpa [resident] using hres1

/-- Witness of `no_double_counting`: a write fault and then a read fault on
the zero-filled page of scenario B. -/
theorem no_double_counting_witness :
    sa2b.ct_minfaults % UINT32_MOD = (sb1.ct_minfaults + 2) % UINT32_MOD ∧
    sa2b.ct_majfaults = sb1.ct_majfaults ∧
    sa2b.ct_discard_evictions = sb1.ct_discard_evictions ∧
    sa2b.ct_write_evictions = sb1.ct_write_evictions ∧
    ∃ pg', heap_get sa2b.lpages 0 = some pg' ∧
      frame_of pg'.lp_paddr = frame_of (⟨0x1001, 0x5000, false⟩ : Lpage).lp_paddr ∧
      resident pg' = true :=
  no_double_counting 0 2 sb1 sa2b ⟨0x1001, 0x5000, false⟩ (by decide) (by decide)
    (.next 1 0x400000 VM_FAULT_READ
      (.next 1 0x400000 VM_FAULT_WRITE (.start sb1) (page_untouched_refl 0 sb1)
        (show lpage_fault 0 1 VM_FAULT_WRITE 0x400000 sb1 = .done (.ok ()) sa2 from
          Outcome.eq_done_of_result _ _ _ (by decide!)))
      (page_untouched_refl 0 sa2)
      (Outcome.eq_done_of_result _ _ _ (by decide!)))

/-! ## Running code of pid.c: rewriting rules -/

@[simp] theorem pid_andThen_halt {α β : Type} (h : Halt) (f : α → PidState → PidOutcome β) :
    (PidOutcome.halt h : PidOutcome α).andThen f = .halt h := rfl

@[simp] theorem pid_andThen_done {α β : Type} (a : α) (k : PidState)
    (f : α → PidState → PidOutcome β) :
    (PidOutcome.done a k).andThen f = f a k := rfl

@[simp] theorem pid_bind_apply {α β : Type} (m : PidM α) (f : α → PidM β) (k : PidState) :
    (m >>= f) k = (m k).andThen f := rfl

@[simp] theorem pid_pure_apply {α : Type} (a : α) (k : PidState) :
    (pure a : PidM α) k = .done a k := rfl

@[simp] theorem pid_ite_apply {α : Type} (c : Prop) [Decidable c] (m1 m2 : PidM α)
    (k : PidState) :
    (if c then m1 else m2) k = if c then m1 k else m2 k := by
  split <;> rfl

theorem pid_andThen_done_inv {α β : Type} {o : PidOutcome α}
    {f : α → PidState → PidOutcome β} {b : β} {k' : PidState}
    (h : o.andThen f = .done b k') :
    ∃ a k1, o = .done a k1 ∧ f a k1 = .done b k' := by
  cases o with
  | halt e => simp at h
  | done a k1 => exact ⟨a, k1, rfl, by simpa using h⟩

/-- A run of pid.c that returns the value `a` is done with `a` in the state
it ends in. -/
theorem pid_eq_done_of_result {α : Type} (o : PidOutcome α) (a : α) (dflt : PidState)
    (h : o.result? = some a) : o = .done a (o.state dflt) := by
  cases o with
  | halt e => simp [PidOutcome.result?] at h
  | done b k =>
    simp [PidOutcome.result?] at h
    simp [PidOutcome.state, h]

attribute [simp] pid_stop pid_state pid_modify pid_KASSERT pidlock_acquire pidlock_release
  pidlock_do_i_hold cv_signal cv_wait pidinfo_read pidinfo_write pidinfo_deref pidinfo_create
  pidinfo_destroy

/-- The function `pi_get` with the lock held, on a pid that is present: the
slot of the pid. -/
theorem pi_get_present (C : PidConfig) (k : PidState) (pid : Nat) (e : Pidinfo)
    (hpm : 0 < C.PROCS_MAX) (hlock : k.pidlock = true) (hpid : pid ≠ INVALID_PID)
    (he : k.pidinfo (pid % C.PROCS_MAX) = some e) (hep : e.pi_pid = pid) :
    pi_get C pid k = .done (some (pid % C.PROCS_MAX)) k := by
  unfold pi_get
  simp [hpid, hlock, Nat.mod_lt _ hpm, he, hep]

/-! ## Bits of the pending signals -/

theorem shl32_eq (s : Int) (h0 : 0 ≤ s) (h31 : s ≤ 31) : shl32 s = 2 ^ s.toNat := by
  unfold shl32
  rw [Nat.one_shiftLeft]
  apply Nat.mod_eq_of_lt
  apply Nat.pow_lt_pow_right (by decide)
  omega

theorem testBit_set32 (x : Nat) (s : Int) (h0 : 0 ≤ s) (h31 : s ≤ 31) :
    ((x ||| shl32 s) % 2 ^ 32).testBit s.toNat = true := by
  rw [shl32_eq s h0 h31, Nat.testBit_mod_two_pow, Nat.testBit_or, Nat.testBit_two_pow_self]
  have : s.toNat < 32 := by omega
  simp [this]

theorem testBit_clear32_self (x : Nat) (s : Int) (h0 : 0 ≤ s) (h31 : s ≤ 31) :
    (x &&& not32 (shl32 s)).testBit s.toNat = false := by
  have hs : s.toNat < 32 := by omega
  have hlt : 2 ^ s.toNat < 2 ^ 32 := Nat.pow_lt_pow_right (by decide) hs
  rw [shl32_eq s h0 h31, Nat.testBit_and]
  unfold not32
  rw [Nat.testBit_xor, Nat.mod_eq_of_lt hlt, Nat.testBit_two_pow_self,
    Nat.testBit_two_pow_sub_one]
  simp [hs]

theorem testBit_clear32_other (x : Nat) (s : Int) (b : Nat) (h0 : 0 ≤ s) (h31 : s ≤ 31)
    (hb : b < 32) (hne : b ≠ s.toNat) :
    (x &&& not32 (shl32 s)).testBit b = x.testBit b := by
  have hs : s.toNat < 32 := by omega
  have hlt : 2 ^ s.toNat < 2 ^ 32 := Nat.pow_lt_pow_right (by decide) hs
  rw [shl32_eq s h0 h31, Nat.testBit_and]
  unfold not32
  rw [Nat.testBit_xor, Nat.mod_eq_of_lt hlt, Nat.testBit_two_pow,
    Nat.testBit_two_pow_sub_one]
  have hne2 : ¬ s.toNat = b := fun hc => hne hc.symm
  simp [hb, hne2]

/-! ## The loop of pi_detach_children -/

theorem table_wf_update (C : PidConfig) (k : PidState) (i : Nat) (x : Option Pidinfo)
    (hwf : table_wf C k) (hx : ∀ e, x = some e → e.pi_pid % C.PROCS_MAX = i)
    (k' : PidState) (hk : k'.pidinfo = Function.update k.pidinfo i x) : table_wf C k' := by
  intro j hj e he
  rw [hk] at he
  by_cases hji : j = i
  · subst hji
    simp at he
    exact hx e he
  · rw [Function.update_noteq hji] at he
    exact hwf j hj e he

/-- One pass of the loop of `pi_detach_children`, with the lock held, on a
table whose records sit in the slots of their pids: an index inside the
array gets `detach_slot`; an index outside, where the word after the table is
zero, is recorded as read out of bounds. -/
theorem pi_detach_child_spec (C : PidConfig) (k : PidState) (pid i : Nat)
    (hlock : k.pidlock = true) (hwf : table_wf C k)
    (hz : ¬ i < C.PROCS_MAX → k.after_table i = 0) :
    ∃ k', pi_detach_child C pid i k = .done () k' ∧ k'.pidlock = true ∧
      k'.pidinfo = (if i < C.PROCS_MAX then
        Function.update k.pidinfo i (detach_slot pid (k.pidinfo i)) else k.pidinfo) ∧
      k'.oob_reads = (if i < C.PROCS_MAX then k.oob_reads else k.oob_reads ++ [i]) ∧
      k'.after_table = k.after_table := by
  unfold pi_detach_child
  by_cases hi : i < C.PROCS_MAX
  swap
  · simp [hi, hlock, hz hi]
  cases hc : k.pidinfo i with
  | none =>
    refine ⟨k, ?_, hlock, ?_, ?_, rfl⟩
    · simp [hi, hc]
    · simp [hi, hc, detach_slot]
    · simp [hi]
  | some c =>
    have hslot := hwf i hi c hc
    by_cases hpp : c.pi_ppid = pid
    swap
    · refine ⟨k, ?_, hlock, ?_, ?_, rfl⟩
      · simp [hi, hc, hpp]
      · simp [hi, hc, hpp, detach_slot]
      · simp [hi]
    cases hex : c.pi_exited with
    | false =>
      simp [hi, hc, hpp, hex, detach_slot, hlock]
    | true =>
      simp [hi, hc, hpp, hex, detach_slot, hlock, pi_drop, hslot, INVALID_PID]

/-- One pass of the loop of `pi_detach_children` at an index outside the
array, where the word after the table is not zero: the run stops at
`child->pi_ppid`. -/
theorem pi_detach_child_wild (C : PidConfig) (k : PidState) (pid i : Nat)
    (hi : ¬ i < C.PROCS_MAX) (hw : k.after_table i ≠ 0) :
    pi_detach_child C pid i k = .halt .badptr := by
  unfold pi_detach_child
  simp [hi, hw]


theorem detach_slot_pid (pid : Nat) (x : Option Pidinfo) (e : Pidinfo)
    (h : detach_slot pid x = some e) : ∃ c, x = some c ∧ e.pi_pid = c.pi_pid := by
  unfold detach_slot at h
  cases x with
  | none => simp at h
  | some c =>
    refine ⟨c, rfl, ?_⟩
    by_cases hpp : c.pi_ppid = pid
    · cases hex : c.pi_exited with
      | true => simp [hpp, hex] at h
      | false =>
        simp [hpp, hex] at h
        rw [← h]
    · simp [hpp] at h
      rw [h]

/-- The loop of `pi_detach_children` over a list of distinct indices, with
the lock held, on a table whose records sit in the slots of their pids and
with zero words where the list leaves the array: it returns, every index of
the list inside the array gets `detach_slot`, every other slot is as it was,
and the indices outside the array are recorded. -/
theorem pi_detach_children_loop_spec (C : PidConfig) (pid : Nat) :
    ∀ (is : List Nat) (k : PidState), is.Nodup → k.pidlock = true → table_wf C k →
    (∀ i, i ∈ is → ¬ i < C.PROCS_MAX → k.after_table i = 0) →
    ∃ k', pi_detach_children_loop C pid is k = .done () k' ∧ k'.pidlock = true ∧
      table_wf C k' ∧
      (∀ j, k'.pidinfo j =
        if j ∈ is ∧ j < C.PROCS_MAX then detach_slot pid (k.pidinfo j) else k.pidinfo j) ∧
      k'.oob_reads = k.oob_reads ++ is.filter (fun i => ¬ i < C.PROCS_MAX) ∧
      k'.after_table = k.after_table := by
  intro is
  induction is with
  | nil =>
    intro k _ hlock hwf _
    exact ⟨k, rfl, hlock, hwf, by simp, by simp, rfl⟩
  | cons i rest ih =>
    intro k hnd hlock hwf hz
    obtain ⟨hni, hnd2⟩ := List.nodup_cons.mp hnd
    obtain ⟨k1, hrun1, hlock1, hpi1, hoob1, haft1⟩ := pi_detach_child_spec C k pid i hlock hwf
      (hz i (List.mem_cons_self i rest))
    have hwf1 : table_wf C k1 := by
      by_cases hi : i < C.PROCS_MAX
      · simp only [hi, if_true] at hpi1
        apply table_wf_update C k i _ hwf _ k1 hpi1
        intro e he
        obtain ⟨c, hc, hpid⟩ := detach_slot_pid pid _ e he
        rw [hpid]
        exact hwf i hi c hc
      · simp only [hi, if_false] at hpi1
        intro j hj e he
        rw [hpi1] at he
        exact hwf j hj e he
    obtain ⟨k', hrun, hlock', hwf', hpi', hoob', haft'⟩ := ih k1 hnd2 hlock1 hwf1
      (fun j hj hjo => by rw [haft1]; exact hz j (List.mem_cons_of_mem i hj) hjo)
    refine ⟨k', ?_, hlock', hwf', ?_, ?_, by rw [haft', haft1]⟩
    · rw [pi_detach_children_loop]
      simp only [pid_bind_apply, hrun1, pid_andThen_done]
      exact hrun
    · intro j
      rw [hpi' j, hpi1]
      by_cases hi : i < C.PROCS_MAX
      · by_cases hji : j = i
        · subst hji
          simp [hi, hni]
        · simp [hi, hji, Function.update_noteq hji]
      · by_cases hji : j = i
        · subst hji
          simp [hi]
        · simp [hi, hji]
    · rw [hoob', hoob1]
      by_cases hi : i < C.PROCS_MAX
      · simp [hi, List.filter_cons]
      · have hi2 : C.PROCS_MAX ≤ i := Nat.le_of_not_lt hi
        simp [hi, hi2, List.filter_cons]

/-- The loop of `pi_detach_children` over two lists, one after the other. -/
theorem pi_detach_children_loop_append (C : PidConfig) (pid : Nat) (ys : List Nat) :
    ∀ (xs : List Nat) (k : PidState),
    pi_detach_children_loop C pid (xs ++ ys) k =
      (pi_detach_children_loop C pid xs k).andThen
        (fun _ k1 => pi_detach_children_loop C pid ys k1) := by
  intro xs
  induction xs with
  | nil => intro k; rfl
  | cons i rest ih =>
    intro k
    rw [List.cons_append, pi_detach_children_loop, pi_detach_children_loop]
    simp only [pid_bind_apply]
    cases pi_detach_child C pid i k with
    | halt h => rfl
    | done a k1 =>
      simp only [pid_andThen_done]
      exact ih k1

/-- The loop of `pi_detach_children` over the indices 1 to PROCS_MAX, with
the lock held, on a table whose records sit in the slots of their pids, when
the word after the table is not zero: the passes inside the array return,
and the last pass stops the run at `child->pi_ppid`. -/
theorem pi_detach_children_loop_wild (C : PidConfig) (pid : Nat) (k : PidState)
    (hpm : 0 < C.PROCS_MAX) (hlock : k.pidlock = true) (hwf : table_wf C k)
    (hw : k.after_table C.PROCS_MAX ≠ 0) :
    pi_detach_children_loop C pid (List.range' 1 C.PROCS_MAX) k = .halt .badptr := by
  have hsplit : List.range' 1 C.PROCS_MAX =
      List.range' 1 (C.PROCS_MAX - 1) ++ [C.PROCS_MAX] := by
    have h1 : C.PROCS_MAX = (C.PROCS_MAX - 1) + 1 := by omega
    conv_lhs => rw [h1]
    rw [List.range'_concat]
    congr 2
    omega
  obtain ⟨k1, hrun, -, -, -, -, haft⟩ :=
    pi_detach_children_loop_spec C pid (List.range' 1 (C.PROCS_MAX - 1)) k
      (List.nodup_range' 1 (C.PROCS_MAX - 1)) hlock hwf
      (fun i hi hio => by
        rw [List.mem_range'_1] at hi
        omega)
  rw [hsplit, pi_detach_children_loop_append, hrun]
  simp only [pid_andThen_done, pi_detach_children_loop, pid_bind_apply]
  rw [pi_detach_child_wild C k1 pid C.PROCS_MAX (Nat.lt_irrefl _) (by rw [haft]; exact hw)]
  rfl

/-- What `pid_exit` does when the exiting thread has a parent and the word
after the table is zero: it returns with the lock free; its record holds the
status and is marked exited; of the other slots, those from 1 to PROCS_MAX-1
got `detach_slot`, the others are as they were; and the array has been read
at the index PROCS_MAX. -/
theorem pid_exit_spec (C : PidConfig) (k : PidState) (t : Nat) (s : Int) (m : Pidinfo)
    (hpm : 0 < C.PROCS_MAX) (hlock : k.pidlock = false) (hwf : table_wf C k)
    (ht : t ≠ INVALID_PID) (hm : k.pidinfo (t % C.PROCS_MAX) = some m) (hmp : m.pi_pid = t)
    (hex : m.pi_exited = false) (hself : m.pi_ppid ≠ t) (hpar : m.pi_ppid ≠ INVALID_PID)
    (hz : k.after_table C.PROCS_MAX = 0) :
    ∃ k', pid_exit C t s k = .done () k' ∧ k'.pidlock = false ∧ table_wf C k' ∧
      (∀ j, k'.pidinfo j =
        if j = t % C.PROCS_MAX then some { m with pi_exitstatus := s, pi_exited := true }
        else if 1 ≤ j ∧ j < C.PROCS_MAX then detach_slot t (k.pidinfo j)
        else k.pidinfo j) ∧
      C.PROCS_MAX ∈ k'.oob_reads := by
  have hslot : t % C.PROCS_MAX < C.PROCS_MAX := Nat.mod_lt _ hpm
  obtain ⟨m', hm'⟩ : ∃ m' : Pidinfo, m' = { m with pi_exitstatus := s, pi_exited := true } :=
    ⟨_, rfl⟩
  obtain ⟨ka, hka⟩ : ∃ ka : PidState, ka = { k with
      pidlock := true,
      pidinfo := (Function.update k.pidinfo (t % C.PROCS_MAX) (some m')) } := ⟨_, rfl⟩
  have hwfa : table_wf C ka := by
    apply table_wf_update C k (t % C.PROCS_MAX) (some m') hwf _ ka (by rw [hka])
    intro e he
    cases he
    rw [hm']
    simp [hmp]
  have hlocka : ka.pidlock = true := by rw [hka]
  obtain ⟨k1, hrun, hlock1, hwf1, hpi1, hoob1, -⟩ :=
    pi_detach_children_loop_spec C t (List.range' 1 C.PROCS_MAX) ka
      (List.nodup_range' 1 C.PROCS_MAX) hlocka hwfa
      (fun i hi hio => by
        rw [List.mem_range'_1] at hi
        have hie : i = C.PROCS_MAX := by omega
        rw [hie, hka]
        exact hz)
  have hme1 : k1.pidinfo (t % C.PROCS_MAX) = some m' := by
    rw [hpi1, hka]
    simp [detach_slot, hm', hself]
  refine ⟨{ k1 with pidlock := false }, ?_, rfl, ?_, ?_, ?_⟩
  · unfold pid_exit
    simp only [pid_bind_apply, pidlock_acquire, hlock, Bool.false_eq_true, if_false,
      pid_andThen_done]
    rw [pi_get_present C { k with pidlock := true } t m hpm rfl ht hm hmp]
    simp only [pid_andThen_done, pid_bind_apply, pidinfo_deref, hm, pid_KASSERT, hex,
      beq_self_eq_true, if_true, pidinfo_write, pid_modify, Function.update_same,
      pi_detach_children, pidlock_do_i_hold]
    rw [← hm', ← hka]
    have hne : (t != INVALID_PID) = true := by simp [ht]
    have hpar' : ¬ m'.pi_ppid = INVALID_PID := by rw [hm']; exact hpar
    simp only [hne, if_true, pid_andThen_done, pid_bind_apply, pidlock_do_i_hold, hlocka,
      pid_KASSERT, hmp, hrun, pidinfo_deref, hme1, pid_ite_apply, hpar', if_false, cv_signal,
      pid_pure_apply, pidlock_release, hlock1]
  · intro j hj e he
    exact hwf1 j hj e he
  · intro j
    show k1.pidinfo j = _
    rw [hpi1 j, hka]
    by_cases hjs : j = t % C.PROCS_MAX
    · subst hjs
      simp [detach_slot, hm', hself]
    · simp only [hjs, if_false, Function.update_noteq hjs, List.mem_range'_1]
      by_cases hj1 : 1 ≤ j
      · by_cases hj2 : j < C.PROCS_MAX
        · have hj3 : j < 1 + C.PROCS_MAX := by omega
          simp [hj1, hj2, hj3]
        · simp [hj2]
      · simp [hj1]
  · show C.PROCS_MAX ∈ k1.oob_reads
    rw [hoob1]
    apply List.mem_append_right
    rw [List.mem_filter]
    refine ⟨?_, by simp⟩
    rw [List.mem_range'_1]
    omega


/-- What `pid_exit` does when the word after the table is not zero: it sets
the exit status, enters `pi_detach_children`, and never returns: the last
pass of the loop takes that word for a pointer. -/
theorem pid_exit_wild (C : PidConfig) (k : PidState) (t : Nat) (s : Int) (m : Pidinfo)
    (hpm : 0 < C.PROCS_MAX) (hlock : k.pidlock = false) (hwf : table_wf C k)
    (ht : t ≠ INVALID_PID) (hm : k.pidinfo (t % C.PROCS_MAX) = some m) (hmp : m.pi_pid = t)
    (hex : m.pi_exited = false)
    (hw : k.after_table C.PROCS_MAX ≠ 0) :
    pid_exit C t s k = .halt .badptr := by
  obtain ⟨m', hm'⟩ : ∃ m' : Pidinfo, m' = { m with pi_exitstatus := s, pi_exited := true } :=
    ⟨_, rfl⟩
  obtain ⟨ka, hka⟩ : ∃ ka : PidState, ka = { k with
      pidlock := true,
      pidinfo := (Function.update k.pidinfo (t % C.PROCS_MAX) (some m')) } := ⟨_, rfl⟩
  have hwfa : table_wf C ka := by
    apply table_wf_update C k (t % C.PROCS_MAX) (some m') hwf _ ka (by rw [hka])
    intro e he
    cases he
    rw [hm']
    simp [hmp]
  have hlocka : ka.pidlock = true := by rw [hka]
  have hrun := pi_detach_children_loop_wild C t ka hpm hlocka hwfa (by rw [hka]; exact hw)
  unfold pid_exit
  simp only [pid_bind_apply, pidlock_acquire, hlock, Bool.false_eq_true, if_false,
    pid_andThen_done]
  rw [pi_get_present C { k with pidlock := true } t m hpm rfl ht hm hmp]
  simp only [pid_andThen_done, pid_bind_apply, pidinfo_deref, hm, pid_KASSERT, hex,
    beq_self_eq_true, if_true, pidinfo_write, pid_modify, Function.update_same,
    pi_detach_children, pidlock_do_i_hold]
  rw [← hm', ← hka]
  have hne : (t != INVALID_PID) = true := by simp [ht]
  simp only [hne, if_true, pid_andThen_done, pid_bind_apply, pidlock_do_i_hold, hlocka,
    pid_KASSERT, hmp, hrun, pid_andThen_halt]

/-- What `pid_join` does for a child of the caller that has exited: it
returns 0 and stores the exit status of the child. -/
theorem pid_join_exited (C : PidConfig) (k : PidState) (p c : Nat) (options : Int)
    (mp mc : Pidinfo)
    (hpm : 0 < C.PROCS_MAX) (hlock : k.pidlock = false)
    (hp : p ≠ INVALID_PID) (hc : c ≠ INVALID_PID) (hcp : c ≠ p)
    (hmp : k.pidinfo (p % C.PROCS_MAX) = some mp) (hmpp : mp.pi_pid = p)
    (hmpe : mp.pi_exited = false)
    (hmc : k.pidinfo (c % C.PROCS_MAX) = some mc) (hmcp : mc.pi_pid = c)
    (hpar : mc.pi_ppid = p) (hex : mc.pi_exited = true)
    (hopt : options = 0 ∨ options = C.WNOHANG) :
    pid_join C p c options k = .done (.ok mc.pi_exitstatus) k := by
  have hopt' : ¬ (options ≠ 0 ∧ options ≠ C.WNOHANG) := by
    rcases hopt with h | h
    · simp [h]
    · simp [h]
  have hpar' : ¬ (mc.pi_ppid ≠ mp.pi_pid ∨ mc.pi_ppid = INVALID_PID) := by
    rw [hpar, hmpp]
    simp [hp]
  unfold pid_join
  simp only [pid_ite_apply, hopt', hcp, if_false, pid_bind_apply, pidlock_acquire, hlock,
    Bool.false_eq_true, pid_andThen_done]
  rw [pi_get_present C { k with pidlock := true } p mp hpm rfl hp hmp hmpp]
  simp only [pid_andThen_done, pid_bind_apply, pidinfo_deref, hmp, pid_KASSERT, hmpe,
    beq_self_eq_true, if_true]
  rw [pi_get_present C { k with pidlock := true } c mc hpm rfl hc hmc hmcp]
  simp only [pid_andThen_done, pid_bind_apply, pidinfo_deref, hmc, pid_ite_apply, hpar',
    if_false, hex, Bool.true_eq_false, and_false, pid_pure_apply, pidlock_release, if_true]
  cases k
  simp at hlock
  simp [hlock]

/-- What `pid_join` with WNOHANG does for a child of the caller that has not
exited: it returns 0 and stores 0. -/
theorem pid_join_nohang (C : PidConfig) (k : PidState) (p c : Nat)
    (mp mc : Pidinfo)
    (hpm : 0 < C.PROCS_MAX) (hlock : k.pidlock = false)
    (hp : p ≠ INVALID_PID) (hc : c ≠ INVALID_PID) (hcp : c ≠ p)
    (hmp : k.pidinfo (p % C.PROCS_MAX) = some mp) (hmpp : mp.pi_pid = p)
    (hmpe : mp.pi_exited = false)
    (hmc : k.pidinfo (c % C.PROCS_MAX) = some mc) (hmcp : mc.pi_pid = c)
    (hpar : mc.pi_ppid = p) (hex : mc.pi_exited = false) :
    pid_join C p c C.WNOHANG k = .done (.ok 0) k := by
  have hpar' : ¬ (mc.pi_ppid ≠ mp.pi_pid ∨ mc.pi_ppid = INVALID_PID) := by
    rw [hpar, hmpp]
    simp [hp]
  unfold pid_join
  simp only [pid_ite_apply, ne_eq, not_true_eq_false, and_false, hcp, if_false, pid_bind_apply,
    pidlock_acquire, hlock, Bool.false_eq_true, pid_andThen_done]
  rw [pi_get_present C { k with pidlock := true } p mp hpm rfl hp hmp hmpp]
  simp only [pid_andThen_done, pid_bind_apply, pidinfo_deref, hmp, pid_KASSERT, hmpe,
    beq_self_eq_true, if_true]
  rw [pi_get_present C { k with pidlock := true } c mc hpm rfl hc hmc hmcp]
  simp only [pid_andThen_done, pid_bind_apply, pidinfo_deref, hmc, pid_ite_apply, hpar',
    if_false, hex, and_true, pid_pure_apply, pidlock_release, if_true, false_and, true_and,
    and_self]
  cases k
  simp at hlock
  simp [hlock]

/-! ## The scan of pid_alloc -/

theorem inc_nextpid_spec (C : PidConfig) (k : PidState) (hlock : k.pidlock = true) :
    inc_nextpid C k = .done () { k with nextpid := next_pid C k.nextpid } := by
  unfold inc_nextpid next_pid
  by_cases h : k.nextpid + 1 > C.PID_MAX
  · simp [hlock, h]
  · simp [hlock, h]

theorem next_pid_range (C : PidConfig) (p : Nat) (hmin : C.PID_MIN ≤ C.PID_MAX)
    (h : C.PID_MIN ≤ p ∧ p ≤ C.PID_MAX) :
    C.PID_MIN ≤ next_pid C p ∧ next_pid C p ≤ C.PID_MAX := by
  unfold next_pid
  by_cases hw : p + 1 > C.PID_MAX
  · simp [hw, hmin]
  · simp [hw]
    omega

theorem next_pid_iterate_range (C : PidConfig) (hmin : C.PID_MIN ≤ C.PID_MAX) :
    ∀ (n p : Nat), C.PID_MIN ≤ p ∧ p ≤ C.PID_MAX →
    C.PID_MIN ≤ (next_pid C)^[n] p ∧ (next_pid C)^[n] p ≤ C.PID_MAX := by
  intro n
  induction n with
  | zero => intro p h; exact h
  | succ n ih =>
    intro p h
    rw [Function.iterate_succ_apply]
    exact ih _ (next_pid_range C p hmin h)

theorem next_pid_iterate_linear (C : PidConfig) :
    ∀ (j p : Nat), p + j ≤ C.PID_MAX → (next_pid C)^[j] p = p + j := by
  intro j
  induction j with
  | zero => intro p _; rfl
  | succ j ih =>
    intro p h
    rw [Function.iterate_succ_apply', ih p (by omega)]
    unfold next_pid
    have : ¬ p + j + 1 > C.PID_MAX := by omega
    simp [this]
    omega

theorem residue_reached (m p e : Nat) (he : e < m) :
    ∃ j, j < m ∧ (p + j) % m = e := by
  have hm : 0 < m := by omega
  have hr : p % m < m := Nat.mod_lt _ hm
  refine ⟨(e + m - p % m) % m, Nat.mod_lt _ hm, ?_⟩
  have h1 : p % m + (e + m - p % m) = e + m := by omega
  calc (p + (e + m - p % m) % m) % m
      = (p % m + (e + m - p % m) % m % m) % m := Nat.add_mod _ _ _
    _ = (p % m % m + (e + m - p % m) % m) % m := by rw [Nat.mod_mod, Nat.mod_mod]
    _ = (p % m + (e + m - p % m)) % m := (Nat.add_mod _ _ _).symm
    _ = e := by rw [h1, Nat.add_mod_right, Nat.mod_eq_of_lt he]

/-- Stepping `nextpid` from a valid pid reaches every slot of the table
within 2 * PROCS_MAX - 2 steps. -/
theorem next_pid_covers (C : PidConfig) (hok : C.ok) (p e : Nat)
    (hp : C.PID_MIN ≤ p ∧ p ≤ C.PID_MAX) (he : e < C.PROCS_MAX) :
    ∃ j, j ≤ 2 * C.PROCS_MAX - 2 ∧ ((next_pid C)^[j] p) % C.PROCS_MAX = e := by
  obtain ⟨hpm, hinv, hmin, hsize⟩ := hok
  by_cases hA : p + (C.PROCS_MAX - 1) ≤ C.PID_MAX
  · obtain ⟨j, hj, hres⟩ := residue_reached C.PROCS_MAX p e he
    refine ⟨j, by omega, ?_⟩
    rw [next_pid_iterate_linear C j p (by omega)]
    exact hres
  · obtain ⟨j, hj, hres⟩ := residue_reached C.PROCS_MAX C.PID_MIN e he
    have hw : (next_pid C)^[C.PID_MAX - p + 1] p = C.PID_MIN := by
      rw [Function.iterate_succ_apply', next_pid_iterate_linear C _ p (by omega)]
      unfold next_pid
      have : p + (C.PID_MAX - p) + 1 > C.PID_MAX := by omega
      simp [this]
    refine ⟨j + (C.PID_MAX - p + 1), by omega, ?_⟩
    rw [Function.iterate_add_apply, hw, next_pid_iterate_linear C j C.PID_MIN (by omega)]
    exact hres

/-- The loop of `pid_alloc` with the lock held: when the slot of the pid
reached after `n` steps is the first empty one and the budget and the bound
of the assertion allow `n` steps, the loop returns with `nextpid` at that
pid and nothing else changed. -/
theorem pid_alloc_scan_run (C : PidConfig) (hpm : 0 < C.PROCS_MAX) :
    ∀ (n fuel count : Nat) (k : PidState), k.pidlock = true →
    (∀ i, i < n → (k.pidinfo (((next_pid C)^[i] k.nextpid) % C.PROCS_MAX)).isSome = true) →
    k.pidinfo (((next_pid C)^[n] k.nextpid) % C.PROCS_MAX) = none →
    count + n ≤ C.PROCS_MAX * 2 + 5 → n < fuel →
    pid_alloc_scan C fuel count k =
      .done () { k with nextpid := (next_pid C)^[n] k.nextpid } := by
  intro n
  induction n with
  | zero =>
    intro fuel count k hlock _ hempty _ hfuel
    obtain ⟨f, rfl⟩ : ∃ f, fuel = f + 1 := ⟨fuel - 1, by omega⟩
    rw [pid_alloc_scan]
    simp at hempty
    simp [Nat.mod_lt _ hpm, hempty]
  | succ n ih =>
    intro fuel count k hlock hocc hempty hcount hfuel
    obtain ⟨f, rfl⟩ : ∃ f, fuel = f + 1 := ⟨fuel - 1, by omega⟩
    rw [pid_alloc_scan]
    have h0 := hocc 0 (by omega)
    simp at h0
    have hc : count < C.PROCS_MAX * 2 + 5 := by omega
    simp only [pid_bind_apply, pid_state, pid_andThen_done, pidinfo_read, Nat.mod_lt _ hpm,
      if_true, h0, pid_ite_apply, pid_KASSERT, hc, decide_True, inc_nextpid_spec C k hlock]
    rw [ih f (count + 1) { k with nextpid := next_pid C k.nextpid } hlock]
    · simp [Function.iterate_succ_apply]
    · intro i hi
      have := hocc (i + 1) (by omega)
      simpa [Function.iterate_succ_apply] using this
    · simpa [Function.iterate_succ_apply] using hempty
    · omega
    · omega

/-! ## The process table: exit, allocation, join, signals -/

/-- C17, the code against the claim. When a thread `t` that has a parent
calls `pid_exit` and the word of memory after the table is zero, the loop of
`pi_detach_children` runs over the indices 1 to PROCS_MAX: the call returns,
a child of `t` whose record is in slot 0 is still in the table with
`pi_ppid` equal to `t`, and the array has been read at the index PROCS_MAX,
one past its end. -/
theorem pid_exit_skips_slot_zero (C : PidConfig) (k : PidState) (t : Nat) (s : Int)
    (m ch : Pidinfo)
    (hpm : 0 < C.PROCS_MAX) (hlock : k.pidlock = false) (hwf : table_wf C k)
    (ht : t ≠ INVALID_PID) (hm : k.pidinfo (t % C.PROCS_MAX) = some m) (hmp : m.pi_pid = t)
    (hex : m.pi_exited = false) (hself : m.pi_ppid ≠ t) (hpar : m.pi_ppid ≠ INVALID_PID)
    (hch : k.pidinfo 0 = some ch) (hcp : ch.pi_ppid = t)
    (hz : k.after_table C.PROCS_MAX = 0) :
    ∃ k', pid_exit C t s k = .done () k' ∧
      k'.pidinfo 0 = some ch ∧ ch.pi_ppid = t ∧ ch.pi_ppid ≠ INVALID_PID ∧
      C.PROCS_MAX ∈ k'.oob_reads := by
  obtain ⟨k1, hrun, -, -, hpi1, hoob⟩ :=
    pid_exit_spec C k t s m hpm hlock hwf ht hm hmp hex hself hpar hz
  have hts : ¬ 0 = t % C.PROCS_MAX := by
    intro h
    rw [← h, hch] at hm
    cases hm
    exact hself hcp
  refine ⟨k1, hrun, ?_, hcp, by rw [hcp]; exact ht, hoob⟩
  rw [hpi1]
  simp [hts, hch]

/-- Witness of `pid_exit_skips_slot_zero`, with the constants of OS/161 and
a zero word after the table: after 126 forks by the boot thread the process 2
forks; its child gets the pid 128, in slot 0. The process 2 exits, and the
process 128 still has the parent 2. -/
theorem pid_exit_skips_slot_zero_witness :
    pid_k128.after_table 128 = 0 ∧
    ∃ k', pid_exit os161_config 2 7 pid_k128 = .done () k' ∧
      k'.pidinfo 0 = some ⟨128, 2, false, 0xbaad, 0⟩ ∧
      (⟨128, 2, false, 0xbaad, 0⟩ : Pidinfo).pi_ppid = 2 ∧
      (⟨128, 2, false, 0xbaad, 0⟩ : Pidinfo).pi_ppid ≠ INVALID_PID ∧
      128 ∈ k'.oob_reads :=
  ⟨by decide!,
   pid_exit_skips_slot_zero os161_config pid_k128 2 7 ⟨2, 1, false, 0xbaad, 0⟩
    ⟨128, 2, false, 0xbaad, 0⟩ (by decide) (by decide!) (by decide!) (by decide) (by decide!)
    rfl rfl (by decide) (by decide) (by decide!) rfl (by decide!)⟩

/-- A table with fewer occupied slots than PROCS_MAX has an empty slot. -/
theorem exists_empty_slot (C : PidConfig) (k : PidState) (h : occupied C k ≠ C.PROCS_MAX) :
    ∃ e, e < C.PROCS_MAX ∧ k.pidinfo e = none := by
  by_contra hc
  apply h
  unfold occupied
  have hall : ∀ i ∈ List.range C.PROCS_MAX, (k.pidinfo i).isSome = true := by
    intro i hi
    rw [List.mem_range] at hi
    cases hx : k.pidinfo i with
    | none => exact absurd ⟨i, hi, hx⟩ hc
    | some e => rfl
  rw [List.filter_eq_self.mpr hall, List.length_range]

/-- C18. The contract of `pid_alloc`, called by a thread with a pid, with
the lock free, on a table whose records sit in the slots of their pids,
`nextpid` a valid pid and `nprocs` the number of occupied slots (constants
that fit together). When the table is full (`nprocs == PROCS_MAX`) it returns
EAGAIN and the state is unchanged. Otherwise, when a pidinfo can be
allocated, it returns 0 with a pid between PID_MIN and PID_MAX whose slot was
empty, so that no record of the table has that pid; afterwards that slot
holds a record with that pid, the caller as parent, not exited, every other
slot is as it was and `nprocs` is one more. -/
theorem pid_alloc_contract (C : PidConfig) (k : PidState) (t : Nat)
    (hok : C.ok) (hlock : k.pidlock = false) (ht : t ≠ INVALID_PID) (hwf : table_wf C k)
    (hnext : C.PID_MIN ≤ k.nextpid ∧ k.nextpid ≤ C.PID_MAX)
    (hn : k.nprocs = occupied C k) :
    (k.nprocs = C.PROCS_MAX → pid_alloc C t k = .done (.error .EAGAIN) k) ∧
    (k.nprocs ≠ C.PROCS_MAX → k.pi_avail ≠ 0 →
      ∃ pid k', pid_alloc C t k = .done (.ok pid) k' ∧
        C.PID_MIN ≤ pid ∧ pid ≤ C.PID_MAX ∧
        k.pidinfo (pid % C.PROCS_MAX) = none ∧
        (∀ i, i < C.PROCS_MAX → ∀ e, k.pidinfo i = some e → e.pi_pid ≠ pid) ∧
        k'.pidinfo (pid % C.PROCS_MAX) = some ⟨pid, t, false, 0xbaad, 0⟩ ∧
        (∀ i, i ≠ pid % C.PROCS_MAX → k'.pidinfo i = k.pidinfo i) ∧
        k'.nprocs = k.nprocs + 1) := by
  have hpm : 0 < C.PROCS_MAX := hok.1
  have ht' : (t != INVALID_PID) = true := by simp [ht]
  constructor
  · intro hfull
    unfold pid_alloc
    simp [ht', hlock, hfull]
    cases k
    simp at hlock hfull
    simp [hlock, hfull]
  · intro hnf havail
    have hocc : occupied C k ≠ C.PROCS_MAX := by
      intro hc
      apply hnf
      rw [hn, hc]
    obtain ⟨e, he, hempty⟩ := exists_empty_slot C k hocc
    obtain ⟨j, hj, hres⟩ := next_pid_covers C hok k.nextpid e hnext he
    have hex : ∃ n, k.pidinfo (((next_pid C)^[n] k.nextpid) % C.PROCS_MAX) = none :=
      ⟨j, by rw [hres]; exact hempty⟩
    obtain ⟨n, hn0, hnmin, hnle⟩ : ∃ n,
        k.pidinfo (((next_pid C)^[n] k.nextpid) % C.PROCS_MAX) = none ∧
        (∀ i, i < n →
          (k.pidinfo (((next_pid C)^[i] k.nextpid) % C.PROCS_MAX)).isSome = true) ∧
        n ≤ j := by
      classical
      refine ⟨Nat.find hex, Nat.find_spec hex, ?_, Nat.find_min' hex (by rw [hres]; exact hempty)⟩
      intro i hi
      have := Nat.find_min hex hi
      cases hx : k.pidinfo (((next_pid C)^[i] k.nextpid) % C.PROCS_MAX) with
      | none => exact absurd hx this
      | some _ => rfl
    obtain ⟨pid, hpid⟩ : ∃ pid, pid = (next_pid C)^[n] k.nextpid := ⟨_, rfl⟩
    rw [← hpid] at hn0
    have hrange := next_pid_iterate_range C hok.2.2.1 n k.nextpid hnext
    rw [← hpid] at hrange
    have hpid0 : pid ≠ INVALID_PID := by
      have := hok.2.1
      omega
    have hpid0' : (pid != INVALID_PID) = true := by simp [hpid0]
    have hscan := pid_alloc_scan_run C hpm n (C.PROCS_MAX * 2 + 5 + 1) 0
      { k with pidlock := true } rfl hnmin (by rw [← hpid]; exact hn0) (by omega) (by omega)
    refine ⟨pid, { k with
      pidinfo := (Function.update k.pidinfo (pid % C.PROCS_MAX) (some ⟨pid, t, false, 0xbaad, 0⟩)),
      nextpid := next_pid C pid, nprocs := k.nprocs + 1, pi_avail := k.pi_avail - 1 },
      ?_, hrange.1, hrange.2, hn0, ?_, ?_, ?_, rfl⟩
    · unfold pid_alloc
      simp only [pid_bind_apply, pid_KASSERT, ht', if_true, pid_andThen_done, pidlock_acquire,
        hlock, Bool.false_eq_true, if_false, pid_state, pid_ite_apply, hnf, hscan, ← hpid]
      simp [hpid0', havail, pi_put, hpid0, Nat.mod_lt _ hpm, hn0, inc_nextpid_spec, hlock]
    · intro i hi e' he' hc
      have hslot := hwf i hi e' he'
      rw [hc] at hslot
      rw [hslot, he'] at hn0
      cases hn0
    · simp
    · intro i hi
      simp [Function.update_noteq hi]


/-- Witness of `pid_alloc_contract`, with the constants of OS/161: the
process 2 forks in the small table. -/
theorem pid_alloc_contract_witness :
    ∃ pid k', pid_alloc os161_config 2 pid_k3 = .done (.ok pid) k' ∧
      2 ≤ pid ∧ pid ≤ 32767 ∧
      pid_k3.pidinfo (pid % 128) = none ∧
      (∀ i, i < 128 → ∀ e, pid_k3.pidinfo i = some e → e.pi_pid ≠ pid) ∧
      k'.pidinfo (pid % 128) = some ⟨pid, 2, false, 0xbaad, 0⟩ ∧
      (∀ i, i ≠ pid % 128 → k'.pidinfo i = pid_k3.pidinfo i) ∧
      k'.nprocs = pid_k3.nprocs + 1 :=
  (pid_alloc_contract os161_config pid_k3 2 (by decide) (by decide) (by decide) (by decide!)
    (by decide) (by decide!)).2 (by decide) (by decide)

/-- The budget of the loop of `pid_alloc` is never what stops it: the
assertion on `count` fails first. -/
theorem pid_alloc_scan_not_fuel (C : PidConfig) :
    ∀ (fuel count : Nat) (k : PidState), 0 < fuel → C.PROCS_MAX * 2 + 5 < count + fuel →
    pid_alloc_scan C fuel count k ≠ .halt .fuel := by
  intro fuel
  induction fuel with
  | zero => intro count k h; omega
  | succ f ih =>
    intro count k _ hb
    rw [pid_alloc_scan]
    by_cases hi : k.nextpid % C.PROCS_MAX < C.PROCS_MAX
    · cases hx : k.pidinfo (k.nextpid % C.PROCS_MAX) with
      | none => simp [hi, hx]
      | some e =>
        by_cases hc : count < C.PROCS_MAX * 2 + 5
        · cases hl : k.pidlock with
          | false => simp [hi, hx, hc, inc_nextpid, hl]
          | true =>
            simp only [pid_bind_apply, pid_state, pid_andThen_done, pidinfo_read, hi, if_true,
              hx, Option.isSome_some, pid_ite_apply, pid_KASSERT, hc, decide_True,
              inc_nextpid_spec C k hl]
            exact ih (count + 1) _ (by omega) (by omega)
        · simp [hi, hx, hc]
    · by_cases hz : k.after_table (k.nextpid % C.PROCS_MAX) = 0
      · simp [hi, hz]
      · simp [hi, hz]

/-- C19. Exit-status round trip, the code against the claim: for a child
`c` of the thread `p`, both in the table (records in the slots of their
pids, lock free), the child not detached and neither of them exited.
`pid_join` of the child with WNOHANG returns 0 and stores 0. When the child
calls `pid_exit(s)`, the last pass of the loop of `pi_detach_children` reads
the word of memory after the table: when that word is not zero the call
never returns, so that no status reaches the parent; when it is zero the
call returns, and `pid_join` of the child with options 0 or WNOHANG then
returns 0 and stores exactly `s`. -/
theorem exit_status_round_trip (C : PidConfig) (k : PidState) (p c : Nat) (s : Int)
    (mp mc : Pidinfo)
    (hpm : 0 < C.PROCS_MAX) (hlock : k.pidlock = false) (hwf : table_wf C k)
    (hp : p ≠ INVALID_PID) (hc : c ≠ INVALID_PID) (hcp : c ≠ p)
    (hmp : k.pidinfo (p % C.PROCS_MAX) = some mp) (hmpp : mp.pi_pid = p)
    (hmpe : mp.pi_exited = false)
    (hmc : k.pidinfo (c % C.PROCS_MAX) = some mc) (hmcp : mc.pi_pid = c)
    (hpar : mc.pi_ppid = p) (hex : mc.pi_exited = false) :
    pid_join C p c C.WNOHANG k = .done (.ok 0) k ∧
    (k.after_table C.PROCS_MAX ≠ 0 → pid_exit C c s k = .halt .badptr) ∧
    (k.after_table C.PROCS_MAX = 0 →
      ∃ k1, pid_exit C c s k = .done () k1 ∧
        ∀ options, options = 0 ∨ options = C.WNOHANG →
          pid_join C p c options k1 = .done (.ok s) k1) := by
  refine ⟨pid_join_nohang C k p c mp mc hpm hlock hp hc hcp hmp hmpp hmpe hmc hmcp hpar hex,
    fun hw => pid_exit_wild C k c s mc hpm hlock hwf hc hmc hmcp hex hw, ?_⟩
  intro hz
  have hself : mc.pi_ppid ≠ c := by rw [hpar]; exact fun h => hcp h.symm
  have hpar0 : mc.pi_ppid ≠ INVALID_PID := by rw [hpar]; exact hp
  obtain ⟨k1, hrun, hlock1, -, hpi1, -⟩ :=
    pid_exit_spec C k c s mc hpm hlock hwf hc hmc hmcp hex hself hpar0 hz
  have hslots : p % C.PROCS_MAX ≠ c % C.PROCS_MAX := by
    intro h
    rw [h, hmc] at hmp
    cases hmp
    exact hcp (hmcp.symm.trans hmpp)
  have hmc1 : k1.pidinfo (c % C.PROCS_MAX)
      = some { mc with pi_exitstatus := s, pi_exited := true } := by
    rw [hpi1]
    simp
  obtain ⟨mp1, hmp1, hmpp1, hmpe1⟩ : ∃ mp1, k1.pidinfo (p % C.PROCS_MAX) = some mp1 ∧
      mp1.pi_pid = p ∧ mp1.pi_exited = false := by
    rw [hpi1]
    simp only [hslots, if_false]
    by_cases hr : 1 ≤ p % C.PROCS_MAX ∧ p % C.PROCS_MAX < C.PROCS_MAX
    · simp only [hr, and_self, if_true, hmp, detach_slot]
      by_cases hpp : mp.pi_ppid = c
      · exact ⟨{ mp with pi_ppid := INVALID_PID }, by simp [hpp, hmpe], hmpp, hmpe⟩
      · exact ⟨mp, by simp [hpp], hmpp, hmpe⟩
    · simp only [hr, if_false]
      exact ⟨mp, hmp, hmpp, hmpe⟩
  refine ⟨k1, hrun, ?_⟩
  intro options hopt
  exact pid_join_exited C k1 p c options mp1 _ hpm hlock1 hp hc hcp hmp1 hmpp1 hmpe1 hmc1 hmcp
    hpar rfl hopt

/-- Witness of `exit_status_round_trip`, with the constants of OS/161: in
the small table the process 3, a child of the process 2, exits with the
status 7. With the value of `nextpid` in the word after the table the call
never returns; with a zero word there the parent gets the status 7. -/
theorem exit_status_round_trip_witness :
    pid_k3_wild.after_table 128 = 4 ∧
    pid_exit os161_config 3 7 pid_k3_wild = .halt .badptr ∧
    pid_k3.after_table 128 = 0 ∧
    pid_join os161_config 2 3 1 pid_k3 = .done (.ok 0) pid_k3 ∧
    ∃ k1, pid_exit os161_config 3 7 pid_k3 = .done () k1 ∧
      ∀ options, options = 0 ∨ options = 1 →
        pid_join os161_config 2 3 options k1 = .done (.ok 7) k1 :=
  ⟨by decide!,
   (exit_status_round_trip os161_config pid_k3_wild 2 3 7 ⟨2, 1, false, 0xbaad, 0⟩
    ⟨3, 2, false, 0xbaad, 0⟩ (by decide) (by decide) (by decide!) (by decide) (by decide)
    (by decide) (by decide) rfl rfl (by decide) rfl rfl rfl).2.1 (by decide!),
   by decide!,
   (exit_status_round_trip os161_config pid_k3 2 3 7 ⟨2, 1, false, 0xbaad, 0⟩
    ⟨3, 2, false, 0xbaad, 0⟩ (by decide) (by decide) (by decide!) (by decide) (by decide)
    (by decide) (by decide) rfl rfl (by decide) rfl rfl rfl).1,
   (exit_status_round_trip os161_config pid_k3 2 3 7 ⟨2, 1, false, 0xbaad, 0⟩
    ⟨3, 2, false, 0xbaad, 0⟩ (by decide) (by decide) (by decide!) (by decide) (by decide)
    (by decide) (by decide) rfl rfl (by decide) rfl rfl rfl).2.2 (by decide!)⟩

/-- What `pid_kill` with SIGSTOP or SIGKILL does on a pid that is present,
with the lock free: it returns 0 and sets the bit of the signal in
`pi_signal`. -/
theorem pid_kill_set (C : PidConfig) (k : PidState) (pid : Nat) (e : Pidinfo) (sig : Int)
    (hpm : 0 < C.PROCS_MAX) (hlock : k.pidlock = false) (hpid : pid ≠ INVALID_PID)
    (he : k.pidinfo (pid % C.PROCS_MAX) = some e) (hep : e.pi_pid = pid)
    (h1 : 1 ≤ sig) (h32 : sig ≤ 32) (hnc : sig ≠ C.SIGCONT)
    (hsig : sig = C.SIGKILL ∨ sig = C.SIGSTOP) :
    pid_kill C pid sig k = .done (.ok ())
      { k with pidinfo := (Function.update k.pidinfo (pid % C.PROCS_MAX)
          (some { e with pi_signal := (e.pi_signal ||| shl32 sig) % 2 ^ 32 })) } := by
  have h0 : sig ≠ 0 := by omega
  have hr : ¬ (sig > 32 ∨ sig < 1) := by omega
  have hlist : sig = C.SIGKILL ∨ sig = C.SIGSTOP ∨ sig = C.SIGINT ∨ sig = C.SIGQUIT
      ∨ sig = C.SIGWINCH ∨ sig = C.SIGINFO := by
    rcases hsig with h | h
    · exact Or.inl h
    · exact Or.inr (Or.inl h)
  unfold pid_kill
  simp only [pid_bind_apply, pidlock_acquire, hlock, Bool.false_eq_true, if_false,
    pid_andThen_done]
  rw [pi_get_present C { k with pidlock := true } pid e hpm rfl hpid he hep]
  simp only [pid_andThen_done, pid_ite_apply, h0, hr, hnc, hlist, if_true, if_false,
    pid_bind_apply]
  simp [he, hlock]

/-- What `pid_kill` with SIGCONT does on a pid that is present, with the lock
free: it returns 0 and clears the bit of SIGSTOP in `pi_signal`. -/
theorem pid_kill_cont (C : PidConfig) (k : PidState) (pid : Nat) (e : Pidinfo)
    (hpm : 0 < C.PROCS_MAX) (hlock : k.pidlock = false) (hpid : pid ≠ INVALID_PID)
    (he : k.pidinfo (pid % C.PROCS_MAX) = some e) (hep : e.pi_pid = pid)
    (h1 : 1 ≤ C.SIGCONT) (h32 : C.SIGCONT ≤ 32) :
    pid_kill C pid C.SIGCONT k = .done (.ok ())
      { k with pidinfo := (Function.update k.pidinfo (pid % C.PROCS_MAX)
          (some { e with pi_signal := e.pi_signal &&& not32 (shl32 C.SIGSTOP) })) } := by
  have h0 : C.SIGCONT ≠ 0 := by omega
  have hr : ¬ (C.SIGCONT > 32 ∨ C.SIGCONT < 1) := by omega
  unfold pid_kill
  simp only [pid_bind_apply, pidlock_acquire, hlock, Bool.false_eq_true, if_false,
    pid_andThen_done]
  rw [pi_get_present C { k with pidlock := true } pid e hpm rfl hpid he hep]
  simp only [pid_andThen_done, pid_ite_apply, h0, hr, if_true, if_false,
    pid_bind_apply, pi_unset_signal]
  simp only [pidlock_do_i_hold, pid_KASSERT, if_true, pid_andThen_done, pid_bind_apply]
  rw [pi_get_present C { k with pidlock := true } pid e hpm rfl hpid he hep]
  simp [he, hlock]

/-- What `pid_get_signal` does on a pid that is present, with the lock free:
it returns `pi_signal` and leaves the table alone. -/
theorem pid_get_signal_present (C : PidConfig) (k : PidState) (pid : Nat) (e : Pidinfo)
    (hpm : 0 < C.PROCS_MAX) (hlock : k.pidlock = false) (hpid : pid ≠ INVALID_PID)
    (he : k.pidinfo (pid % C.PROCS_MAX) = some e) (hep : e.pi_pid = pid) :
    pid_get_signal C pid k = .done (int32_of e.pi_signal) k := by
  unfold pid_get_signal
  simp only [pid_bind_apply, pidlock_acquire, hlock, Bool.false_eq_true, if_false,
    pid_andThen_done]
  rw [pi_get_present C { k with pidlock := true } pid e hpm rfl hpid he hep]
  simp [he]
  cases k
  simp at hlock
  simp [hlock]


/-- The `int` with a given 32-bit pattern has the bits of the pattern, in
two's complement. -/
theorem int32_of_testBit (x b : Nat) (hb : b < 32) :
    (int32_of x).testBit b = x.testBit b := by
  have hmod : (x % 2 ^ 32).testBit b = x.testBit b := by
    rw [Nat.testBit_mod_two_pow]
    simp [hb]
  have hlt : x % 2 ^ 32 < 2 ^ 32 := Nat.mod_lt _ (by decide)
  unfold int32_of
  split
  · rw [← hmod]
    rfl
  · have hneg : ((x % 2 ^ 32 : Nat) : Int) - 2 ^ 32 =
        Int.negSucc (2 ^ 32 - (x % 2 ^ 32 + 1)) := by
      rw [Int.negSucc_eq]
      omega
    have key : ∀ m : Nat, (Int.negSucc m).testBit b = !m.testBit b := fun _ => rfl
    rw [hneg, key, Nat.testBit_two_pow_sub_succ hlt, hmod]
    simp [hb]

/-- C20. Signals by `pid_kill`: for a pid present in the table (with the
lock free, signal numbers between 1 and 32, SIGSTOP below 32 and SIGCONT
different from SIGSTOP and SIGKILL), `pid_kill` with SIGSTOP, with SIGCONT
and with SIGKILL each return 0; after the SIGSTOP the `int` that
`pid_get_signal` returns has the bit of SIGSTOP set; after a following
SIGCONT the `int` it returns has that bit clear and every other of its 32
bits as before, the pending signals stored for the process are those bits,
and every other slot of the table is as it was. -/
theorem kill_stop_cont (C : PidConfig) (k : PidState) (pid : Nat) (e : Pidinfo)
    (hpm : 0 < C.PROCS_MAX) (hlock : k.pidlock = false) (hpid : pid ≠ INVALID_PID)
    (he : k.pidinfo (pid % C.PROCS_MAX) = some e) (hep : e.pi_pid = pid)
    (hstop : 1 ≤ C.SIGSTOP ∧ C.SIGSTOP ≤ 31) (hcont : 1 ≤ C.SIGCONT ∧ C.SIGCONT ≤ 32)
    (hkill : 1 ≤ C.SIGKILL ∧ C.SIGKILL ≤ 32)
    (hsc : C.SIGSTOP ≠ C.SIGCONT) (hkc : C.SIGKILL ≠ C.SIGCONT) :
    ∃ k1 k2 e1 e2 r1 r2,
      pid_kill C pid C.SIGSTOP k = .done (.ok ()) k1 ∧
      k1.pidinfo (pid % C.PROCS_MAX) = some e1 ∧
      pid_get_signal C pid k1 = .done r1 k1 ∧
      r1.testBit C.SIGSTOP.toNat = true ∧
      (∀ b, b < 32 → r1.testBit b = e1.pi_signal.testBit b) ∧
      pid_kill C pid C.SIGCONT k1 = .done (.ok ()) k2 ∧
      k2.pidinfo (pid % C.PROCS_MAX) = some e2 ∧
      pid_get_signal C pid k2 = .done r2 k2 ∧
      r2.testBit C.SIGSTOP.toNat = false ∧
      (∀ b, b < 32 → r2.testBit b = e2.pi_signal.testBit b) ∧
      (∀ b, b < 32 → b ≠ C.SIGSTOP.toNat → r2.testBit b = r1.testBit b) ∧
      (∀ i, i ≠ pid % C.PROCS_MAX → k2.pidinfo i = k1.pidinfo i) ∧
      (∃ k3, pid_kill C pid C.SIGKILL k = .done (.ok ()) k3) ∧
      (∃ k4, pid_kill C pid C.SIGCONT k = .done (.ok ()) k4) := by
  have hs := pid_kill_set C k pid e C.SIGSTOP hpm hlock hpid he hep hstop.1 (by omega) hsc
    (Or.inr rfl)
  obtain ⟨e1, hedef⟩ : ∃ e1 : Pidinfo,
      e1 = { e with pi_signal := (e.pi_signal ||| shl32 C.SIGSTOP) % 2 ^ 32 } := ⟨_, rfl⟩
  obtain ⟨k1, hk1⟩ : ∃ k1 : PidState, k1 = { k with
      pidinfo := (Function.update k.pidinfo (pid % C.PROCS_MAX) (some e1)) } := ⟨_, rfl⟩
  rw [← hedef, ← hk1] at hs
  have hl1 : k1.pidlock = false := by rw [hk1]; exact hlock
  have he1 : k1.pidinfo (pid % C.PROCS_MAX) = some e1 := by rw [hk1]; simp
  have hep1 : e1.pi_pid = pid := by rw [hedef]; exact hep
  have hc := pid_kill_cont C k1 pid e1 hpm hl1 hpid he1 hep1 hcont.1 hcont.2
  obtain ⟨e2, hedef2⟩ : ∃ e2 : Pidinfo,
      e2 = { e1 with pi_signal := e1.pi_signal &&& not32 (shl32 C.SIGSTOP) } := ⟨_, rfl⟩
  obtain ⟨k2, hk2⟩ : ∃ k2 : PidState, k2 = { k1 with
      pidinfo := (Function.update k1.pidinfo (pid % C.PROCS_MAX) (some e2)) } := ⟨_, rfl⟩
  rw [← hedef2, ← hk2] at hc
  have hl2 : k2.pidlock = false := by rw [hk2]; exact hl1
  have he2 : k2.pidinfo (pid % C.PROCS_MAX) = some e2 := by rw [hk2]; simp
  have hep2 : e2.pi_pid = pid := by rw [hedef2]; exact hep1
  have hS : C.SIGSTOP.toNat < 32 := by omega
  have hb1 : e1.pi_signal.testBit C.SIGSTOP.toNat = true := by
    rw [hedef]
    exact testBit_set32 _ _ (by omega) hstop.2
  have hb2 : e2.pi_signal.testBit C.SIGSTOP.toNat = false := by
    rw [hedef2]
    exact testBit_clear32_self _ _ (by omega) hstop.2
  refine ⟨k1, k2, e1, e2, int32_of e1.pi_signal, int32_of e2.pi_signal, hs, he1, ?_, ?_, ?_, hc,
    he2, ?_, ?_, ?_, ?_, ?_, ?_, ?_⟩
  · exact pid_get_signal_present C k1 pid e1 hpm hl1 hpid he1 hep1
  · rw [int32_of_testBit _ _ hS]
    exact hb1
  · intro b hb
    exact int32_of_testBit _ b hb
  · exact pid_get_signal_present C k2 pid e2 hpm hl2 hpid he2 hep2
  · rw [int32_of_testBit _ _ hS]
    exact hb2
  · intro b hb
    exact int32_of_testBit _ b hb
  · intro b hb hne
    rw [int32_of_testBit _ b hb, int32_of_testBit _ b hb, hedef2]
    exact testBit_clear32_other _ _ b (by omega) hstop.2 hb hne
  · intro i hi
    rw [hk2]
    simp [Function.update_noteq hi]
  · exact ⟨_, pid_kill_set C k pid e C.SIGKILL hpm hlock hpid he hep hkill.1 hkill.2 hkc
      (Or.inl rfl)⟩
  · exact ⟨_, pid_kill_cont C k pid e hpm hlock hpid he hep hcont.1 hcont.2⟩

/-- Witness of `kill_stop_cont`: the process 3 of the small table, with the
constants of OS/161. -/
theorem kill_stop_cont_witness :
    ∃ k1 k2 e1 e2 r1 r2,
      pid_kill os161_config 3 17 pid_k3 = .done (.ok ()) k1 ∧
      k1.pidinfo (3 % 128) = some e1 ∧
      pid_get_signal os161_config 3 k1 = .done r1 k1 ∧
      r1.testBit 17 = true ∧
      (∀ b, b < 32 → r1.testBit b = e1.pi_signal.testBit b) ∧
      pid_kill os161_config 3 19 k1 = .done (.ok ()) k2 ∧
      k2.pidinfo (3 % 128) = some e2 ∧
      pid_get_signal os161_config 3 k2 = .done r2 k2 ∧
      r2.testBit 17 = false ∧
      (∀ b, b < 32 → r2.testBit b = e2.pi_signal.testBit b) ∧
      (∀ b, b < 32 → b ≠ 17 → r2.testBit b = r1.testBit b) ∧
      (∀ i, i ≠ 3 % 128 → k2.pidinfo i = k1.pidinfo i) ∧
      (∃ k3, pid_kill os161_config 3 9 pid_k3 = .done (.ok ()) k3) ∧
      (∃ k4, pid_kill os161_config 3 19 pid_k3 = .done (.ok ()) k4) :=
  kill_stop_cont os161_config pid_k3 3 ⟨3, 2, false, 0xbaad, 0⟩
    (by decide) (by decide) (by decide) (by decide) rfl
    (by decide) (by decide) (by decide) (by decide) (by decide)

/-! ## Running code of file.c: rewriting rules -/

@[simp] theorem file_andThen_halt {α β : Type} (h : Halt)
    (f : α → FileState → FileOutcome β) :
    (FileOutcome.halt h : FileOutcome α).andThen f = .halt h := rfl

@[simp] theorem file_andThen_done {α β : Type} (a : α) (k : FileState)
    (f : α → FileState → FileOutcome β) :
    (FileOutcome.done a k).andThen f = f a k := rfl

@[simp] theorem file_bind_apply {α β : Type} (m : FileM α) (f : α → FileM β) (k : FileState) :
    (m >>= f) k = (m k).andThen f := rfl

@[simp] theorem file_pure_apply {α : Type} (a : α) (k : FileState) :
    (pure a : FileM α) k = .done a k := rfl

@[simp] theorem file_ite_apply {α : Type} (c : Prop) [Decidable c] (m1 m2 : FileM α)
    (k : FileState) :
    (if c then m1 else m2) k = if c then m1 k else m2 k := by
  split <;> rfl

attribute [simp] file_stop file_state file_modify file_KASSERT ft_touch ft_read ft_write
  ft_update file_kmalloc file_kfree file_lock_create vfs_open vfs_close VOP_STAT

/-- The loop of `filetable_scan` stops at the lowest empty position when
there is one inside the table, and has then used no index outside it. -/
theorem filetable_scan_loop_finds (C : FileConfig) :
    ∀ (m n pos : Nat) (k : FileState), m < n → pos + m < C.OPEN_MAX →
    (∀ i, pos ≤ i → i < pos + m → (k.t_filetable i).isSome = true) →
    k.t_filetable (pos + m) = none →
    filetable_scan_loop C n pos k = .done ((pos + m : Nat) : Int) k := by
  intro m
  induction m with
  | zero =>
    intro n pos k hn hlt _ hnone
    obtain ⟨n, rfl⟩ : ∃ n', n = n' + 1 := ⟨n - 1, by omega⟩
    have hlt' : pos < C.OPEN_MAX := by omega
    have hnone' : k.t_filetable pos = none := by simpa using hnone
    simp [filetable_scan_loop, hlt', hnone']
  | succ m ih =>
    intro n pos k hn hlt hsome hnone
    obtain ⟨n, rfl⟩ : ∃ n', n = n' + 1 := ⟨n - 1, by omega⟩
    have hlt' : pos < C.OPEN_MAX := by omega
    have hs : (k.t_filetable pos).isSome = true := hsome pos (Nat.le_refl _) (by omega)
    have hs' : (k.t_filetable pos).isNone = false := by
      cases hx : k.t_filetable pos with
      | none => simp [hx] at hs
      | some _ => rfl
    rw [filetable_scan_loop]
    simp only [file_bind_apply, ft_read, ft_touch, file_modify, file_state, file_pure_apply,
      file_andThen_done, hlt', if_true, hs', Bool.false_eq_true, if_false, file_ite_apply]
    have := ih n (pos + 1) k (by omega) (by omega)
      (fun i h1 h2 => hsome i (by omega) (by omega))
      (by rw [← hnone]; congr 1; omega)
    rw [this]
    congr 2
    omega

/-- The loop of `filetable_scan` on a table whose positions from `pos` on
are all in use: its last pass reads the word after the table, and what it
returns depends on that word. -/
theorem filetable_scan_loop_full (C : FileConfig) :
    ∀ (n pos : Nat) (k : FileState), pos + n = C.OPEN_MAX →
    (∀ i, pos ≤ i → i < C.OPEN_MAX → (k.t_filetable i).isSome = true) →
    filetable_scan_loop C (n + 1) pos k =
      .done (if (k.t_filetable C.OPEN_MAX).isNone then (C.OPEN_MAX : Int) else -1)
        { k with ft_oob := k.ft_oob ++ [C.OPEN_MAX] } := by
  intro n
  induction n with
  | zero =>
    intro pos k hpos _
    have hpos' : pos = C.OPEN_MAX := by omega
    subst hpos'
    cases hx : k.t_filetable C.OPEN_MAX <;>
      simp [filetable_scan_loop, hx]
  | succ n ih =>
    intro pos k hpos hsome
    have hlt' : pos < C.OPEN_MAX := by omega
    have hs : (k.t_filetable pos).isSome = true := hsome pos (Nat.le_refl _) hlt'
    have hs' : (k.t_filetable pos).isNone = false := by
      cases hx : k.t_filetable pos with
      | none => simp [hx] at hs
      | some _ => rfl
    rw [filetable_scan_loop]
    simp only [file_bind_apply, ft_read, ft_touch, file_modify, file_state, file_pure_apply,
      file_andThen_done, hlt', if_true, hs', Bool.false_eq_true, if_false, file_ite_apply]
    exact ih (pos + 1) k (by omega) (fun i h1 h2 => hsome i (by omega) h2)

/-- The function `filetable_scan` on a full table. -/
theorem filetable_scan_full (C : FileConfig) (k : FileState) (h3 : 3 ≤ C.OPEN_MAX)
    (hfull : table_full C k) :
    filetable_scan C k =
      .done (if (k.t_filetable C.OPEN_MAX).isNone then (C.OPEN_MAX : Int) else -1)
        { k with ft_oob := k.ft_oob ++ [C.OPEN_MAX] } := by
  unfold filetable_scan
  have h : C.OPEN_MAX + 1 - 3 = (C.OPEN_MAX - 3) + 1 := by omega
  rw [h]
  exact filetable_scan_loop_full C (C.OPEN_MAX - 3) 3 k (by omega)
    (fun i h1 h2 => hfull i h2 h1)

theorem file_andThen_done_inv {α β : Type} {o : FileOutcome α}
    {f : α → FileState → FileOutcome β} {b : β} {k' : FileState}
    (h : o.andThen f = .done b k') :
    ∃ a k1, o = .done a k1 ∧ f a k1 = .done b k' := by
  cases o with
  | halt e => simp at h
  | done a k1 => exact ⟨a, k1, rfl, by simpa using h⟩

theorem file_andThen_ne {α β : Type} (o : FileOutcome α)
    (f : α → FileState → FileOutcome β) (b : β) (k' : FileState)
    (h : ∀ a k1, f a k1 ≠ .done b k') : o.andThen f ≠ .done b k' := by
  cases o with
  | halt e => simp
  | done a k1 => exact h a k1

/-- The function `file_open` returns EMFILE only when `filetable_scan` has
returned less than 3. -/
theorem file_open_emfile_inv (C : FileConfig) (k k' : FileState) (filename : List Nat)
    (flags : Nat) (h : file_open C filename flags k = .done (.error .EMFILE) k') :
    ∃ r, filetable_scan C k = .done r k' ∧ r < 3 := by
  unfold file_open at h
  simp only [file_bind_apply] at h
  obtain ⟨r, k1, hscan, h⟩ := file_andThen_done_inv h
  by_cases hr : r < 3
  · simp [hr] at h
    exact ⟨r, by rw [hscan, h], hr⟩
  · exfalso
    simp only [hr, if_false, file_ite_apply] at h
    clear hscan
    revert h
    generalize r.toNat = fd
    refine file_andThen_ne _ _ _ _ (fun _ k2 => ?_)
    simp only [file_bind_apply]
    refine file_andThen_ne _ _ _ _ (fun _ k3 => ?_)
    refine file_andThen_ne _ _ _ _ (fun _ k4 => ?_)
    simp only [file_ite_apply]
    split
    · simp
    · simp only [file_bind_apply]
      refine file_andThen_ne _ _ _ _ (fun x k5 => ?_)
      cases x with
      | error code => simp
      | ok vn =>
        simp only [file_bind_apply]
        refine file_andThen_ne _ _ _ _ (fun _ k6 => ?_)
        refine file_andThen_ne _ _ _ _ (fun l k7 => ?_)
        refine file_andThen_ne _ _ _ _ (fun _ k8 => ?_)
        cases l with
        | false => simp
        | true =>
          simp only [Bool.not_true, Bool.false_eq_true, if_false, file_bind_apply]
          refine file_andThen_ne _ _ _ _ (fun st k9 => ?_)
          cases st with
          | error code => simp
          | ok size =>
            have tail : ∀ (g : Filetable → Filetable) (k10 : FileState), (do
                ft_update C fd g
                match ← ft_read C fd with
                | none => file_stop .badptr
                | some e =>
                  file_KASSERT (e.flags == C.O_RDONLY || e.flags == C.O_WRONLY ||
                    e.flags == C.O_RDWR)
                  pure (.ok fd) : FileM (Except FileErrno Nat)) k10 ≠
                .done (.error .EMFILE) k' := by
              intro g k10
              simp only [file_bind_apply]
              refine file_andThen_ne _ _ _ _ (fun _ k11 => ?_)
              simp only [file_bind_apply]
              refine file_andThen_ne _ _ _ _ (fun e k12 => ?_)
              cases e with
              | none => simp
              | some e =>
                simp only [file_bind_apply]
                refine file_andThen_ne _ _ _ _ (fun _ k13 => ?_)
                simp
            simp only [file_ite_apply]
            split
            · simp only [file_bind_apply]
              refine file_andThen_ne _ _ _ _ (fun _ k10 => ?_)
              exact tail _ k10
            · simp only [file_bind_apply]
              refine file_andThen_ne _ _ _ _ (fun _ k10 => ?_)
              exact tail _ k10

/-- The function `filetable_scan` on a table with an empty position from 3
to `__OPEN_MAX-1`: it returns the lowest one and leaves the state alone. -/
theorem filetable_scan_finds (C : FileConfig) (k : FileState) (m : Nat) (hm3 : 3 ≤ m)
    (hm : m < C.OPEN_MAX)
    (hused : ∀ i, 3 ≤ i → i < m → (k.t_filetable i).isSome = true)
    (hempty : k.t_filetable m = none) :
    filetable_scan C k = .done (m : Int) k := by
  unfold filetable_scan
  have h := filetable_scan_loop_finds C (m - 3) (C.OPEN_MAX + 1 - 3) 3 k (by omega) (by omega)
    (fun i h1 h2 => hused i h1 (by omega))
    (by rw [← hempty]; congr 1; omega)
  rw [h]
  congr 2
  omega

/-- The function `file_open` on a table with an empty position from 3 to
`__OPEN_MAX-1`, with memory and locks at hand, a name that fits and a file
that opens: it stores the lowest empty position in `*retfd`, puts the new
record there and leaves every other position as it was. -/
theorem file_open_lowest_empty (C : FileConfig) (k : FileState) (filename : List Nat)
    (flags vn m : Nat) (hm3 : 3 ≤ m) (hm : m < C.OPEN_MAX)
    (hused : ∀ i, 3 ≤ i → i < m → (k.t_filetable i).isSome = true)
    (hempty : k.t_filetable m = none)
    (hheap : 2 ≤ k.file_heap_avail) (hlocks : 2 ≤ k.file_locks_avail)
    (hname : filename.length < 5)
    (happ : flags &&& C.O_APPEND = 0)
    (hvfs : k.vfs_open_result filename flags = .ok vn)
    (hacc : flags &&& C.O_ACCMODE = C.O_RDONLY ∨ flags &&& C.O_ACCMODE = C.O_WRONLY ∨
      flags &&& C.O_ACCMODE = C.O_RDWR) :
    file_open C filename flags k = .done (.ok m) { k with
      t_filetable := (Function.update k.t_filetable m
        (some { vnodes := some vn, offsets := 0, flags := flags &&& C.O_ACCMODE, dups := 0,
                ftlock := true })),
      file_heap_avail := k.file_heap_avail - 1 - 1,
      file_locks_avail := k.file_locks_avail - 1 - 1 } := by
  have hscan := filetable_scan_finds C k m hm3 hm hused hempty
  have h3' : ¬ ((m : Int) < 3) := by omega
  have hh1 : k.file_heap_avail ≠ 0 := by omega
  have hh2 : k.file_heap_avail - 1 ≠ 0 := by omega
  have hl1 : k.file_locks_avail ≠ 0 := by omega
  have hl2 : k.file_locks_avail - 1 ≠ 0 := by omega
  have hn5 : ¬ (5 < filename.length + 1) := by omega
  have hacc' : (flags &&& C.O_ACCMODE = C.O_RDONLY ∨ flags &&& C.O_ACCMODE = C.O_WRONLY) ∨
      flags &&& C.O_ACCMODE = C.O_RDWR := by
    rcases hacc with h | h | h
    · exact Or.inl (Or.inl h)
    · exact Or.inl (Or.inr h)
    · exact Or.inr h
  unfold file_open
  simp only [file_bind_apply, hscan, file_andThen_done, h3', if_false, file_ite_apply,
    Int.toNat_ofNat]
  simp [fd_init, hempty, hm, hh1, hh2, hl1, hl2, hn5, happ, hvfs, hacc']

/-- C21. Open-file limit. On a table of `__OPEN_MAX` entries in which every
descriptor from 3 to `__OPEN_MAX-1` is in use, `filetable_scan` reads
`t_filetable[__OPEN_MAX]`, the word after the table. When that word is not
zero the scan returns -1 and `file_open` returns EMFILE with the table as it
was; when it is zero the scan returns `__OPEN_MAX` instead of -1 and
`file_open` does not return EMFILE. -/
theorem open_limit_reads_past_table (C : FileConfig) (k : FileState) (h3 : 3 ≤ C.OPEN_MAX)
    (hfull : table_full C k) :
    (∃ r, filetable_scan C k = .done r { k with ft_oob := k.ft_oob ++ [C.OPEN_MAX] }) ∧
    ¬ (C.OPEN_MAX < C.OPEN_MAX) ∧
    ((k.t_filetable C.OPEN_MAX).isSome = true →
      filetable_scan C k = .done (-1) { k with ft_oob := k.ft_oob ++ [C.OPEN_MAX] } ∧
      ∀ filename flags, file_open C filename flags k =
        .done (.error .EMFILE) { k with ft_oob := k.ft_oob ++ [C.OPEN_MAX] }) ∧
    (k.t_filetable C.OPEN_MAX = none →
      filetable_scan C k =
        .done (C.OPEN_MAX : Int) { k with ft_oob := k.ft_oob ++ [C.OPEN_MAX] } ∧
      ∀ filename flags k', file_open C filename flags k ≠ .done (.error .EMFILE) k') := by
  have hscan := filetable_scan_full C k h3 hfull
  refine ⟨⟨_, hscan⟩, Nat.lt_irrefl _, ?_, ?_⟩
  · intro hs
    have hs' : (k.t_filetable C.OPEN_MAX).isNone = false := by
      cases hx : k.t_filetable C.OPEN_MAX with
      | none => simp [hx] at hs
      | some _ => rfl
    simp only [hs', Bool.false_eq_true, if_false] at hscan
    refine ⟨hscan, ?_⟩
    intro filename flags
    unfold file_open
    simp [hscan]
  · intro hn
    simp only [hn, Option.isNone_none, if_true] at hscan
    refine ⟨hscan, ?_⟩
    intro filename flags k' hc
    obtain ⟨r, hr, hlt⟩ := file_open_emfile_inv C k k' filename flags hc
    rw [hscan] at hr
    cases hr
    omega

/-- Witness of `open_limit_reads_past_table`, with the constants of OS/161:
the full table with a zero word after it, where the scan returns 128. -/
theorem open_limit_reads_past_table_witness :
    filetable_scan os161_file_config ft_full =
      .done (128 : Int) { ft_full with ft_oob := [128] } ∧
    ∀ filename flags k', file_open os161_file_config filename flags ft_full ≠
      .done (.error .EMFILE) k' :=
  (open_limit_reads_past_table os161_file_config ft_full (by decide) (by decide)).2.2.2 rfl

/-- C22. Fresh descriptors. On a table in which every descriptor from 3 to
`__OPEN_MAX-1` is in use and the word after the table is zero, `file_open`
with memory and locks at hand, a name that fits and a file that opens
succeeds and stores `__OPEN_MAX` in `*retfd`, which is not below
`__OPEN_MAX`: it has stored the new record in the word after the table and
left the table itself as it was. -/
theorem file_open_past_table (C : FileConfig) (k : FileState) (filename : List Nat)
    (flags vn : Nat) (h3 : 3 ≤ C.OPEN_MAX) (hfull : table_full C k)
    (hnull : k.t_filetable C.OPEN_MAX = none)
    (hheap : 2 ≤ k.file_heap_avail) (hlocks : 2 ≤ k.file_locks_avail)
    (hname : filename.length < 5)
    (happ : flags &&& C.O_APPEND = 0)
    (hvfs : k.vfs_open_result filename flags = .ok vn)
    (hacc : flags &&& C.O_ACCMODE = C.O_RDONLY ∨ flags &&& C.O_ACCMODE = C.O_WRONLY ∨
      flags &&& C.O_ACCMODE = C.O_RDWR) :
    ∃ k', file_open C filename flags k = .done (.ok C.OPEN_MAX) k' ∧
      ¬ (C.OPEN_MAX < C.OPEN_MAX) ∧
      k'.t_filetable C.OPEN_MAX =
        some { vnodes := some vn, offsets := 0, flags := flags &&& C.O_ACCMODE, dups := 0,
               ftlock := true } ∧
      (∀ i, i < C.OPEN_MAX → k'.t_filetable i = k.t_filetable i) ∧
      C.OPEN_MAX ∈ k'.ft_oob := by
  have hscan := filetable_scan_full C k h3 hfull
  simp only [hnull, Option.isNone_none, if_true] at hscan
  have h3' : ¬ ((C.OPEN_MAX : Int) < 3) := by omega
  have hh1 : k.file_heap_avail ≠ 0 := by omega
  have hh2 : k.file_heap_avail - 1 ≠ 0 := by omega
  have hl1 : k.file_locks_avail ≠ 0 := by omega
  have hl2 : k.file_locks_avail - 1 ≠ 0 := by omega
  have hn5 : ¬ (5 < filename.length + 1) := by omega
  have hacc' : (flags &&& C.O_ACCMODE = C.O_RDONLY ∨ flags &&& C.O_ACCMODE = C.O_WRONLY) ∨
      flags &&& C.O_ACCMODE = C.O_RDWR := by
    rcases hacc with h | h | h
    · exact Or.inl (Or.inl h)
    · exact Or.inl (Or.inr h)
    · exact Or.inr h
  refine ⟨{ k with
      t_filetable := (Function.update k.t_filetable C.OPEN_MAX
        (some { vnodes := some vn, offsets := 0, flags := flags &&& C.O_ACCMODE, dups := 0,
                ftlock := true })),
      file_heap_avail := k.file_heap_avail - 1 - 1,
      file_locks_avail := k.file_locks_avail - 1 - 1,
      ft_oob := k.ft_oob ++ List.replicate 12 C.OPEN_MAX }, ?_, Nat.lt_irrefl _, ?_, ?_, ?_⟩
  · unfold file_open
    simp only [file_bind_apply, hscan, file_andThen_done, h3', if_false, file_ite_apply,
      Int.toNat_ofNat]
    simp [fd_init, hnull, hh1, hh2, hl1, hl2, hn5, happ, hvfs, hacc', List.replicate]
  · simp
  · intro i hi
    have hne : i ≠ C.OPEN_MAX := Nat.ne_of_lt hi
    simp [Function.update_noteq hne]
  · simp [List.replicate]

/-- Witness of `file_open_past_table`, with the constants of OS/161: the
full table with a zero word after it, the file `con:` opened with the flags
2 (`O_RDWR`). -/
theorem file_open_past_table_witness :
    ∃ k', file_open os161_file_config [99, 111, 110, 58] 2 ft_full = .done (.ok 128) k' ∧
      ¬ (128 < 128) ∧
      k'.t_filetable 128 = some ft_entry ∧
      (∀ i, i < 128 → k'.t_filetable i = ft_full.t_filetable i) ∧
      128 ∈ k'.ft_oob :=
  file_open_past_table os161_file_config ft_full [99, 111, 110, 58] 2 1 (by decide) (by decide)
    rfl (by decide) (by decide) (by decide) (by decide) rfl (by decide)

/-! ## Termination of the scan of pid_alloc -/

/-- From a `nextpid` in range, on a table with an empty slot, there is a
first pid in the order of `inc_nextpid` whose slot is empty, and it is
reached in at most `2 * PROCS_MAX - 2` steps. -/
theorem first_empty_pid (C : PidConfig) (k : PidState) (hok : C.ok)
    (hnext : C.PID_MIN ≤ k.nextpid ∧ k.nextpid ≤ C.PID_MAX)
    (hocc : occupied C k ≠ C.PROCS_MAX) :
    ∃ n, n ≤ 2 * C.PROCS_MAX - 2 ∧
      k.pidinfo (((next_pid C)^[n] k.nextpid) % C.PROCS_MAX) = none ∧
      (∀ i, i < n →
        (k.pidinfo (((next_pid C)^[i] k.nextpid) % C.PROCS_MAX)).isSome = true) := by
  obtain ⟨e, he, hempty⟩ := exists_empty_slot C k hocc
  obtain ⟨j, hj, hres⟩ := next_pid_covers C hok k.nextpid e hnext he
  have hex : ∃ n, k.pidinfo (((next_pid C)^[n] k.nextpid) % C.PROCS_MAX) = none :=
    ⟨j, by rw [hres]; exact hempty⟩
  classical
  refine ⟨Nat.find hex, ?_, Nat.find_spec hex, ?_⟩
  · exact Nat.le_trans (Nat.find_min' hex (by rw [hres]; exact hempty)) hj
  · intro i hi
    have := Nat.find_min hex hi
    cases hx : k.pidinfo (((next_pid C)^[i] k.nextpid) % C.PROCS_MAX) with
    | none => exact absurd hx this
    | some _ => rfl

/-- C23. Termination of the scan of `pid_alloc`. With constants such that
the pids from `PID_MIN` to `PID_MAX` reach every slot, on a table in which
`nprocs` is the number of occupied slots and is below `PROCS_MAX`, with
`nextpid` in range and the lock held as in `pid_alloc`: the loop started
with `count = 0` returns, after `n` passes with `n` below `PROCS_MAX*2+5`,
so the assertion on `count` holds in every pass; it has changed nothing but
`nextpid`, which is then in range and names an empty slot, and every slot it
went over was occupied. -/
theorem pid_alloc_scan_terminates (C : PidConfig) (k : PidState) (hok : C.ok)
    (hlock : k.pidlock = true)
    (hn : k.nprocs = occupied C k) (hlt : k.nprocs < C.PROCS_MAX)
    (hnext : C.PID_MIN ≤ k.nextpid ∧ k.nextpid ≤ C.PID_MAX) :
    ∃ n, n < C.PROCS_MAX * 2 + 5 ∧
      pid_alloc_scan C (C.PROCS_MAX * 2 + 5 + 1) 0 k =
        .done () { k with nextpid := (next_pid C)^[n] k.nextpid } ∧
      C.PID_MIN ≤ (next_pid C)^[n] k.nextpid ∧ (next_pid C)^[n] k.nextpid ≤ C.PID_MAX ∧
      k.pidinfo (((next_pid C)^[n] k.nextpid) % C.PROCS_MAX) = none ∧
      (∀ i, i < n →
        (k.pidinfo (((next_pid C)^[i] k.nextpid) % C.PROCS_MAX)).isSome = true) := by
  have hocc : occupied C k ≠ C.PROCS_MAX := by
    intro hc
    rw [hn, hc] at hlt
    exact absurd hlt (by simp)
  obtain ⟨n, hle, hnone, hsome⟩ := first_empty_pid C k hok hnext hocc
  have hrange := next_pid_iterate_range C hok.2.2.1 n k.nextpid hnext
  have hpm : 0 < C.PROCS_MAX := hok.1
  refine ⟨n, by omega, ?_, hrange.1, hrange.2, hnone, hsome⟩
  exact pid_alloc_scan_run C hpm n (C.PROCS_MAX * 2 + 5 + 1) 0 k hlock hsome hnone
    (by omega) (by omega)

/-- Witness of `pid_alloc_scan_terminates`, with the constants of OS/161: the
small table with `nextpid` at an occupied slot. -/
theorem pid_alloc_scan_terminates_witness :
    ∃ n, n < 128 * 2 + 5 ∧
      pid_alloc_scan os161_config (128 * 2 + 5 + 1) 0 pid_k3_scan =
        .done () { pid_k3_scan with nextpid := (next_pid os161_config)^[n] 2 } ∧
      2 ≤ (next_pid os161_config)^[n] 2 ∧
      (next_pid os161_config)^[n] 2 ≤ 32767 ∧
      pid_k3_scan.pidinfo (((next_pid os161_config)^[n] 2) % 128) = none ∧
      (∀ i, i < n →
        (pid_k3_scan.pidinfo (((next_pid os161_config)^[i] 2) % 128)).isSome = true) :=
  pid_alloc_scan_terminates os161_config pid_k3_scan (by decide) rfl
    (by decide!) (by decide) (by decide)

/-! ## Per-page locks on the failure path of lpage_copy -/

/-- C24. Per-page lock assertions. Copying the evicted page 0 with one free
frame, step by step as `lpage_copy` does: `lpage_materialize` returns the new
page 1 locked, with the frame 0x3000; the page 0 is locked, found
non-resident and unlocked; `coremap_allocuser` finds no frame; the frame of
the new page is unpinned; the thread then still holds the lock of the page
1, and `lpage_destroy(newlp)` starts by acquiring that lock: `lpage_lock`
deadlocks, so `lpage_destroy` and `lpage_copy` never return. -/
theorem lpage_copy_relocks_new_page :
    lpage_materialize copyfail_k = .done (.ok (1, 0x3000)) copyfail_ka ∧
    held_lpages copyfail_ka.lpages = [1] ∧
    lpage_lock_and_pin 0 copyfail_ka = .done () copyfail_kb ∧
    (∃ oldpg, heap_get copyfail_kb.lpages 0 = some oldpg ∧
      frame_of oldpg.lp_paddr = INVALID_PADDR) ∧
    lpage_unlock 0 copyfail_kb = .done () copyfail_kc ∧
    coremap_allocuser 0 copyfail_kc = .done INVALID_PADDR copyfail_kd ∧
    coremap_unpin 0x3000 copyfail_kd = .done () copyfail_ke ∧
    heap_get copyfail_ke.lpages 1 = some ⟨0x3000 ||| LPF_DIRTY, 0x6000, true⟩ ∧
    held_lpages copyfail_ke.lpages = [1] ∧
    lpage_lock 1 copyfail_ke = .halt .deadlock ∧
    lpage_destroy 1 copyfail_ke = .halt .deadlock ∧
    lpage_copy 0 copyfail_k = .halt .deadlock := by
  refine ⟨Outcome.eq_done_of_result _ _ _ (by decide!), by decide!,
    Outcome.eq_done_of_result _ _ _ (by decide!), ⟨⟨INVALID_PADDR, 0x5000, true⟩, by decide!, by decide⟩,
    Outcome.eq_done_of_result _ _ _ (by decide!), Outcome.eq_done_of_result _ _ _ (by decide!),
    Outcome.eq_done_of_result _ _ _ (by decide!), by decide!, by decide!, ?_, ?_, ?_⟩
  · rfl
  · rfl
  · rfl

end OS161
